import Mathlib

/-!
# Verification of the DataTable render-cache core

A shallow embedding of `src/textual/widgets/_data_table.py`: the key model
(`StringKey` / `RowKey` / `ColumnKey`), the location maps, the four render
caches keyed by the monotone update counter, the mutation operations
(`update_cell`, `add_row`, `add_column`, `sort`, `clear`), the selective
refresh operations, and the line-render pipeline
(`render_line` / `_render_line` / `_render_line_in_row` / `_render_cell`).

Helper modules of the repository that are not part of the provided sources
(`_cache.LRUCache`, `_two_way_dict.TwoWayDict`, `coordinate.Coordinate`,
`geometry` and `strip`/`_segment_tools` primitives, and the Rich rendering
calls) are modelled from the specification; each such definition carries a
doc comment starting with `Modelled from the spec:`.

Machine integers are modelled as `Int`/`Nat` (Python integers are unbounded,
so no overflow arithmetic is needed), fallible code returns `Option`/`Except`,
and the widget state is threaded explicitly through every operation.
-/

namespace Textual

/-- A key in a mapping, optionally wrapping a string (`StringKey` in the
source).  `uid` models CPython object identity `id(self)`, which the source
uses both for the hash of bare keys and for `is` comparisons. -/
structure StringKey where
  value : Option String
  uid : Nat
deriving DecidableEq, Repr

/-- The hash of a `StringKey` as used by Python dict lookups: the hash of the
wrapped string when present, otherwise the object id.  Hashes are modelled as
exact (injective), the idealisation the source relies on. -/
inductive KeyHash where
  | strHash (s : String)
  | idHash (n : Nat)
deriving DecidableEq, Repr

/-- `StringKey.__hash__`: hash of the string if supplied, else `id(self)`. -/
def StringKey.hashKey (k : StringKey) : KeyHash :=
  match k.value with
  | some s => .strHash s
  | none => .idHash k.uid

/-- `StringKey.__eq__` against another `StringKey`: string equality when both
wrap strings, otherwise hash equality. -/
def StringKey.eqKey (a b : StringKey) : Bool :=
  match a.value, b.value with
  | some x, some y => x == y
  | _, _ => a.hashKey == b.hashKey

/-- `StringKey.__eq__` against a raw string: true iff the key wraps that
string (`self.value == other`; a bare key's `None` never equals a string). -/
def StringKey.eqStr (a : StringKey) (s : String) : Bool :=
  a.value == some s

/-- Dictionary lookups with `StringKey` keys use hash-plus-`__eq__`
equality, so the `BEq` instance is `eqKey`, not structural equality. -/
instance : BEq StringKey := ⟨StringKey.eqKey⟩

/-- `RowKey` subclasses `StringKey` without changing behaviour. -/
abbrev RowKey := StringKey

/-- `ColumnKey` subclasses `StringKey` without changing behaviour. -/
abbrev ColumnKey := StringKey

/-- `CellKey`: a `(row_key, column_key)` pair. -/
abbrev CellKey := RowKey × ColumnKey

/-- Modelled from the spec: `Coordinate` is a `(row, column)` pair of
integers (`coordinate.py` is not among the provided sources). -/
structure Coordinate where
  row : Int
  column : Int
deriving DecidableEq, Repr

/-- `Coordinate.down()`: one row below. -/
def Coordinate.down (c : Coordinate) : Coordinate := ⟨c.row + 1, c.column⟩

/-- `Coordinate.up()`: one row above. -/
def Coordinate.up (c : Coordinate) : Coordinate := ⟨c.row - 1, c.column⟩

instance : BEq Coordinate := ⟨fun a b => decide (a = b)⟩

instance : LawfulBEq Coordinate where
  eq_of_beq h := of_decide_eq_true h
  rfl := decide_eq_true rfl

/-- Modelled from the spec: `Region` is an axis-aligned integer rectangle
`(x, y, width, height)` (`geometry.py` is not among the provided sources). -/
structure Region where
  x : Int
  y : Int
  width : Int
  height : Int
deriving DecidableEq, Repr

/-- Modelled from the spec: `Region.overlaps` is true iff the rectangles
share at least one cell. -/
def Region.overlaps (a b : Region) : Bool :=
  a.x < b.x + b.width && b.x < a.x + a.width &&
    a.y < b.y + b.height && b.y < a.y + a.height

/-- Modelled from the spec: `Region.translate` returns a new region offset
by the given amounts. -/
def Region.translate (r : Region) (dx dy : Int) : Region :=
  ⟨r.x + dx, r.y + dy, r.width, r.height⟩

/-- Modelled from the spec: `geometry.clamp` restricts a value to
`[minimum, maximum]`; it is total and idempotent (bounds are swapped first
when given in the wrong order, so a degenerate range never raises). -/
def clamp (value minimum maximum : Int) : Int :=
  let lo := if minimum > maximum then maximum else minimum
  let hi := if minimum > maximum then minimum else maximum
  if value < lo then lo else if value > hi then hi else value

/-- An opaque Rich `Style` value.  Styles are produced by external
collaborators (the CSS cascade); combination with `+` and the meta stamps
(`Style.from_meta`) are tracked symbolically, so distinct combination trees
are distinct styles. -/
inductive Style where
  | base (n : Nat)
  | component (name : String)
  | metaCoord (row : Int) (column : Int)
  | metaFixed
  | add (a b : Style)
deriving DecidableEq, Repr

instance : BEq Style := ⟨fun a b => decide (a = b)⟩

instance : LawfulBEq Style where
  eq_of_beq h := of_decide_eq_true h
  rfl := decide_eq_true rfl

/-- `style1 + style2` on Rich styles, tracked symbolically. -/
def Style.addStyle (a b : Style) : Style := .add a b

/-- The cursor type reactive: one of `"cell"`, `"row"`, `"column"`,
`"none"`. -/
inductive CursorType where
  | cell
  | row
  | column
  | none
deriving DecidableEq, Repr

instance : BEq CursorType := ⟨fun a b => decide (a = b)⟩

instance : LawfulBEq CursorType where
  eq_of_beq h := of_decide_eq_true h
  rfl := decide_eq_true rfl

/-- Modelled from the spec: the bounded LRU render cache of `_cache.py`
(not among the provided sources).  Entries are kept most-recent-first;
`set` after `get`/`set` on the same key updates recency, and eviction
removes the least recently used entry on overflow. -/
structure LRUCache (κ ν : Type) where
  maxSize : Nat
  entries : List (κ × ν)
deriving Repr

namespace LRUCache

/-- Membership test (`key in cache`); does not update recency. -/
def containsKey [BEq κ] (c : LRUCache κ ν) (k : κ) : Bool :=
  c.entries.any (fun p => p.1 == k)

/-- Lookup without recency update. -/
def peek [BEq κ] (c : LRUCache κ ν) (k : κ) : Option ν :=
  (c.entries.find? (fun p => p.1 == k)).map Prod.snd

/-- `cache[key]` lookup: returns the value and moves the entry to the
most-recent position. -/
def getTouch [BEq κ] (c : LRUCache κ ν) (k : κ) : Option ν × LRUCache κ ν :=
  match c.entries.find? (fun p => p.1 == k) with
  | Option.none => (Option.none, c)
  | some p =>
      (some p.2, ⟨c.maxSize, (k, p.2) :: c.entries.filter (fun q => !(q.1 == k))⟩)

/-- `cache[key] = value`: insert at the most-recent position, replacing any
existing entry for the key, and evict the least recently used entries past
`maxSize`. -/
def set [BEq κ] (c : LRUCache κ ν) (k : κ) (v : ν) : LRUCache κ ν :=
  ⟨c.maxSize, ((k, v) :: c.entries.filter (fun q => !(q.1 == k))).take c.maxSize⟩

/-- `cache.clear()`. -/
def clear (c : LRUCache κ ν) : LRUCache κ ν := ⟨c.maxSize, []⟩

end LRUCache

/-- Modelled from the spec: `_two_way_dict.TwoWayDict` (not among the
provided sources), the bidirectional key-to-index location map: `get` maps a
key to its current index, `getKey` maps an index back to its key, and
missing entries yield `None`. -/
structure TwoWayDict where
  entries : List (StringKey × Int)
deriving Repr

namespace TwoWayDict

/-- `d.get(key)`: the index currently assigned to `key`, if any. -/
def get (d : TwoWayDict) (k : StringKey) : Option Int :=
  (d.entries.find? (fun p => p.1 == k)).map Prod.snd

/-- `d.get_key(index)`: the key currently assigned to `index`, if any. -/
def getKey (d : TwoWayDict) (i : Int) : Option StringKey :=
  (d.entries.find? (fun p => p.2 == i)).map Prod.fst

/-- `key in d`. -/
def containsKey (d : TwoWayDict) (k : StringKey) : Bool :=
  (d.get k).isSome

/-- `d[key] = index`: update both directions. -/
def set (d : TwoWayDict) (k : StringKey) (i : Int) : TwoWayDict :=
  ⟨(k, i) :: d.entries.filter (fun p => !(p.1 == k))⟩

/-- The number of entries (`len`). -/
def size (d : TwoWayDict) : Nat := d.entries.length

end TwoWayDict

/-- Python-dict association list: lookup by `BEq` (hash-plus-eq) key
equality, first match wins. -/
def alistGet [BEq κ] (l : List (κ × ν)) (k : κ) : Option ν :=
  (l.find? (fun p => p.1 == k)).map Prod.snd

/-- Python-dict membership. -/
def alistContains [BEq κ] (l : List (κ × ν)) (k : κ) : Bool :=
  l.any (fun p => p.1 == k)

/-- Python-dict assignment `d[k] = v`: updating an existing key keeps its
position (and the originally inserted key object); a new key is appended,
preserving insertion order. -/
def alistSet [BEq κ] (l : List (κ × ν)) (k : κ) (v : ν) : List (κ × ν) :=
  if alistContains l k then
    l.map (fun p => if p.1 == k then (p.1, v) else p)
  else
    l ++ [(k, v)]

/-- Python list indexing `xs[i]` with negative-index wrap-around; `none`
models an `IndexError`. -/
def pyIdx (l : List ν) (i : Int) : Option ν :=
  let j := if i < 0 then i + l.length else i
  if h : 0 ≤ j ∧ j < l.length then
    some (l.get ⟨j.toNat, by omega⟩)
  else
    Option.none

/-- A Rich renderable, abstractly.  `default_cell_formatter` dispatches on
the runtime type of a cell to build a display renderable; it is modelled as
the injective embedding `cellValue`, `Text` labels as `text`, the empty
`Text()` as `empty`, and the blank filler produced by strip padding as
`blankSpace`. -/
inductive Renderable (α : Type) where
  | text (s : String)
  | cellValue (a : α)
  | empty
  | blankSpace
deriving DecidableEq, Repr

/-- Modelled from the spec: `render.measure` of a label — the content width
in cells of a piece of text as measured by the external Rich console. -/
def measureText (s : String) : Nat := s.length

/-- `default_cell_formatter`: converts a cell value into a renderable for
display.  The source's type dispatch (markup for `str`, 2-decimal formatting
for `float`, `str()` fallback) is absorbed into the injective abstract
embedding, and the `or empty` fallback for falsy renderables is not
distinguished. -/
def default_cell_formatter (a : α) : Renderable α := .cellValue a

/-- One rendered line of one cell: a run of `width` terminal cells showing
`content` with `style`; `lineNo` is the line within the cell's height. -/
structure CellLine (α : Type) where
  content : Renderable α
  style : Style
  width : Nat
  lineNo : Nat
deriving DecidableEq, Repr

/-- Modelled from the spec: the result of the external
`console.render_lines(Padding(cell, (0, 1)), options, style)` call — a list
of `height` lines, each of `width` cells, fully determined by (and recorded
as) its inputs. -/
structure RenderedCell (α : Type) where
  content : Renderable α
  style : Style
  width : Nat
  height : Nat
deriving DecidableEq, Repr

/-- `rendered[line_no]`: pick one line from a rendered cell, with Python
list-index semantics over the `height` lines. -/
def RenderedCell.line (r : RenderedCell α) (lineNo : Int) : Option (CellLine α) :=
  let j := if lineNo < 0 then lineNo + r.height else lineNo
  if 0 ≤ j ∧ j < r.height then some ⟨r.content, r.style, r.width, j.toNat⟩
  else Option.none

/-- A cropped segment of a strip: the visible sub-range `[start, stop)` of
one cell line (crops split segments at cell boundaries, preserving style). -/
structure CropSeg (α : Type) where
  seg : CellLine α
  start : Nat
  stop : Nat
deriving DecidableEq, Repr

/-- The visible cell width of a cropped segment. -/
def CropSeg.cellLength (c : CropSeg α) : Nat := c.stop - c.start

/-- Modelled from the spec: `Strip`, an immutable horizontal run of styled
segments representing one terminal row. -/
structure Strip (α : Type) where
  segments : List (CropSeg α)
deriving DecidableEq, Repr

/-- The total cell width of a strip. -/
def Strip.cellLength (s : Strip α) : Nat :=
  (s.segments.map CropSeg.cellLength).sum

/-- Modelled from the spec: `_segment_tools.line_crop` keeps the portion of
a segment line covering the horizontal range `[x1, x2)`, splitting segments
at the boundaries and preserving style.  `cum` is the cell offset of the
first segment. -/
def lineCropAux (segs : List (CellLine α)) (x1 x2 cum : Int) : List (CropSeg α) :=
  match segs with
  | [] => []
  | seg :: rest =>
      let segStart := cum
      let segEnd := cum + seg.width
      let visStart := max x1 segStart
      let visEnd := min x2 segEnd
      let tail := lineCropAux rest x1 x2 segEnd
      if visStart < visEnd then
        ⟨seg, (visStart - segStart).toNat, (visEnd - segStart).toNat⟩ :: tail
      else
        tail

/-- `line_crop(segments, start, end, total)`: the sub-line covering
`[x1, x2)` (the `total` argument does not affect the selected content). -/
def line_crop (segs : List (CellLine α)) (x1 x2 : Int) : List (CropSeg α) :=
  lineCropAux segs x1 x2 0

/-- Crop an already-cropped segment list to its first `width` cells (used by
`adjust_cell_length` when the line is too long). -/
def cropSegsTo (segs : List (CropSeg α)) (width : Nat) : List (CropSeg α) :=
  match segs with
  | [] => []
  | c :: rest =>
      if width = 0 then []
      else if c.cellLength ≤ width then c :: cropSegsTo rest (width - c.cellLength)
      else [⟨c.seg, c.start, c.start + width⟩]

/-- A blank segment of `width` cells in `style` (`Segment(" " * width)`). -/
def blankSeg (width : Nat) (style : Style) : CropSeg α :=
  ⟨⟨Renderable.blankSpace, style, width, 0⟩, 0, width⟩

/-- `Strip.blank(width, style)`. -/
def Strip.blank (width : Nat) (style : Style) : Strip α :=
  ⟨[blankSeg width style]⟩

/-- Modelled from the spec: `Strip.adjust_cell_length` normalises a strip to
exactly `width` cells, padding with the base style if short and truncating
if long. -/
def Strip.adjust_cell_length (s : Strip α) (width : Nat) (style : Style) : Strip α :=
  let len := s.cellLength
  if len < width then ⟨s.segments ++ [blankSeg (width - len) style]⟩
  else if len > width then ⟨cropSegsTo s.segments width⟩
  else s

/-- `Strip.simplify` merges adjacent segments that share a style without
changing the displayed content; on this abstract segment model it is the
identity. -/
def Strip.simplify (s : Strip α) : Strip α := s

/-- `CellCacheKey`: `(row_key, column_key, style, cursor, hover,
update_count)`.  The row and column key components are the results of
`TwoWayDict.get_key`, hence optional. -/
abbrev CellCacheKey := Option StringKey × Option StringKey × Style × Bool × Bool × Nat

/-- `RowCacheKey`: `(row_key, line_no, base_style, cursor_location,
hover_location, cursor_type, show_cursor, show_hover_cursor,
update_count)`. -/
abbrev RowCacheKey :=
  StringKey × Int × Style × Coordinate × Coordinate × CursorType × Bool × Bool × Nat

/-- `LineCacheKey`: `(y, x1, x2, width, cursor_coordinate, hover_coordinate,
base_style, cursor_type, show_hover_cursor, update_count)`. -/
abbrev LineCacheKey :=
  Int × Int × Int × Nat × Coordinate × Coordinate × Style × CursorType × Bool × Nat

/-- The update-counter component of a cell cache key. -/
def CellCacheKey.count (k : CellCacheKey) : Nat := k.2.2.2.2.2

/-- The update-counter component of a row cache key. -/
def RowCacheKey.count (k : RowCacheKey) : Nat := k.2.2.2.2.2.2.2.2

/-- The update-counter component of a line cache key. -/
def LineCacheKey.count (k : LineCacheKey) : Nat := k.2.2.2.2.2.2.2.2.2

/-- `Column` metadata: label, declared width, measured content width, and
whether the width is auto-computed. -/
structure Column where
  key : ColumnKey
  label : String
  width : Nat
  content_width : Nat
  auto_width : Bool
deriving DecidableEq, Repr

/-- `Column.render_width`: width in cells required to render a column; `+2`
accounts for one cell of space padding on either side. -/
def Column.render_width (c : Column) : Nat :=
  if c.auto_width then c.content_width + 2 else c.width + 2

/-- `Row` metadata: height in lines and an optional label. -/
structure Row where
  key : RowKey
  height : Nat
  label : Option String
deriving DecidableEq, Repr

/-- A row ready for rendering: optional label renderable plus one
renderable per column (`RenderedRow` in the source). -/
structure RenderedRow (α : Type) where
  label : Option (Renderable α)
  cells : List (Renderable α)
deriving DecidableEq, Repr

/-- The exceptions raised by the table (`CellDoesNotExist`,
`RowDoesNotExist`, `ColumnDoesNotExist`, `DuplicateKey`, plus the Python
`LookupError`/`TypeError` families escaping from helper code). -/
inductive TableError where
  | cellDoesNotExist
  | rowDoesNotExist
  | columnDoesNotExist
  | duplicateKey
  | lookupFailure
  | typeFailure
  | attributeFailure
deriving DecidableEq, Repr

/-- Observable side effects emitted towards external collaborators: repaint
requests and posted messages. -/
inductive Effect (α : Type) where
  | refreshRegion (r : Region)
  | refreshFull
  | cellHighlighted (value : Option α) (coordinate : Coordinate) (cellKey : CellKey)
  | rowHighlighted (cursorRow : Int) (rowKey : Option RowKey)
  | columnHighlighted (cursorColumn : Int) (columnKey : Option ColumnKey)
  | checkIdle
deriving DecidableEq, Repr

/-- The state of a `DataTable` widget, together with the externally supplied
widget environment (size, scroll offset, visible window region, and the
styles delivered by the CSS cascade). -/
structure DataTable (α : Type) where
  /-- `self._data`: cells indexed by row key then column key.  Values are
  optional because `add_row` zips columns and supplied cells with
  `zip_longest`, padding missing cells with `None`. -/
  data : List (RowKey × List (ColumnKey × Option α))
  /-- `self.columns`: column metadata by key, in insertion order. -/
  columns : List (ColumnKey × Column)
  /-- `self.rows`: row metadata by key, in insertion order. -/
  rows : List (RowKey × Row)
  /-- `self._row_locations`. -/
  row_locations : TwoWayDict
  /-- `self._column_locations`. -/
  column_locations : TwoWayDict
  /-- `self._row_render_cache` (maximum size 1000). -/
  row_render_cache : LRUCache RowCacheKey (List (CellLine α) × List (CellLine α))
  /-- `self._cell_render_cache` (maximum size 10000). -/
  cell_render_cache : LRUCache CellCacheKey (RenderedCell α)
  /-- `self._line_cache` (maximum size 1000). -/
  line_cache : LRUCache LineCacheKey (Strip α)
  /-- `self._offset_cache` (maximum size 1), keyed by the update count. -/
  offset_cache : LRUCache Nat (List (RowKey × Nat))
  /-- `self._ordered_row_cache` (maximum size 1), keyed by
  `(num_rows, update_count)`. -/
  ordered_row_cache : LRUCache (Nat × Nat) (List Row)
  /-- `self._require_update_dimensions`. -/
  require_update_dimensions : Bool
  /-- `self._new_rows` (a set, modelled as a list). -/
  new_rows : List RowKey
  /-- `self._updated_cells` (a set, modelled as a list). -/
  updated_cells : List CellKey
  /-- `self._show_hover_cursor`. -/
  show_hover_cursor : Bool
  /-- `self._update_count`: number of update operations (including sort) so
  far, used for cache invalidation. -/
  update_count : Nat
  /-- `self._header_row_key`: a bare key identifying the synthetic header
  row. -/
  header_row_key : RowKey
  /-- `self._label_column_key`: a bare key identifying the row-label
  column. -/
  label_column_key : ColumnKey
  /-- `self._labelled_row_exists`. -/
  labelled_row_exists : Bool
  /-- `self._row_label_column_width`. -/
  row_label_column_width : Nat
  /-- Reactive `show_header`. -/
  show_header : Bool
  /-- Reactive `show_row_labels`. -/
  show_row_labels : Bool
  /-- Reactive `fixed_rows`. -/
  fixed_rows : Nat
  /-- Reactive `fixed_columns`. -/
  fixed_columns : Nat
  /-- Reactive `zebra_stripes`. -/
  zebra_stripes : Bool
  /-- Reactive `header_height`. -/
  header_height : Nat
  /-- Reactive `show_cursor`. -/
  show_cursor : Bool
  /-- Reactive `cursor_type`. -/
  cursor_type : CursorType
  /-- Reactive `cursor_coordinate`. -/
  cursor_coordinate : Coordinate
  /-- Reactive `hover_coordinate`. -/
  hover_coordinate : Coordinate
  /-- Widget environment: `self.size.width`. -/
  size_width : Nat
  /-- Widget environment: `self.size.height`. -/
  size_height : Nat
  /-- Widget environment: `self.scroll_offset.x`. -/
  scroll_x : Int
  /-- Widget environment: `self.scroll_offset.y`. -/
  scroll_y : Int
  /-- Widget environment: `self.window_region`. -/
  window_region : Region
  /-- Widget environment: `self.rich_style`, the widget's base style. -/
  rich_style : Style
  /-- Widget environment: `self.get_component_styles(name).rich_style`. -/
  component_style : String → Style
  /-- Fresh-identity source for newly constructed bare keys (models the
  allocator behind `id(obj)`). -/
  next_uid : Nat

namespace DataTable

variable {α : Type} [DecidableEq α]

/-- `row_count`: the number of rows currently present. -/
def row_count (t : DataTable α) : Nat := t.rows.length

/-- `is_valid_row_index`: true iff `0 <= row_index < len(self.rows)`. -/
def is_valid_row_index (t : DataTable α) (row_index : Int) : Bool :=
  decide (0 ≤ row_index ∧ row_index < t.rows.length)

/-- `is_valid_column_index`: true iff `0 <= column_index < len(self.columns)`. -/
def is_valid_column_index (t : DataTable α) (column_index : Int) : Bool :=
  decide (0 ≤ column_index ∧ column_index < t.columns.length)

/-- `is_valid_coordinate`: both components in bounds. -/
def is_valid_coordinate (t : DataTable α) (c : Coordinate) : Bool :=
  t.is_valid_row_index c.row && t.is_valid_column_index c.column

/-- Property `ordered_columns`: the columns in on-screen order
(`get_key` each index, then look the key up in `self.columns`; a missing
index or key raises, modelled as `none`). -/
def ordered_columns (t : DataTable α) : Option (List Column) :=
  (List.range t.columns.length).mapM
    (fun i => (t.column_locations.getKey i).bind (fun k => alistGet t.columns k))

/-- Property `ordered_rows`: the rows in on-screen order, cached in
`self._ordered_row_cache` under the key `(num_rows, update_count)`. -/
def ordered_rows (t : DataTable α) : Option (List Row × DataTable α) :=
  let cache_key := (t.row_count, t.update_count)
  match t.ordered_row_cache.getTouch cache_key with
  | (some rs, c) => some (rs, { t with ordered_row_cache := c })
  | (Option.none, _) =>
      match (List.range t.row_count).mapM
          (fun i => (t.row_locations.getKey i).bind (fun k => alistGet t.rows k)) with
      | Option.none => Option.none
      | some ordered =>
          some (ordered,
            { t with ordered_row_cache := t.ordered_row_cache.set cache_key ordered })

/-- Property `_y_offsets`: one `(row_key, offset_within_row)` pair per
display line, cached in `self._offset_cache` under the update count. -/
def y_offsets (t : DataTable α) : Option (List (RowKey × Nat) × DataTable α) :=
  match t.offset_cache.getTouch t.update_count with
  | (some ys, c) => some (ys, { t with offset_cache := c })
  | (Option.none, _) =>
      match ordered_rows t with
      | Option.none => Option.none
      | some (rs, t₁) =>
          let ys := rs.flatMap (fun r => (List.range r.height).map (fun j => (r.key, j)))
          some (ys, { t₁ with offset_cache := t₁.offset_cache.set t.update_count ys })

/-- Property `_total_row_height`: the length of `_y_offsets`. -/
def total_row_height (t : DataTable α) : Option (Nat × DataTable α) :=
  (y_offsets t).map (fun p => (p.1.length, p.2))

/-- `get_row_height`: header height for the synthetic header key (an `is`
comparison, hence structural equality on the key object), otherwise the
row's stored height (`KeyError` modelled as `none`). -/
def get_row_height (t : DataTable α) (row_key : RowKey) : Option Nat :=
  if row_key = t.header_row_key then some t.header_height
  else (alistGet t.rows row_key).map Row.height

/-- `get_cell`: the stored value for a row key and column key;
`CellDoesNotExist` when either lookup fails. -/
def get_cell (t : DataTable α) (row_key : RowKey) (column_key : ColumnKey) :
    Except TableError (Option α) :=
  match alistGet t.data row_key with
  | Option.none => .error .cellDoesNotExist
  | some row_data =>
      match alistGet row_data column_key with
      | Option.none => .error .cellDoesNotExist
      | some v => .ok v

/-- `coordinate_to_cell_key`: the keys currently occupying a coordinate
(`CellDoesNotExist` for an invalid coordinate; the `get_key` results may be
`None` on inconsistent maps). -/
def coordinate_to_cell_key (t : DataTable α) (c : Coordinate) :
    Except TableError (Option RowKey × Option ColumnKey) :=
  if ¬ t.is_valid_coordinate c then .error .cellDoesNotExist
  else .ok (t.row_locations.getKey c.row, t.column_locations.getKey c.column)

/-- `get_cell_at`: value of the cell occupying a coordinate (a `None` key
from the location maps leads to the same `KeyError`-based
`CellDoesNotExist` as a missing key). -/
def get_cell_at (t : DataTable α) (c : Coordinate) : Except TableError (Option α) :=
  match coordinate_to_cell_key t c with
  | .error e => .error e
  | .ok (some rk, some ck) => get_cell t rk ck
  | .ok _ => .error .cellDoesNotExist

/-- `get_row`: the values of a row in current column order;
`RowDoesNotExist` when the key is not in the location map, a raw `KeyError`
(modelled `lookupFailure`) when a column's cell is missing. -/
def get_row (t : DataTable α) (row_key : RowKey) :
    Except TableError (List (Option α)) :=
  if ¬ t.row_locations.containsKey row_key then .error .rowDoesNotExist
  else
    let cell_mapping := (alistGet t.data row_key).getD []
    match ordered_columns t with
    | Option.none => .error .lookupFailure
    | some cols =>
        match cols.mapM (fun col => alistGet cell_mapping col.key) with
        | Option.none => .error .lookupFailure
        | some vs => .ok vs

/-- `get_row_at`: the values of the row at a display index. -/
def get_row_at (t : DataTable α) (row_index : Int) :
    Except TableError (List (Option α)) :=
  if ¬ t.is_valid_row_index row_index then .error .rowDoesNotExist
  else
    match t.row_locations.getKey row_index with
    | Option.none => .error .rowDoesNotExist
    | some rk => get_row t rk

/-- `_clear_caches`: clear the render caches.  (The widget-level
`_styles_cache` also cleared by the source lives in the external widget
base class and is outside this model.) -/
def clear_caches (t : DataTable α) : DataTable α :=
  { t with
    row_render_cache := t.row_render_cache.clear
    cell_render_cache := t.cell_render_cache.clear
    line_cache := t.line_cache.clear
    offset_cache := t.offset_cache.clear
    ordered_row_cache := t.ordered_row_cache.clear }

/-- `_should_render_row_labels`. -/
def should_render_row_labels (t : DataTable α) : Bool :=
  t.labelled_row_exists && t.show_row_labels

/-- `_get_cell_region`: the absolute region of the cell at a coordinate;
the zero region for an invalid coordinate.  The `ordered_rows` slice used
for the y position goes through the ordered-row cache, so the state is
threaded; `none` models an escaping `KeyError`. -/
def get_cell_region (t : DataTable α) (c : Coordinate) :
    Option (Region × DataTable α) :=
  if ¬ t.is_valid_coordinate c then some (⟨0, 0, 0, 0⟩, t)
  else
    match (t.row_locations.getKey c.row).bind (fun rk => alistGet t.rows rk) with
    | Option.none => Option.none
    | some row =>
        match ordered_columns t with
        | Option.none => Option.none
        | some cols =>
            let x : Int := (((cols.take c.column.toNat).map Column.render_width).sum : Nat)
            match (t.column_locations.getKey c.column).bind
                (fun ck => alistGet t.columns ck) with
            | Option.none => Option.none
            | some col =>
                let width : Int := (col.render_width : Nat)
                let height : Int := (row.height : Nat)
                match ordered_rows t with
                | Option.none => Option.none
                | some (ors, t₁) =>
                    let y : Int :=
                      ((((ors.take c.row.toNat).map Row.height).sum : Nat) : Int) +
                        (if t₁.show_header then (t₁.header_height : Int) else 0)
                    some (⟨x, y, width, height⟩, t₁)

/-- `_get_row_region`: the absolute region of the row at an index; the zero
region when out of bounds.  Row width sums over `self.columns.values()`
(insertion order). -/
def get_row_region (t : DataTable α) (row_index : Int) :
    Option (Region × DataTable α) :=
  if ¬ t.is_valid_row_index row_index then some (⟨0, 0, 0, 0⟩, t)
  else
    match (t.row_locations.getKey row_index).bind (fun rk => alistGet t.rows rk) with
    | Option.none => Option.none
    | some row =>
        let row_width : Int := ((t.columns.map (fun p => p.2.render_width)).sum : Nat)
        match ordered_rows t with
        | Option.none => Option.none
        | some (ors, t₁) =>
            let y : Int :=
              ((((ors.take row_index.toNat).map Row.height).sum : Nat) : Int) +
                (if t₁.show_header then (t₁.header_height : Int) else 0)
            some (⟨0, y, row_width, (row.height : Nat)⟩, t₁)

/-- `_get_column_region`: the absolute region of the column at an index;
the zero region when out of bounds. -/
def get_column_region (t : DataTable α) (column_index : Int) :
    Option (Region × DataTable α) :=
  if ¬ t.is_valid_column_index column_index then some (⟨0, 0, 0, 0⟩, t)
  else
    match ordered_columns t with
    | Option.none => Option.none
    | some cols =>
        let x : Int := (((cols.take column_index.toNat).map Column.render_width).sum : Nat)
        match (t.column_locations.getKey column_index).bind
            (fun ck => alistGet t.columns ck) with
        | Option.none => Option.none
        | some col =>
            match total_row_height t with
            | Option.none => Option.none
            | some (trh, t₁) =>
                let header_height : Int :=
                  if t₁.show_header then (t₁.header_height : Int) else 0
                some (⟨x, 0, (col.render_width : Nat), (trh : Int) + header_height⟩, t₁)

/-- `_refresh_region`: clip a region against the visible window and
translate it by the negative scroll offset; `none` when it does not overlap
the window (no repaint scheduled).  Reads state only. -/
def refresh_region_op (t : DataTable α) (region : Region) : Option Region :=
  if ¬ t.window_region.overlaps region then Option.none
  else some (region.translate (-t.scroll_x) (-t.scroll_y))

/-- `refresh_coordinate`: silently ignore an invalid coordinate, otherwise
schedule a repaint of the cell's region.  Returns the emitted repaint
region (if any) and the threaded state; `none` models an escaping
exception. -/
def refresh_coordinate (t : DataTable α) (c : Coordinate) :
    Option (Option Region × DataTable α) :=
  if ¬ t.is_valid_coordinate c then some (Option.none, t)
  else
    (get_cell_region t c).map (fun p => (refresh_region_op p.2 p.1, p.2))

/-- `refresh_row`: silently ignore an out-of-bounds index, otherwise
schedule a repaint of the row's region. -/
def refresh_row (t : DataTable α) (row_index : Int) :
    Option (Option Region × DataTable α) :=
  if ¬ t.is_valid_row_index row_index then some (Option.none, t)
  else
    (get_row_region t row_index).map (fun p => (refresh_region_op p.2 p.1, p.2))

/-- `refresh_column`: silently ignore an out-of-bounds index, otherwise
schedule a repaint of the column's region. -/
def refresh_column (t : DataTable α) (column_index : Int) :
    Option (Option Region × DataTable α) :=
  if ¬ t.is_valid_column_index column_index then some (Option.none, t)
  else
    (get_column_region t column_index).map (fun p => (refresh_region_op p.2 p.1, p.2))

/-- Turn an optional repaint region into the emitted effect list. -/
def emitRegion (r : Option Region) : List (Effect α) :=
  match r with
  | Option.none => []
  | some region => [Effect.refreshRegion region]

/-- `_highlight_coordinate`: repaint the cell and post `CellHighlighted`
with its current value; a `CellDoesNotExist` from the value lookup is
swallowed (nothing posted). -/
def highlight_coordinate (t : DataTable α) (c : Coordinate) :
    Option (DataTable α × List (Effect α)) :=
  match refresh_coordinate t c with
  | Option.none => Option.none
  | some (em, t₁) =>
      match get_cell_at t₁ c with
      | .error .cellDoesNotExist => some (t₁, emitRegion em)
      | .error _ => Option.none
      | .ok v =>
          match coordinate_to_cell_key t₁ c with
          | .ok (some rk, some ck) =>
              some (t₁, emitRegion em ++ [Effect.cellHighlighted v c (rk, ck)])
          | _ => Option.none

/-- `_highlight_row`: repaint the row and post `RowHighlighted` when
`row_index < len(self._data)` (the source's validity test). -/
def highlight_row (t : DataTable α) (row_index : Int) :
    Option (DataTable α × List (Effect α)) :=
  match refresh_row t row_index with
  | Option.none => Option.none
  | some (em, t₁) =>
      if row_index < (t₁.data.length : Int) then
        some (t₁, emitRegion em ++
          [Effect.rowHighlighted row_index (t₁.row_locations.getKey row_index)])
      else some (t₁, emitRegion em)

/-- `_highlight_column`: repaint the column and post `ColumnHighlighted`
when `column_index < len(self.columns)`. -/
def highlight_column (t : DataTable α) (column_index : Int) :
    Option (DataTable α × List (Effect α)) :=
  match refresh_column t column_index with
  | Option.none => Option.none
  | some (em, t₁) =>
      if column_index < (t₁.columns.length : Int) then
        some (t₁, emitRegion em ++
          [Effect.columnHighlighted column_index (t₁.column_locations.getKey column_index)])
      else some (t₁, emitRegion em)

/-- `_clamp_cursor_coordinate`: clamp a coordinate to the boundaries of the
table (rows to `[0, row_count - 1]`, columns to `[0, len(columns) - 1]`). -/
def clamp_cursor_coordinate (t : DataTable α) (c : Coordinate) : Coordinate :=
  ⟨clamp c.row 0 ((t.row_count : Int) - 1),
    clamp c.column 0 ((t.columns.length : Int) - 1)⟩

/-- `validate_cursor_coordinate`: delegates to the clamp. -/
def validate_cursor_coordinate (t : DataTable α) (c : Coordinate) : Coordinate :=
  clamp_cursor_coordinate t c

/-- `watch_cursor_coordinate`: when the coordinate actually changed,
repaint the old target and highlight the new one according to the cursor
type; otherwise do nothing. -/
def watch_cursor_coordinate (t : DataTable α)
    (old_coordinate new_coordinate : Coordinate) :
    Option (DataTable α × List (Effect α)) :=
  if old_coordinate ≠ new_coordinate then
    match t.cursor_type with
    | .cell =>
        match refresh_coordinate t old_coordinate with
        | Option.none => Option.none
        | some (em, t₁) =>
            match highlight_coordinate t₁ new_coordinate with
            | Option.none => Option.none
            | some (t₂, eff) => some (t₂, emitRegion em ++ eff)
    | .row =>
        match refresh_row t old_coordinate.row with
        | Option.none => Option.none
        | some (em, t₁) =>
            match highlight_row t₁ new_coordinate.row with
            | Option.none => Option.none
            | some (t₂, eff) => some (t₂, emitRegion em ++ eff)
    | .column =>
        match refresh_column t old_coordinate.column with
        | Option.none => Option.none
        | some (em, t₁) =>
            match highlight_column t₁ new_coordinate.column with
            | Option.none => Option.none
            | some (t₂, eff) => some (t₂, emitRegion em ++ eff)
    | .none => some (t, [])
  else some (t, [])

/-- Modelled from the spec: assigning the `cursor_coordinate` reactive runs
the validator (the clamp), stores the value, and then invokes the watch
method with the old and new values (`always_update=True`, so the watch runs
even when the value is unchanged). -/
def set_cursor_coordinate (t : DataTable α) (v : Coordinate) :
    Option (DataTable α × List (Effect α)) :=
  let old := t.cursor_coordinate
  let new := validate_cursor_coordinate t v
  let t₁ := { t with cursor_coordinate := new }
  watch_cursor_coordinate t₁ old new

/-- `watch_hover_coordinate`: repaint the old and new hover targets. -/
def watch_hover_coordinate (t : DataTable α) (old value : Coordinate) :
    Option (DataTable α × List (Effect α)) :=
  match refresh_coordinate t old with
  | Option.none => Option.none
  | some (em₁, t₁) =>
      match refresh_coordinate t₁ value with
      | Option.none => Option.none
      | some (em₂, t₂) => some (t₂, emitRegion em₁ ++ emitRegion em₂)

/-- Modelled from the spec: assigning the `hover_coordinate` reactive (no
validator, no `always_update`) stores the value and invokes the watch
method only when the value changed. -/
def set_hover_coordinate (t : DataTable α) (v : Coordinate) :
    Option (DataTable α × List (Effect α)) :=
  let old := t.hover_coordinate
  if old = v then some ({ t with hover_coordinate := v }, [])
  else watch_hover_coordinate { t with hover_coordinate := v } old v

/-- `_highlight_cursor`: dispatch highlighting on the cursor type for the
current cursor coordinate. -/
def highlight_cursor (t : DataTable α) : Option (DataTable α × List (Effect α)) :=
  match t.cursor_type with
  | .cell => highlight_coordinate t t.cursor_coordinate
  | .row => highlight_row t t.cursor_coordinate.row
  | .column => highlight_column t t.cursor_coordinate.column
  | .none => some (t, [])

/-- `_get_row_renderables`: the optional label renderable and one
renderable per column for the row at a display index; index `-1` yields the
header row of column labels. -/
def get_row_renderables (t : DataTable α) (row_index : Int) :
    Except TableError (RenderedRow α) :=
  match ordered_columns t with
  | Option.none => .error .lookupFailure
  | some cols =>
      if row_index = -1 then
        .ok ⟨Option.none, cols.map (fun c => Renderable.text c.label)⟩
      else
        match get_row_at t row_index with
        | .error e => .error e
        | .ok ordered_row =>
            let formatted := ordered_row.map (fun datum =>
              match datum with
              | Option.none => Renderable.empty
              | some v => default_cell_formatter v)
            if t.should_render_row_labels then
              match (t.row_locations.getKey row_index).bind
                  (fun rk => alistGet t.rows rk) with
              | Option.none => .error .attributeFailure
              | some row_metadata =>
                  let label :=
                    match row_metadata.label with
                    | some l => if l ≠ "" then some (Renderable.text l) else Option.none
                    | Option.none => Option.none
                  .ok ⟨label, formatted⟩
            else .ok ⟨Option.none, formatted⟩

/-- The local `_should_highlight` helper of `_render_line_in_row`: does the
cursor at `cursor` highlight `target_cell` under the given cursor type? -/
def should_highlight (cursor target_cell : Coordinate)
    (type_of_cursor : CursorType) : Bool :=
  match type_of_cursor with
  | .cell => cursor == target_cell
  | .row => cursor.row == target_cell.row
  | .column => cursor.column == target_cell.column
  | .none => false

/-- The style actually applied to a cell by `_render_cell`: the incoming
style plus the hover and cursor component styles, with the header and
fixed-cell variations. -/
def cell_style (t : DataTable α) (row_index column_index : Int) (style : Style)
    (cursor hover : Bool) : Style :=
  let is_header_cell := row_index = -1
  let is_row_label_cell := column_index = -1
  let is_fixed_style_cell :=
    ¬ is_header_cell ∧ ¬ is_row_label_cell ∧
      (row_index < (t.fixed_rows : Int) ∨ column_index < (t.fixed_columns : Int))
  let style₁ :=
    if hover ∧ t.show_cursor ∧ t.show_hover_cursor then
      let s := style.addStyle (t.component_style "datatable--hover")
      if is_header_cell then s.addStyle (t.component_style "datatable--header-hover")
      else s
    else style
  if cursor ∧ t.show_cursor then
    let s := style₁.addStyle (t.component_style "datatable--cursor")
    if is_header_cell then s.addStyle (t.component_style "datatable--header-cursor")
    else if is_fixed_style_cell then
      s.addStyle (t.component_style "datatable--fixed-cursor")
    else s
  else style₁

/-- The row key under which `_render_cell` caches: the synthetic header key
for row index `-1`, otherwise the location-map lookup. -/
def cell_row_key (t : DataTable α) (row_index : Int) : Option RowKey :=
  if row_index = -1 then some t.header_row_key
  else t.row_locations.getKey row_index

/-- `CellCacheKey` as built by `_render_cell`:
`(row_key, column_key, style, cursor, hover, update_count)` with the style
taken before the row/column meta stamp is appended. -/
def cell_cache_key (t : DataTable α) (row_index column_index : Int)
    (style : Style) (cursor hover : Bool) : CellCacheKey :=
  (cell_row_key t row_index, t.column_locations.getKey column_index,
    cell_style t row_index column_index style cursor hover, cursor, hover,
    t.update_count)

/-- `_render_cell`: render one cell (or fetch it from the cell cache). -/
def render_cell (t : DataTable α) (row_index column_index : Int) (style : Style)
    (width : Nat) (cursor hover : Bool) :
    Except TableError (RenderedCell α × DataTable α) :=
  let is_header_cell := row_index = -1
  let key : CellCacheKey :=
    cell_cache_key t row_index column_index style cursor hover
  let filled : Except TableError (DataTable α) :=
    if ¬ t.cell_render_cache.containsKey key then
      let style₃ :=
        (cell_style t row_index column_index style cursor hover).addStyle
          (Style.metaCoord row_index column_index)
      match (if is_header_cell then some t.header_height
             else ((cell_row_key t row_index).bind
               (fun rk => alistGet t.rows rk)).map Row.height) with
      | Option.none => .error .lookupFailure
      | some height =>
          match get_row_renderables t row_index with
          | .error e => .error e
          | .ok rr =>
              match pyIdx rr.cells column_index with
              | Option.none => .error .lookupFailure
              | some cell =>
                  .ok
                    { t with
                      cell_render_cache :=
                        t.cell_render_cache.set key ⟨cell, style₃, width, height⟩ }
    else .ok t
  match filled with
  | .error e => .error e
  | .ok t₁ =>
      match t₁.cell_render_cache.getTouch key with
      | (some v, c) => .ok (v, { t₁ with cell_render_cache := c })
      | (Option.none, _) => .error .lookupFailure

/-- The per-column rendering loop of `_render_line_in_row`: render each
`(column_index, column)` pair with the given style, pick line `line_no`,
and thread the state. -/
def render_cells_loop (t : DataTable α) (items : List (Nat × Column))
    (row_index : Int) (style : Style) (line_no : Int)
    (cursor_location hover_location : Coordinate) (ct : CursorType) :
    Except TableError (List (CellLine α) × DataTable α) :=
  match items with
  | [] => .ok ([], t)
  | (ci, col) :: rest =>
      let cell_location : Coordinate := ⟨row_index, (ci : Int)⟩
      match render_cell t row_index (ci : Int) style col.render_width
          (should_highlight cursor_location cell_location ct)
          (should_highlight hover_location cell_location ct) with
      | .error e => .error e
      | .ok (rc, t₁) =>
          match rc.line line_no with
          | Option.none => .error .lookupFailure
          | some cl =>
              match render_cells_loop t₁ rest row_index style line_no
                  cursor_location hover_location ct with
              | .error e => .error e
              | .ok (cls, t₂) => .ok (cl :: cls, t₂)

/-- `_render_line_in_row`: render one line of one row as fixed and
scrollable cell-line lists, through the row render cache. -/
def render_line_in_row (t : DataTable α) (row_key : RowKey) (line_no : Int)
    (base_style : Style) (cursor_location hover_location : Coordinate) :
    Except TableError ((List (CellLine α) × List (CellLine α)) × DataTable α) :=
  let cursor_type := t.cursor_type
  let cache_key : RowCacheKey :=
    (row_key, line_no, base_style, cursor_location, hover_location,
      cursor_type, t.show_cursor, t.show_hover_cursor, t.update_count)
  match t.row_render_cache.getTouch cache_key with
  | (some pair, c) => .ok (pair, { t with row_render_cache := c })
  | (Option.none, _) =>
      let is_header_row := row_key = t.header_row_key
      let row_index : Int := (t.row_locations.get row_key).getD (-1)
      let header_style := t.component_style "datatable--header"
      let labelled : Except TableError (List (CellLine α) × DataTable α) :=
        if t.labelled_row_exists ∧ t.show_row_labels ∧ ¬ is_header_row then
          match render_cell t row_index (-1) header_style
              t.row_label_column_width false false with
          | .error e => .error e
          | .ok (rc, t₁) =>
              match rc.line line_no with
              | Option.none => .error .lookupFailure
              | some cl => .ok ([cl], t₁)
        else .ok ([], t)
      match labelled with
      | .error e => .error e
      | .ok (label_row, t₁) =>
          match ordered_columns t₁ with
          | Option.none => .error .lookupFailure
          | some cols =>
              let fixed_part : Except TableError (List (CellLine α) × DataTable α) :=
                if t₁.fixed_columns ≠ 0 then
                  let fixed_style :=
                    (t₁.component_style "datatable--fixed").addStyle Style.metaFixed
                  render_cells_loop t₁ (cols.take t₁.fixed_columns).enum row_index
                    (if is_header_row then header_style else fixed_style) line_no
                    cursor_location hover_location cursor_type
                else .ok ([], t₁)
              match fixed_part with
              | .error e => .error e
              | .ok (fixed_cells, t₂) =>
                  let fixed_row := label_row ++ fixed_cells
                  let row_style :=
                    if is_header_row then header_style
                    else if row_index < (t₂.fixed_rows : Int) then
                      t₂.component_style "datatable--fixed"
                    else if t₂.zebra_stripes then
                      if row_index % 2 ≠ 0 then t₂.component_style "datatable--odd-row"
                      else t₂.component_style "datatable--even-row"
                    else base_style
                  match render_cells_loop t₂ cols.enum row_index row_style line_no
                      cursor_location hover_location cursor_type with
                  | .error e => .error e
                  | .ok (scrollable_row, t₃) =>
                      let row_pair := (fixed_row, scrollable_row)
                      .ok (row_pair,
                        { t₃ with
                          row_render_cache :=
                            t₃.row_render_cache.set cache_key row_pair })

/-- `_get_offsets`: resolve an absolute line to `(row_key, line_within_row)`;
the header band short-circuits to the synthetic header key.  `none` models
the `LookupError` family raised (and later caught by `_render_line`): the
explicit `raise`, an `IndexError` from `y_offsets[y]`, or a `KeyError`
escaping the `_y_offsets` property. -/
def get_offsets (t : DataTable α) (y : Int) :
    Option (RowKey × Int) × DataTable α :=
  let header_height := t.header_height
  match y_offsets t with
  | Option.none => (Option.none, t)
  | some (ys, t₁) =>
      if t₁.show_header ∧ y < (header_height : Int) then
        (some (t₁.header_row_key, y), t₁)
      else
        let y₁ := if t₁.show_header then y - header_height else y
        if y₁ > (ys.length : Int) then (Option.none, t₁)
        else
          match pyIdx ys y₁ with
          | Option.none => (Option.none, t₁)
          | some (rk, off) => (some (rk, (off : Int)), t₁)

/-- `_render_line`: render one absolute, horizontally cropped line into a
`Strip`, through the line cache; a `LookupError` from `_get_offsets` yields
a blank strip of the widget width. -/
def render_line_inner (t : DataTable α) (y x1 x2 : Int) (base_style : Style) :
    Except TableError (Strip α × DataTable α) :=
  let width := t.size_width
  match get_offsets t y with
  | (Option.none, t₁) => .ok (Strip.blank width base_style, t₁)
  | (some (row_key, y_offset_in_row), t₁) =>
      let cache_key : LineCacheKey :=
        (y, x1, x2, width, t₁.cursor_coordinate, t₁.hover_coordinate,
          base_style, t₁.cursor_type, t₁.show_hover_cursor, t₁.update_count)
      match t₁.line_cache.getTouch cache_key with
      | (some strip, c) => .ok (strip, { t₁ with line_cache := c })
      | (Option.none, _) =>
          match render_line_in_row t₁ row_key y_offset_in_row base_style
              t₁.cursor_coordinate t₁.hover_coordinate with
          | .error e => .error e
          | .ok ((fixed, scrollable), t₂) =>
              match ordered_columns t₂ with
              | Option.none => .error .lookupFailure
              | some cols =>
                  let fixed_width : Nat :=
                    ((cols.take t₂.fixed_columns).map Column.render_width).sum
                  let fixed_line :=
                    fixed.map (fun cl => CropSeg.mk cl 0 cl.width)
                  let segments :=
                    fixed_line ++ line_crop scrollable (x1 + fixed_width) x2
                  let strip :=
                    ((Strip.mk segments).adjust_cell_length width base_style).simplify
                  .ok (strip,
                    { t₂ with line_cache := t₂.line_cache.set cache_key strip })

/-- `render_line`: the public per-line entry point; lines past the fixed
band are offset by the vertical scroll, then delegated to `_render_line`
cropped to `[scroll_x, scroll_x + width)` under the widget's base style. -/
def render_line (t : DataTable α) (y : Int) :
    Except TableError (Strip α × DataTable α) :=
  let width := t.size_width
  let fixed_row_keys : List (Option RowKey) :=
    (List.range t.fixed_rows).map (fun i => t.row_locations.getKey i)
  match fixed_row_keys.mapM (fun k? => k?.bind (fun k => get_row_height t k)) with
  | Option.none => .error .lookupFailure
  | some heights =>
      let base : Nat := heights.sum
      match (if t.show_header then get_row_height t t.header_row_key else some 0) with
      | Option.none => .error .lookupFailure
      | some hh =>
          let fixed_rows_height := base + hh
          let y₁ := if y ≥ (fixed_rows_height : Int) then y + t.scroll_y else y
          render_line_inner t y₁ t.scroll_x (t.scroll_x + width) t.rich_style

/-- `update_cell`: store a new value for an existing cell
(`CellDoesNotExist` when the row lookup fails; assigning into the row's
dict itself cannot fail), bump the update counter, optionally mark the cell
for width recomputation, and request a repaint. -/
def update_cell (t : DataTable α) (row_key : RowKey) (column_key : ColumnKey)
    (value : α) (update_width : Bool := false) :
    Except TableError (DataTable α × List (Effect α)) :=
  match alistGet t.data row_key with
  | Option.none => .error .cellDoesNotExist
  | some row_data =>
      let t₁ :=
        { t with
          data := alistSet t.data row_key (alistSet row_data column_key (some value))
          update_count := t.update_count + 1 }
      let t₂ :=
        if update_width then
          { t₁ with
            updated_cells :=
              if t₁.updated_cells.any
                  (fun p => p.1 == row_key && p.2 == column_key) then
                t₁.updated_cells
              else t₁.updated_cells ++ [(row_key, column_key)]
            require_update_dimensions := true }
        else t₁
      .ok (t₂, [Effect.refreshFull])

/-- `add_column`: construct the key (a fresh bare key when no string is
supplied), reject duplicates, measure the label, and append the column
metadata and location; the update counter is not touched. -/
def add_column (t : DataTable α) (label : String) (width : Option Nat := Option.none)
    (key : Option String := Option.none) :
    Except TableError ((ColumnKey × DataTable α) × List (Effect α)) :=
  let column_key : ColumnKey := ⟨key, t.next_uid⟩
  let t₀ := { t with next_uid := t.next_uid + 1 }
  if t₀.column_locations.containsKey column_key then .error .duplicateKey
  else
    let column_index : Int := (t₀.columns.length : Nat)
    let content_width := measureText label
    let column : Column :=
      match width with
      | Option.none => ⟨column_key, label, content_width, content_width, true⟩
      | some w => ⟨column_key, label, w, content_width, false⟩
    let t₁ :=
      { t₀ with
        columns := alistSet t₀.columns column_key column
        column_locations := t₀.column_locations.set column_key column_index
        require_update_dimensions := true }
    .ok ((column_key, t₁), [Effect.checkIdle])

/-- `add_row`: construct the key (a fresh bare key when no string is
supplied), reject duplicates, then record the location, the cell data (one
entry per current column, missing cells padded with `None`; more cells than
columns makes the `zip_longest` comprehension blow up on `None.key`,
modelled as `attributeFailure`), and the row metadata; reassign the cursor
reactive, highlight the cursor if a cell just became available, and bump
the update counter. -/
def add_row (t : DataTable α) (cells : List α) (height : Nat := 1)
    (key : Option String := Option.none) (label : Option String := Option.none) :
    Except TableError ((RowKey × DataTable α) × List (Effect α)) :=
  let row_key : RowKey := ⟨key, t.next_uid⟩
  let t₀ := { t with next_uid := t.next_uid + 1 }
  if t₀.row_locations.containsKey row_key then .error .duplicateKey
  else
    let row_index : Int := (t₀.row_count : Nat)
    match ordered_columns t₀ with
    | Option.none => .error .lookupFailure
    | some cols =>
        if cells.length > cols.length then .error .attributeFailure
        else
          let row_data : List (ColumnKey × Option α) :=
            (cols.enum).map (fun p => (p.2.key, cells.get? p.1))
          let t₁ :=
            { t₀ with
              row_locations := t₀.row_locations.set row_key row_index
              data := alistSet t₀.data row_key row_data
              rows := alistSet t₀.rows row_key ⟨row_key, height, label⟩
              new_rows :=
                if t₀.new_rows.any (fun k => k == row_key) then t₀.new_rows
                else t₀.new_rows ++ [row_key]
              require_update_dimensions := true }
          match set_cursor_coordinate t₁ t₁.cursor_coordinate with
          | Option.none => .error .lookupFailure
          | some (t₂, eff₁) =>
              let cell_now_available :=
                t₂.row_count = 1 ∧ 0 < t₂.columns.length
              let visible_cursor := t₂.show_cursor ∧ t₂.cursor_type ≠ .none
              let highlighted : Option (DataTable α × List (Effect α)) :=
                if cell_now_available ∧ visible_cursor then highlight_cursor t₂
                else some (t₂, [])
              match highlighted with
              | Option.none => .error .lookupFailure
              | some (t₃, eff₂) =>
                  let t₄ := { t₃ with update_count := t₃.update_count + 1 }
                  .ok ((row_key, t₄), eff₁ ++ eff₂ ++ [Effect.checkIdle])

/-- Python `<` on two tuples of stored cell values: elementwise equality
first, then the supplied value order (`lt` stands for the runtime's `<` on
the cell type). -/
def lexLtValues (lt : Option α → Option α → Bool) :
    List (Option α) → List (Option α) → Bool
  | [], [] => false
  | [], _ :: _ => true
  | _ :: _, [] => false
  | a :: as, b :: bs =>
      if a = b then lexLtValues lt as bs else lt a b

/-- Insert into a sorted list after all elements not strictly greater
(giving the stable insertion sort that models Python's stable `sorted`). -/
def insertStable (lt : β → β → Bool) (x : β) : List β → List β
  | [] => [x]
  | y :: ys => if lt x y then x :: y :: ys else y :: insertStable lt x ys

/-- Stable sort by a strict-order predicate. -/
def stableSortBy (lt : β → β → Bool) (l : List β) : List β :=
  l.foldl (fun acc x => insertStable lt x acc) []

/-- `sort`: order the rows of `self._data` by the values in the given
columns (`itemgetter` raises `TypeError` for an empty column list and
`KeyError` for a row missing one of the columns; incomparable values are
absorbed into the supplied total order `lt`), rebuild `self._row_locations`
from the sorted order, bump the update counter, and request a repaint.  The
stored cell data is not touched. -/
def sort (t : DataTable α) (columns : List ColumnKey)
    (lt : Option α → Option α → Bool) (reverse : Bool := false) :
    Except TableError (DataTable α × List (Effect α)) :=
  if columns = [] then .error .typeFailure
  else
    match t.data.mapM (fun p =>
        (columns.mapM (fun c => alistGet p.2 c)).map (fun vs => (p.1, vs))) with
    | Option.none => .error .lookupFailure
    | some keyed =>
        let rel : (RowKey × List (Option α)) → (RowKey × List (Option α)) → Bool :=
          if reverse then fun a b => lexLtValues lt b.2 a.2
          else fun a b => lexLtValues lt a.2 b.2
        let ordered_data := stableSortBy rel keyed
        let t₁ :=
          { t with
            row_locations :=
              ⟨ordered_data.enum.map (fun p => (p.2.1, (p.1 : Int)))⟩
            update_count := t.update_count + 1 }
        .ok (t₁, [Effect.refreshFull])

/-- `clear`: clear the caches, empty the (freshly re-cached) y-offset list
in place, reset the row data, metadata and location map (and the column
side when `columns=True`), then reset both coordinate reactives. -/
def clear (t : DataTable α) (columns : Bool := false) :
    Except TableError (DataTable α × List (Effect α)) :=
  let t₁ := clear_caches t
  match y_offsets t₁ with
  | Option.none => .error .lookupFailure
  | some (_, t₂) =>
      let t₃ :=
        { t₂ with offset_cache := t₂.offset_cache.set t₂.update_count [] }
      let t₄ :=
        { t₃ with data := [], rows := [], row_locations := ⟨[]⟩ }
      let t₅ :=
        if columns then
          { t₄ with columns := [], column_locations := ⟨[]⟩ }
        else t₄
      let t₆ := { t₅ with require_update_dimensions := true }
      match set_cursor_coordinate t₆ ⟨0, 0⟩ with
      | Option.none => .error .lookupFailure
      | some (t₇, eff₁) =>
          match set_hover_coordinate t₇ ⟨0, 0⟩ with
          | Option.none => .error .lookupFailure
          | some (t₈, eff₂) =>
              let t₉ := { t₈ with labelled_row_exists := false }
              .ok (t₉, eff₁ ++ eff₂ ++ [Effect.refreshFull])

/-- Only the strip outcome of a render, with the threaded cache state
forgotten. -/
def render_line_strips (t : DataTable α) (y : Int) : Except TableError (Strip α) :=
  (render_line t y).map Prod.fst

/-- Every entry of every render cache is keyed at or below the current
update counter (true of every table reachable from the constructor, since
stores always use the current counter and the counter never decreases). -/
def caches_below (t : DataTable α) : Prop :=
  (t.row_render_cache.entries.all
    (fun p => RowCacheKey.count p.1 ≤ t.update_count) = true) ∧
  (t.cell_render_cache.entries.all
    (fun p => CellCacheKey.count p.1 ≤ t.update_count) = true) ∧
  (t.line_cache.entries.all
    (fun p => LineCacheKey.count p.1 ≤ t.update_count) = true) ∧
  (t.offset_cache.entries.all (fun p => p.1 ≤ t.update_count) = true) ∧
  (t.ordered_row_cache.entries.all (fun p => p.1.2 ≤ t.update_count) = true)

instance (t : DataTable α) : Decidable (caches_below t) := by
  unfold caches_below; infer_instance

/-- Every render cache holds at most its maximum number of entries (true of
every reachable table: stores truncate to the maximum). -/
def caches_bounded (t : DataTable α) : Prop :=
  t.row_render_cache.entries.length ≤ t.row_render_cache.maxSize ∧
  t.cell_render_cache.entries.length ≤ t.cell_render_cache.maxSize ∧
  t.line_cache.entries.length ≤ t.line_cache.maxSize ∧
  t.offset_cache.entries.length ≤ t.offset_cache.maxSize ∧
  t.ordered_row_cache.entries.length ≤ t.ordered_row_cache.maxSize

instance (t : DataTable α) : Decidable (caches_bounded t) := by
  unfold caches_bounded; infer_instance

/-- Every render cache admits at least one entry (the constructor sizes
them at 1000/10000/1000/1/1). -/
def caches_well_sized (t : DataTable α) : Prop :=
  0 < t.row_render_cache.maxSize ∧
  0 < t.cell_render_cache.maxSize ∧
  0 < t.line_cache.maxSize ∧
  0 < t.offset_cache.maxSize ∧
  0 < t.ordered_row_cache.maxSize

instance (t : DataTable α) : Decidable (caches_well_sized t) := by
  unfold caches_well_sized; infer_instance

end DataTable

/-- The non-cache portion of a `DataTable` state, used to express that the
render path mutates nothing outside the caches. -/
structure CoreState (α : Type) where
  data : List (RowKey × List (ColumnKey × Option α))
  columns : List (ColumnKey × Column)
  rows : List (RowKey × Row)
  row_locations : TwoWayDict
  column_locations : TwoWayDict
  require_update_dimensions : Bool
  new_rows : List RowKey
  updated_cells : List CellKey
  show_hover_cursor : Bool
  update_count : Nat
  header_row_key : RowKey
  label_column_key : ColumnKey
  labelled_row_exists : Bool
  row_label_column_width : Nat
  show_header : Bool
  show_row_labels : Bool
  fixed_rows : Nat
  fixed_columns : Nat
  zebra_stripes : Bool
  header_height : Nat
  show_cursor : Bool
  cursor_type : CursorType
  cursor_coordinate : Coordinate
  hover_coordinate : Coordinate
  size_width : Nat
  size_height : Nat
  scroll_x : Int
  scroll_y : Int
  window_region : Region
  rich_style : Style
  component_style : String → Style
  next_uid : Nat

/-- Project the non-cache fields of a table state. -/
def core {α : Type} (t : DataTable α) : CoreState α :=
  ⟨t.data, t.columns, t.rows, t.row_locations, t.column_locations,
    t.require_update_dimensions, t.new_rows, t.updated_cells,
    t.show_hover_cursor, t.update_count, t.header_row_key,
    t.label_column_key, t.labelled_row_exists, t.row_label_column_width,
    t.show_header, t.show_row_labels, t.fixed_rows, t.fixed_columns,
    t.zebra_stripes, t.header_height, t.show_cursor, t.cursor_type,
    t.cursor_coordinate, t.hover_coordinate, t.size_width, t.size_height,
    t.scroll_x, t.scroll_y, t.window_region, t.rich_style,
    t.component_style, t.next_uid⟩

/-- Relates two caches during a render that started from states differing
only in stale (old-generation) entries: the first cache consists of the
entries of the second (all keyed at the current counter `cnt`, in identical
recency order) followed by a stale suffix keyed strictly below `cnt`, and
respects its capacity. -/
def CacheSim (cOf : κ → Nat) (cnt : Nat) (a b : LRUCache κ ν) : Prop :=
  a.maxSize = b.maxSize ∧
  (∃ old, a.entries = b.entries ++ old ∧ ∀ p ∈ old, cOf p.1 < cnt) ∧
  (∀ p ∈ b.entries, cOf p.1 = cnt) ∧
  a.entries.length ≤ a.maxSize

/-- Relates the full widget states during such a render: equal outside the
caches (equal `core` projections) and cache-wise related at the current
counter. -/
def TableSim {α : Type} (s t : DataTable α) : Prop :=
  core s = core t ∧
  CacheSim RowCacheKey.count s.update_count s.row_render_cache t.row_render_cache ∧
  CacheSim CellCacheKey.count s.update_count s.cell_render_cache t.cell_render_cache ∧
  CacheSim LineCacheKey.count s.update_count s.line_cache t.line_cache ∧
  CacheSim id s.update_count s.offset_cache t.offset_cache ∧
  CacheSim Prod.snd s.update_count s.ordered_row_cache t.ordered_row_cache

/-- Lift a state relation to the `Option (value × state)` results of the
threaded render helpers: same outcome, same value, related states. -/
def SimR (R : γ → γ → Prop) : Option (β × γ) → Option (β × γ) → Prop
  | Option.none, Option.none => True
  | some p, some q => p.1 = q.1 ∧ R p.2 q.2
  | _, _ => False

/-- Lift a state relation to `Except` results of the threaded render
helpers: same outcome (same error, or same value with related states). -/
def SimE (R : γ → γ → Prop) :
    Except TableError (β × γ) → Except TableError (β × γ) → Prop
  | .error e, .error f => e = f
  | .ok p, .ok q => p.1 = q.1 ∧ R p.2 q.2
  | _, _ => False

/-- Lift a state relation to the `result × state` pairs returned by
`get_offsets`. -/
def SimP (R : γ → γ → Prop) (p q : β × γ) : Prop :=
  p.1 = q.1 ∧ R p.2 q.2

/-- A `DataTable Nat` in its `__init__` state (80×24 widget window, default
reactive values, header and label keys at identities 0 and 1). -/
def emptyTable : DataTable Nat :=
  { data := [], columns := [], rows := []
    row_locations := ⟨[]⟩, column_locations := ⟨[]⟩
    row_render_cache := ⟨1000, []⟩, cell_render_cache := ⟨10000, []⟩
    line_cache := ⟨1000, []⟩, offset_cache := ⟨1, []⟩, ordered_row_cache := ⟨1, []⟩
    require_update_dimensions := false, new_rows := [], updated_cells := []
    show_hover_cursor := false, update_count := 0
    header_row_key := ⟨Option.none, 0⟩, label_column_key := ⟨Option.none, 1⟩
    labelled_row_exists := false, row_label_column_width := 0
    show_header := true, show_row_labels := true
    fixed_rows := 0, fixed_columns := 0, zebra_stripes := false
    header_height := 1, show_cursor := true, cursor_type := .cell
    cursor_coordinate := ⟨0, 0⟩, hover_coordinate := ⟨0, 0⟩
    size_width := 12, size_height := 6, scroll_x := 0, scroll_y := 0
    window_region := ⟨0, 0, 12, 6⟩, rich_style := .base 0
    component_style := Style.component, next_uid := 2 }

/-- `emptyTable` after `add_column("A")` (auto width, key `"a"`). -/
def sampleT1 : DataTable Nat :=
  match DataTable.add_column emptyTable "A" Option.none (some "a") with
  | .ok ((_, t), _) => t
  | .error _ => emptyTable

/-- `sampleT1` after `add_column("B", width=5)` (declared width, key
`"b"`). -/
def sampleT2 : DataTable Nat :=
  match DataTable.add_column sampleT1 "B" (some 5) (some "b") with
  | .ok ((_, t), _) => t
  | .error _ => emptyTable

/-- `sampleT2` after `add_row(7, 8, key="r1")`. -/
def sampleT3 : DataTable Nat :=
  match DataTable.add_row sampleT2 [7, 8] 1 (some "r1") Option.none with
  | .ok ((_, t), _) => t
  | .error _ => emptyTable

/-- `sampleT3` after `add_row(9, key="r2")` (second cell omitted). -/
def sampleT4 : DataTable Nat :=
  match DataTable.add_row sampleT3 [9] 1 (some "r2") Option.none with
  | .ok ((_, t), _) => t
  | .error _ => emptyTable

/-- `sampleT4` after rendering line 1 once (populating all four render
caches). -/
def sampleRendered : DataTable Nat :=
  match DataTable.render_line sampleT4 1 with
  | .ok (_, t) => t
  | .error _ => sampleT4

/-- The strip produced by `render_line sampleT4 1`. -/
def sampleStrip : Strip Nat :=
  match DataTable.render_line sampleT4 1 with
  | .ok (s, _) => s
  | .error _ => ⟨[]⟩

/-- The strict order on stored `Nat` cell values used by the sample sorts
(missing cells sort as `0`). -/
def natValueLt (a b : Option Nat) : Bool := a.getD 0 < b.getD 0

/-- The row key `"r1"` (a fresh wrapper object, as a caller would build
one; it is hash-equal to the stored key). -/
def keyR1 : RowKey := ⟨some "r1", 990⟩

/-- The row key `"r2"` as a fresh wrapper object. -/
def keyR2 : RowKey := ⟨some "r2", 991⟩

/-- The column key `"a"` as a fresh wrapper object. -/
def keyA : ColumnKey := ⟨some "a", 992⟩

/-- The column key `"b"` as a fresh wrapper object. -/
def keyB : ColumnKey := ⟨some "b", 993⟩

/-- `sampleT4` after `sort` by column `"a"` (rows `"r2"` (value 9) and
`"r1"` (value 7) swap positions). -/
def sortedSampleT4 : DataTable Nat :=
  match DataTable.sort sampleT4 [keyA] natValueLt false with
  | .ok (t, _) => t
  | .error _ => sampleT4

/-- `sampleT4` after `update_cell("r1", "a", 42)`. -/
def updatedSampleT4 : DataTable Nat :=
  match DataTable.update_cell sampleT4 keyR1 keyA 42 false with
  | .ok (t, _) => t
  | .error _ => sampleT4

/-- `sampleT4` after `add_row(1, 2, key="r3")`. -/
def rowAddedSampleT4 : DataTable Nat :=
  match DataTable.add_row sampleT4 [1, 2] 1 (some "r3") Option.none with
  | .ok ((_, t), _) => t
  | .error _ => sampleT4

/-- `sampleT4` after `add_column("C", key="c")`. -/
def colAddedSampleT4 : DataTable Nat :=
  match DataTable.add_column sampleT4 "C" Option.none (some "c") with
  | .ok ((_, t), _) => t
  | .error _ => sampleT4

/-- `sampleT4` after `clear()` (default arguments). -/
def clearedSampleT4 : DataTable Nat :=
  match DataTable.clear sampleT4 false with
  | .ok (t, _) => t
  | .error _ => sampleT4

/-- The entry for `k` sits at the most-recent position of the cache, and no
stale duplicate for `k` hides behind it (the state every `getTouch` hit and
every `set` leave behind). -/
def LRUCache.frontAt {κ ν : Type} [BEq κ] (c : LRUCache κ ν) (k : κ) (v : ν) :
    Prop :=
  ∃ rest, c.entries = (k, v) :: rest ∧ ∀ p ∈ rest, (p.1 == k) = false

end Textual

namespace Textual

/-! ## Basic helper lemmas -/

/-- `StringKey` dictionary equality is reflexive. -/
theorem StringKey.beq_refl (k : StringKey) : (k == k) = true := by
  show StringKey.eqKey k k = true
  unfold StringKey.eqKey
  match h : k.value with
  | some s => simp
  | Option.none => simp [StringKey.hashKey, h]

/-- Looking up the key just written by a Python-dict assignment returns the
written value. -/
theorem alistGet_alistSet_self {κ ν : Type} [BEq κ] (l : List (κ × ν)) (k : κ)
    (v : ν) (hk : (k == k) = true) : alistGet (alistSet l k v) k = some v := by
  unfold alistSet
  by_cases hc : alistContains l k
  · rw [if_pos hc]
    unfold alistContains at hc
    unfold alistGet
    induction l with
    | nil => simp at hc
    | cons p rest ih =>
        by_cases hp : (p.1 == k) = true
        · rw [List.map_cons, if_pos hp, List.find?_cons_of_pos _ (by simpa using hp)]
          rfl
        · rw [List.map_cons, if_neg hp,
            List.find?_cons_of_neg _ (by simpa using hp)]
          simp only [List.any_cons, hp, Bool.false_or] at hc
          exact ih hc
  · rw [if_neg hc]
    unfold alistContains at hc
    unfold alistGet
    induction l with
    | nil => simp [List.find?, hk]
    | cons p rest ih =>
        simp only [List.any_cons, Bool.or_eq_true, not_or] at hc
        rw [List.cons_append, List.find?_cons_of_neg _ (by simpa using hc.1)]
        exact ih (by simpa using hc.2)

/-- `clamp` is idempotent. -/
theorem clamp_idem (v lo hi : Int) : clamp (clamp v lo hi) lo hi = clamp v lo hi := by
  unfold clamp
  dsimp only
  split_ifs <;> omega

/-- C3: a key constructed from a string `s` compares equal to any other key
constructed from `s` and to the raw string `s` itself; a key constructed
without a string compares equal exactly to itself (same identity), never to
a different bare key and never to any string-wrapping key or raw string. -/
theorem c3_string_key_equality :
    (∀ (s : String) (u v : Nat),
        StringKey.eqKey ⟨some s, u⟩ ⟨some s, v⟩ = true ∧
        StringKey.eqStr ⟨some s, u⟩ s = true) ∧
    (∀ u v : Nat,
        StringKey.eqKey ⟨Option.none, u⟩ ⟨Option.none, v⟩ = (u == v)) ∧
    (∀ (s : String) (u v : Nat),
        StringKey.eqKey ⟨Option.none, u⟩ ⟨some s, v⟩ = false ∧
        StringKey.eqKey ⟨some s, v⟩ ⟨Option.none, u⟩ = false ∧
        StringKey.eqStr ⟨Option.none, u⟩ s = false) := by
  refine ⟨fun s u v => ⟨?_, ?_⟩, fun u v => ?_, fun s u v => ⟨?_, ?_, ?_⟩⟩ <;>
    simp [StringKey.eqKey, StringKey.eqStr, StringKey.hashKey]

/-- C6: the selective-refresh operations silently ignore invalid targets:
an out-of-bounds `refresh_row`, an invalid `refresh_coordinate`, and an
out-of-bounds `refresh_column` all return normally (no exception), emit no
repaint region, and return the table — caches included — exactly
unchanged. -/
theorem c6_refresh_invalid_noop {α : Type} [DecidableEq α] (t : DataTable α)
    (i : Int) (c : Coordinate) :
    (¬ (0 ≤ i ∧ i < (t.row_count : Int)) →
        DataTable.refresh_row t i = some (Option.none, t)) ∧
    (¬ (t.is_valid_coordinate c = true) →
        DataTable.refresh_coordinate t c = some (Option.none, t)) ∧
    (¬ (0 ≤ i ∧ i < (t.columns.length : Int)) →
        DataTable.refresh_column t i = some (Option.none, t)) := by
  refine ⟨fun h => ?_, fun h => ?_, fun h => ?_⟩
  · unfold DataTable.refresh_row
    rw [if_pos]
    simp only [DataTable.is_valid_row_index, DataTable.row_count] at h ⊢
    simpa using h
  · unfold DataTable.refresh_coordinate
    rw [if_pos h]
  · unfold DataTable.refresh_column
    rw [if_pos]
    simp only [DataTable.is_valid_column_index] at h ⊢
    simpa using h

/-- C6 witness: on `sampleT4` (2 rows, 2 columns), `refresh_row 5`,
`refresh_coordinate (9, 9)` and `refresh_column (-3)` are all silent
no-ops. -/
theorem c6_refresh_invalid_noop_witness :
    DataTable.refresh_row sampleT4 5 = some (Option.none, sampleT4) ∧
    DataTable.refresh_coordinate sampleT4 ⟨9, 9⟩ = some (Option.none, sampleT4) ∧
    DataTable.refresh_column sampleT4 (-3) = some (Option.none, sampleT4) :=
  ⟨(c6_refresh_invalid_noop sampleT4 5 ⟨9, 9⟩).1 (by decide),
    (c6_refresh_invalid_noop sampleT4 5 ⟨9, 9⟩).2.1 (by decide),
    (c6_refresh_invalid_noop sampleT4 (-3) ⟨9, 9⟩).2.2 (by decide)⟩

end Textual

namespace Textual

/-- C7 counterexample: in `sampleT2` the column `"b"` was added with a
declared width of 5 while its label `"B"` measures 1 cell, so
`render_width = 7` but `content_width + 2 = 3`: the claimed equation
`render_width = content_width + 2` fails for declared-width columns. -/
theorem c7_counterexample :
    (alistGet sampleT2.columns keyB).map
        (fun col => (decide (col.render_width = col.content_width + 2),
          col.render_width, col.content_width)) =
      some (false, 7, 1) := by decide

/-- C7 amended: `render_width = content_width + 2` holds for auto-width
columns (added with `width=None`); a column added with a declared width `w`
instead has `render_width = w + 2`, independent of its content width.
Stated for the column produced by `add_column`. -/
theorem c7_amended {α : Type} [DecidableEq α] (t : DataTable α)
    (label : String) (w : Option Nat) (k : Option String)
    (ck : ColumnKey) (t' : DataTable α) (eff : List (Effect α))
    (h : DataTable.add_column t label w k = .ok ((ck, t'), eff)) :
    ∀ col, alistGet t'.columns ck = some col →
      col.render_width =
        (match w with
         | Option.none => col.content_width + 2
         | some ww => ww + 2) := by
  unfold DataTable.add_column at h
  by_cases hdup :
      ({ t with next_uid := t.next_uid + 1 } :
        DataTable α).column_locations.containsKey ⟨k, t.next_uid⟩ = true
  · rw [if_pos hdup] at h
    exact absurd h (by simp)
  · rw [if_neg hdup] at h
    simp only [Except.ok.injEq, Prod.mk.injEq] at h
    obtain ⟨⟨hck, ht⟩, -⟩ := h
    subst hck
    intro col hcol
    rw [← ht] at hcol
    simp only at hcol
    rw [alistGet_alistSet_self _ _ _ (StringKey.beq_refl _)] at hcol
    match w with
    | Option.none =>
        injection hcol with hc
        subst hc
        simp [Column.render_width]
    | some ww =>
        injection hcol with hc
        subst hc
        simp [Column.render_width]

/-- C7 amended witness: adding `"B"` with declared width 5 to `sampleT1`
yields `sampleT2` whose column `"b"` has `render_width = 5 + 2 = 7`. -/
theorem c7_amended_witness :
    DataTable.add_column sampleT1 "B" (some 5) (some "b") =
      .ok ((⟨some "b", 3⟩, sampleT2), [Effect.checkIdle]) ∧
    Column.render_width ⟨⟨some "b", 3⟩, "B", 5, 1, false⟩ = 5 + 2 := by
  have h : DataTable.add_column sampleT1 "B" (some 5) (some "b") =
      .ok ((⟨some "b", 3⟩, sampleT2), [Effect.checkIdle]) := by rfl
  refine ⟨h, ?_⟩
  have := c7_amended sampleT1 "B" (some 5) (some "b") ⟨some "b", 3⟩ sampleT2
    [Effect.checkIdle] h ⟨⟨some "b", 3⟩, "B", 5, 1, false⟩ (by decide)
  simpa using this

/-- C10: adding a row or a column under an explicitly supplied key that
already exists fails with `DuplicateKey` before performing any mutation:
the call returns the error and produces no successor state, so the
caller's table — data, metadata, location maps, counter and caches — is
exactly as before. -/
theorem c10_duplicate_key_atomic {α : Type} [DecidableEq α] (t : DataTable α)
    (cells : List α) (height : Nat) (k : String) (row_label : Option String)
    (col_label : String) (col_width : Option Nat) :
    (t.row_locations.containsKey ⟨some k, t.next_uid⟩ = true →
      DataTable.add_row t cells height (some k) row_label =
        .error .duplicateKey) ∧
    (t.column_locations.containsKey ⟨some k, t.next_uid⟩ = true →
      DataTable.add_column t col_label col_width (some k) =
        .error .duplicateKey) := by
  constructor
  · intro h
    unfold DataTable.add_row
    rw [if_pos]
    exact h
  · intro h
    unfold DataTable.add_column
    rw [if_pos]
    exact h

/-- C10 witness: `sampleT4` already has row `"r1"` and column `"b"`;
re-adding either key fails with `DuplicateKey`. -/
theorem c10_duplicate_key_atomic_witness :
    DataTable.add_row sampleT4 [1] 1 (some "r1") Option.none =
      .error .duplicateKey ∧
    DataTable.add_column sampleT4 "X" Option.none (some "b") =
      .error .duplicateKey :=
  ⟨(c10_duplicate_key_atomic sampleT4 [1] 1 "r1" Option.none "X"
      Option.none).1 (by decide),
    (c10_duplicate_key_atomic sampleT4 [1] 1 "b" Option.none "X"
      Option.none).2 (by decide)⟩

/-- C4: a successful `sort` leaves the stored cell data untouched — it
rebuilds only the row location map (and bumps the update counter) — so
`get_cell` returns the same value for every row key and column key before
and after the sort. -/
theorem c4_sort_preserves_cells {α : Type} [DecidableEq α] (t : DataTable α)
    (columns : List ColumnKey) (lt : Option α → Option α → Bool)
    (reverse : Bool) (t' : DataTable α) (eff : List (Effect α))
    (h : DataTable.sort t columns lt reverse = .ok (t', eff)) :
    t'.data = t.data ∧
    ∀ (row_key : RowKey) (column_key : ColumnKey),
      DataTable.get_cell t' row_key column_key =
        DataTable.get_cell t row_key column_key := by
  unfold DataTable.sort at h
  by_cases hc : columns = []
  · rw [if_pos hc] at h
    exact absurd h (by simp)
  · rw [if_neg hc] at h
    match hm : t.data.mapM (fun p =>
        (columns.mapM (fun c => alistGet p.2 c)).map (fun vs => (p.1, vs))) with
    | Option.none => rw [hm] at h; exact absurd h (by simp)
    | some keyed =>
        rw [hm] at h
        simp only [Except.ok.injEq, Prod.mk.injEq] at h
        obtain ⟨ht, -⟩ := h
        have hdata : t'.data = t.data := by rw [← ht]
        refine ⟨hdata, fun rk ck => ?_⟩
        unfold DataTable.get_cell
        rw [hdata]

/-- C4 witness: sorting `sampleT4` by column `"a"` succeeds (the rows swap
places) and `get_cell` for row `"r1"`, column `"b"` returns `8` both
before and after. -/
theorem c4_sort_preserves_cells_witness :
    DataTable.sort sampleT4 [keyA] natValueLt false =
      .ok (sortedSampleT4, [Effect.refreshFull]) ∧
    DataTable.get_cell sortedSampleT4 keyR1 keyB =
      DataTable.get_cell sampleT4 keyR1 keyB ∧
    DataTable.get_cell sampleT4 keyR1 keyB = .ok (some 8) := by
  have h : DataTable.sort sampleT4 [keyA] natValueLt false =
      .ok (sortedSampleT4, [Effect.refreshFull]) := by rfl
  exact ⟨h,
    (c4_sort_preserves_cells sampleT4 [keyA] natValueLt false sortedSampleT4
      [Effect.refreshFull] h).2 keyR1 keyB, by rfl⟩

/-- C5 counterexample: `add_column` is a structural mutation (it appends a
column and its location entry) yet does not increment `_update_count`:
`sampleT4` has counter 2 before and after adding column `"c"`, refuting
the claim that adding a column increments the counter.  (The claimed
remove operations do not exist in this version of the widget at all.) -/
theorem c5_counterexample :
    sampleT4.update_count = 2 ∧
    (match DataTable.add_column sampleT4 "C" Option.none (some "c") with
     | .ok ((_, t), _) => some (t.update_count, t.columns.length)
     | .error _ => Option.none) = some (2, 3) := by decide

end Textual

namespace Textual

/-- C8: with cursor mode `cell`, exactly one row, and the cursor at (0,0),
moving the cursor down clamps the target back to (0,0) (row bound
`row_count - 1`, column bound `len(columns) - 1`); clamping is a total
function and idempotent; and since the clamped new coordinate equals the
old one, the reactive assignment returns the state unchanged with no
repaint region and no `CellHighlighted` notification (empty effect
list). -/
theorem c8_cursor_down_clamps {α : Type} [DecidableEq α] (t : DataTable α)
    (_hct : t.cursor_type = .cell) (hrc : t.row_count = 1)
    (hcc : t.cursor_coordinate = ⟨0, 0⟩) :
    DataTable.clamp_cursor_coordinate t t.cursor_coordinate.down = ⟨0, 0⟩ ∧
    (∀ c, DataTable.clamp_cursor_coordinate t
        (DataTable.clamp_cursor_coordinate t c) =
      DataTable.clamp_cursor_coordinate t c) ∧
    DataTable.set_cursor_coordinate t t.cursor_coordinate.down =
      some (t, []) := by
  have h1 : DataTable.clamp_cursor_coordinate t t.cursor_coordinate.down =
      ⟨0, 0⟩ := by
    rw [hcc]
    unfold DataTable.clamp_cursor_coordinate Coordinate.down
    rw [hrc]
    have hr : clamp (0 + 1) 0 ((1 : Nat) - 1 : Int) = 0 := by
      unfold clamp; dsimp only; split_ifs <;> omega
    have hc : clamp 0 0 ((t.columns.length : Int) - 1) = 0 := by
      unfold clamp; dsimp only; split_ifs <;> omega
    simp only
    rw [show ((1 : Nat) : Int) - 1 = ((1 : Nat) - 1 : Int) from by norm_num]
    rw [hr, hc]
  refine ⟨h1, fun c => ?_, ?_⟩
  · unfold DataTable.clamp_cursor_coordinate
    simp only [clamp_idem]
  · unfold DataTable.set_cursor_coordinate DataTable.validate_cursor_coordinate
    dsimp only
    rw [h1, hcc]
    have ht : ({ t with cursor_coordinate := ⟨0, 0⟩ } : DataTable α) = t := by
      rw [← hcc]
    rw [ht]
    unfold DataTable.watch_cursor_coordinate
    simp

/-- C8 witness: `sampleT3` (one row, cursor mode `cell`, cursor at (0,0)):
cursor-down clamps back to (0,0), clamping (5,9) twice equals clamping it
once, and the reactive assignment is a silent no-op. -/
theorem c8_cursor_down_clamps_witness :
    DataTable.clamp_cursor_coordinate sampleT3
        sampleT3.cursor_coordinate.down = ⟨0, 0⟩ ∧
    DataTable.clamp_cursor_coordinate sampleT3
        (DataTable.clamp_cursor_coordinate sampleT3 ⟨5, 9⟩) =
      DataTable.clamp_cursor_coordinate sampleT3 ⟨5, 9⟩ ∧
    DataTable.set_cursor_coordinate sampleT3
        sampleT3.cursor_coordinate.down = some (sampleT3, []) :=
  ⟨(c8_cursor_down_clamps sampleT3 (by decide) (by decide) (by decide)).1,
    (c8_cursor_down_clamps sampleT3 (by decide) (by decide) (by decide)).2.1
      ⟨5, 9⟩,
    (c8_cursor_down_clamps sampleT3 (by decide) (by decide) (by decide)).2.2⟩

end Textual

namespace Textual

namespace LRUCache

variable {κ ν : Type} [BEq κ]

/-- `getTouch` never changes the capacity. -/
theorem getTouch_maxSize (c : LRUCache κ ν) (k : κ) :
    (c.getTouch k).2.maxSize = c.maxSize := by
  unfold getTouch
  cases h : c.entries.find? (fun p => p.1 == k) <;> simp

/-- `set` never changes the capacity. -/
theorem set_maxSize (c : LRUCache κ ν) (k : κ) (v : ν) :
    (c.set k v).maxSize = c.maxSize := rfl

/-- A lookup of the front entry hits, returns its value, and leaves the
cache exactly unchanged. -/
theorem getTouch_of_frontAt (c : LRUCache κ ν) (k : κ) (v : ν)
    (h : c.frontAt k v) (hk : (k == k) = true) :
    c.getTouch k = (some v, c) := by
  obtain ⟨rest, he, hrest⟩ := h
  unfold getTouch
  rw [he, List.find?_cons_of_pos _ (by simpa using hk)]
  simp only
  have hf : List.filter (fun q => !(q.1 == k)) ((k, v) :: rest) = rest := by
    rw [List.filter_cons, if_neg (by simp [hk])]
    exact List.filter_eq_self.mpr (fun p hp => by simp [hrest p hp])
  rw [hf]
  rw [show (k, v) :: rest = c.entries from he.symm]

/-- After a `set`, the written entry is at the front with no stale
duplicate behind it. -/
theorem frontAt_set (c : LRUCache κ ν) (k : κ) (v : ν) (hm : 1 ≤ c.maxSize) :
    (c.set k v).frontAt k v := by
  unfold LRUCache.set LRUCache.frontAt
  obtain ⟨n, hn⟩ : ∃ n, c.maxSize = n + 1 := ⟨c.maxSize - 1, by omega⟩
  rw [hn]
  refine ⟨(List.filter (fun q => !(q.1 == k)) c.entries).take n, ?_, ?_⟩
  · simp
  · intro p hp
    have hp2 := List.take_subset _ _ hp
    have := List.of_mem_filter hp2
    simpa using this

/-- After a hit, the entry found is at the front with no stale duplicate
behind it. -/
theorem frontAt_of_getTouch (c c₁ : LRUCache κ ν) (k : κ) (v : ν)
    (h : c.getTouch k = (some v, c₁)) : c₁.frontAt k v := by
  unfold getTouch at h
  cases hf : c.entries.find? (fun p => p.1 == k) with
  | none => rw [hf] at h; simp at h
  | some p =>
      rw [hf] at h
      simp only [Option.some.injEq, Prod.mk.injEq] at h
      obtain ⟨hv, hc⟩ := h
      subst hv
      refine ⟨List.filter (fun q => !(q.1 == k)) c.entries, by rw [← hc], ?_⟩
      intro q hq
      have := List.of_mem_filter hq
      simpa using this

/-- A miss leaves the cache unchanged. -/
theorem getTouch_miss (c : LRUCache κ ν) (k : κ)
    (h : c.entries.find? (fun p => p.1 == k) = Option.none) :
    c.getTouch k = (Option.none, c) := by
  unfold getTouch
  rw [h]

end LRUCache

end Textual

namespace Textual

namespace DataTable

variable {α : Type}

/-- `ordered_rows` mutates only the ordered-row cache. -/
theorem ordered_rows_frame (t : DataTable α) (rs : List Row) (t₁ : DataTable α)
    (h : ordered_rows t = some (rs, t₁)) :
    core t₁ = core t ∧
    t₁.row_render_cache = t.row_render_cache ∧
    t₁.cell_render_cache = t.cell_render_cache ∧
    t₁.line_cache = t.line_cache ∧
    t₁.offset_cache = t.offset_cache := by
  unfold ordered_rows at h
  dsimp only at h
  rcases hg : t.ordered_row_cache.getTouch (t.row_count, t.update_count) with ⟨o, c⟩
  rw [hg] at h
  cases o with
  | some rs0 =>
      dsimp only at h
      simp only [Option.some.injEq, Prod.mk.injEq] at h
      obtain ⟨-, h2⟩ := h
      subst h2
      exact ⟨rfl, rfl, rfl, rfl, rfl⟩
  | none =>
      dsimp only at h
      split at h
      · exact absurd h (by simp)
      · simp only [Option.some.injEq, Prod.mk.injEq] at h
        obtain ⟨-, h2⟩ := h
        subst h2
        exact ⟨rfl, rfl, rfl, rfl, rfl⟩

/-- `_y_offsets` mutates only the offset and ordered-row caches. -/
theorem y_offsets_frame (t : DataTable α) (ys : List (RowKey × Nat))
    (t₁ : DataTable α) (h : y_offsets t = some (ys, t₁)) :
    core t₁ = core t ∧
    t₁.row_render_cache = t.row_render_cache ∧
    t₁.cell_render_cache = t.cell_render_cache ∧
    t₁.line_cache = t.line_cache := by
  unfold y_offsets at h
  rcases hg : t.offset_cache.getTouch t.update_count with ⟨o, c⟩
  rw [hg] at h
  cases o with
  | some ys0 =>
      dsimp only at h
      simp only [Option.some.injEq, Prod.mk.injEq] at h
      obtain ⟨-, h2⟩ := h
      subst h2
      exact ⟨rfl, rfl, rfl, rfl⟩
  | none =>
      dsimp only at h
      rcases hor : ordered_rows t with _ | ⟨rs, t₂⟩
      · rw [hor] at h; exact absurd h (by simp)
      · rw [hor] at h
        dsimp only at h
        simp only [Option.some.injEq, Prod.mk.injEq] at h
        obtain ⟨-, h2⟩ := h
        obtain ⟨hc, hr1, hr2, hr3, -⟩ := ordered_rows_frame t rs t₂ hor
        subst h2
        exact ⟨hc, hr1, hr2, hr3⟩

/-- `_get_offsets` mutates only the offset and ordered-row caches,
whatever its outcome. -/
theorem get_offsets_frame (t : DataTable α) (y : Int) :
    core (get_offsets t y).2 = core t ∧
    (get_offsets t y).2.row_render_cache = t.row_render_cache ∧
    (get_offsets t y).2.cell_render_cache = t.cell_render_cache ∧
    (get_offsets t y).2.line_cache = t.line_cache := by
  unfold get_offsets
  rcases hy : y_offsets t with _ | ⟨ys, t₂⟩
  · exact ⟨rfl, rfl, rfl, rfl⟩
  · obtain ⟨hc, h1, h2, h3⟩ := y_offsets_frame t ys t₂ hy
    dsimp only
    repeat' split
    all_goals exact ⟨hc, h1, h2, h3⟩

/-- `_get_cell_region` mutates only the ordered-row cache. -/
theorem get_cell_region_frame (t : DataTable α) (c : Coordinate) (r : Region)
    (t₁ : DataTable α) (h : get_cell_region t c = some (r, t₁)) :
    core t₁ = core t ∧
    t₁.row_render_cache = t.row_render_cache ∧
    t₁.cell_render_cache = t.cell_render_cache ∧
    t₁.line_cache = t.line_cache ∧
    t₁.offset_cache = t.offset_cache := by
  unfold get_cell_region at h
  split at h
  · simp only [Option.some.injEq, Prod.mk.injEq] at h
    obtain ⟨-, h2⟩ := h
    subst h2
    exact ⟨rfl, rfl, rfl, rfl, rfl⟩
  · rcases h1 : (t.row_locations.getKey c.row).bind (fun rk => alistGet t.rows rk)
        with _ | row
    · rw [h1] at h; exact absurd h (by simp)
    · rw [h1] at h
      rcases h2 : ordered_columns t with _ | cols
      · rw [h2] at h; exact absurd h (by simp)
      · rw [h2] at h
        dsimp only at h
        rcases h3 : (t.column_locations.getKey c.column).bind
            (fun ck => alistGet t.columns ck) with _ | col
        · rw [h3] at h; exact absurd h (by simp)
        · rw [h3] at h
          rcases h4 : ordered_rows t with _ | ⟨ors, t₂⟩
          · rw [h4] at h; exact absurd h (by simp)
          · rw [h4] at h
            dsimp only at h
            simp only [Option.some.injEq, Prod.mk.injEq] at h
            obtain ⟨-, hst⟩ := h
            obtain ⟨hc, hr1, hr2, hr3, hr4⟩ := ordered_rows_frame t ors t₂ h4
            subst hst
            exact ⟨hc, hr1, hr2, hr3, hr4⟩

/-- `_get_row_region` mutates only the ordered-row cache. -/
theorem get_row_region_frame (t : DataTable α) (i : Int) (r : Region)
    (t₁ : DataTable α) (h : get_row_region t i = some (r, t₁)) :
    core t₁ = core t ∧
    t₁.row_render_cache = t.row_render_cache ∧
    t₁.cell_render_cache = t.cell_render_cache ∧
    t₁.line_cache = t.line_cache ∧
    t₁.offset_cache = t.offset_cache := by
  unfold get_row_region at h
  split at h
  · simp only [Option.some.injEq, Prod.mk.injEq] at h
    obtain ⟨-, h2⟩ := h
    subst h2
    exact ⟨rfl, rfl, rfl, rfl, rfl⟩
  · rcases h1 : (t.row_locations.getKey i).bind (fun rk => alistGet t.rows rk)
        with _ | row
    · rw [h1] at h; exact absurd h (by simp)
    · rw [h1] at h
      dsimp only at h
      rcases h4 : ordered_rows t with _ | ⟨ors, t₂⟩
      · rw [h4] at h; exact absurd h (by simp)
      · rw [h4] at h
        dsimp only at h
        simp only [Option.some.injEq, Prod.mk.injEq] at h
        obtain ⟨-, hst⟩ := h
        obtain ⟨hc, hr1, hr2, hr3, hr4⟩ := ordered_rows_frame t ors t₂ h4
        subst hst
        exact ⟨hc, hr1, hr2, hr3, hr4⟩

/-- `_get_column_region` mutates only the offset and ordered-row caches. -/
theorem get_column_region_frame (t : DataTable α) (i : Int) (r : Region)
    (t₁ : DataTable α) (h : get_column_region t i = some (r, t₁)) :
    core t₁ = core t ∧
    t₁.row_render_cache = t.row_render_cache ∧
    t₁.cell_render_cache = t.cell_render_cache ∧
    t₁.line_cache = t.line_cache := by
  unfold get_column_region at h
  split at h
  · simp only [Option.some.injEq, Prod.mk.injEq] at h
    obtain ⟨-, h2⟩ := h
    subst h2
    exact ⟨rfl, rfl, rfl, rfl⟩
  · rcases h2 : ordered_columns t with _ | cols
    · rw [h2] at h; exact absurd h (by simp)
    · rw [h2] at h
      dsimp only at h
      rcases h3 : (t.column_locations.getKey i).bind (fun ck => alistGet t.columns ck)
          with _ | col
      · rw [h3] at h; exact absurd h (by simp)
      · rw [h3] at h
        rcases h4 : total_row_height t with _ | ⟨trh, t₂⟩
        · rw [h4] at h; exact absurd h (by simp)
        · rw [h4] at h
          dsimp only at h
          simp only [Option.some.injEq, Prod.mk.injEq] at h
          obtain ⟨-, hst⟩ := h
          unfold total_row_height at h4
          rcases h5 : y_offsets t with _ | ⟨ys, t₃⟩
          · rw [h5] at h4; exact absurd h4 (by simp)
          · rw [h5] at h4
            simp only [Option.map_some', Option.some.injEq, Prod.mk.injEq] at h4
            obtain ⟨-, h6⟩ := h4
            obtain ⟨hc, hr1, hr2, hr3⟩ := y_offsets_frame t ys t₃ h5
            subst hst
            rw [← h6]
            exact ⟨hc, hr1, hr2, hr3⟩

/-- `refresh_coordinate` mutates only the ordered-row cache. -/
theorem refresh_coordinate_frame (t : DataTable α) (c : Coordinate)
    (em : Option Region) (t₁ : DataTable α)
    (h : refresh_coordinate t c = some (em, t₁)) :
    core t₁ = core t ∧
    t₁.row_render_cache = t.row_render_cache ∧
    t₁.cell_render_cache = t.cell_render_cache ∧
    t₁.line_cache = t.line_cache ∧
    t₁.offset_cache = t.offset_cache := by
  unfold refresh_coordinate at h
  split at h
  · simp only [Option.some.injEq, Prod.mk.injEq] at h
    obtain ⟨-, h2⟩ := h
    subst h2
    exact ⟨rfl, rfl, rfl, rfl, rfl⟩
  · rcases hr : get_cell_region t c with _ | ⟨r, t₂⟩
    · rw [hr] at h; exact absurd h (by simp)
    · rw [hr] at h
      simp only [Option.map_some', Option.some.injEq, Prod.mk.injEq] at h
      obtain ⟨-, h2⟩ := h
      subst h2
      exact get_cell_region_frame t c r t₂ hr

/-- `refresh_row` mutates only the ordered-row cache. -/
theorem refresh_row_frame (t : DataTable α) (i : Int)
    (em : Option Region) (t₁ : DataTable α)
    (h : refresh_row t i = some (em, t₁)) :
    core t₁ = core t ∧
    t₁.row_render_cache = t.row_render_cache ∧
    t₁.cell_render_cache = t.cell_render_cache ∧
    t₁.line_cache = t.line_cache ∧
    t₁.offset_cache = t.offset_cache := by
  unfold refresh_row at h
  split at h
  · simp only [Option.some.injEq, Prod.mk.injEq] at h
    obtain ⟨-, h2⟩ := h
    subst h2
    exact ⟨rfl, rfl, rfl, rfl, rfl⟩
  · rcases hr : get_row_region t i with _ | ⟨r, t₂⟩
    · rw [hr] at h; exact absurd h (by simp)
    · rw [hr] at h
      simp only [Option.map_some', Option.some.injEq, Prod.mk.injEq] at h
      obtain ⟨-, h2⟩ := h
      subst h2
      exact get_row_region_frame t i r t₂ hr

/-- `refresh_column` mutates only the offset and ordered-row caches. -/
theorem refresh_column_frame (t : DataTable α) (i : Int)
    (em : Option Region) (t₁ : DataTable α)
    (h : refresh_column t i = some (em, t₁)) :
    core t₁ = core t ∧
    t₁.row_render_cache = t.row_render_cache ∧
    t₁.cell_render_cache = t.cell_render_cache ∧
    t₁.line_cache = t.line_cache := by
  unfold refresh_column at h
  split at h
  · simp only [Option.some.injEq, Prod.mk.injEq] at h
    obtain ⟨-, h2⟩ := h
    subst h2
    exact ⟨rfl, rfl, rfl, rfl⟩
  · rcases hr : get_column_region t i with _ | ⟨r, t₂⟩
    · rw [hr] at h; exact absurd h (by simp)
    · rw [hr] at h
      simp only [Option.map_some', Option.some.injEq, Prod.mk.injEq] at h
      obtain ⟨-, h2⟩ := h
      subst h2
      exact get_column_region_frame t i r t₂ hr

/-- `_highlight_coordinate` mutates only the ordered-row cache. -/
theorem highlight_coordinate_frame (t : DataTable α) (c : Coordinate)
    (t₁ : DataTable α) (eff : List (Effect α))
    (h : highlight_coordinate t c = some (t₁, eff)) :
    core t₁ = core t ∧
    t₁.row_render_cache = t.row_render_cache ∧
    t₁.cell_render_cache = t.cell_render_cache ∧
    t₁.line_cache = t.line_cache ∧
    t₁.offset_cache = t.offset_cache := by
  unfold highlight_coordinate at h
  rcases hr : refresh_coordinate t c with _ | ⟨em, t₂⟩
  · rw [hr] at h; exact absurd h (by simp)
  · rw [hr] at h
    have hf := refresh_coordinate_frame t c em t₂ hr
    dsimp only at h
    split at h
    · simp only [Option.some.injEq, Prod.mk.injEq] at h
      obtain ⟨h2, -⟩ := h
      subst h2
      exact hf
    · exact absurd h (by simp)
    · split at h
      · simp only [Option.some.injEq, Prod.mk.injEq] at h
        obtain ⟨h2, -⟩ := h
        subst h2
        exact hf
      · exact absurd h (by simp)

/-- `_highlight_row` mutates only the ordered-row cache. -/
theorem highlight_row_frame (t : DataTable α) (i : Int)
    (t₁ : DataTable α) (eff : List (Effect α))
    (h : highlight_row t i = some (t₁, eff)) :
    core t₁ = core t ∧
    t₁.row_render_cache = t.row_render_cache ∧
    t₁.cell_render_cache = t.cell_render_cache ∧
    t₁.line_cache = t.line_cache ∧
    t₁.offset_cache = t.offset_cache := by
  unfold highlight_row at h
  rcases hr : refresh_row t i with _ | ⟨em, t₂⟩
  · rw [hr] at h; exact absurd h (by simp)
  · rw [hr] at h
    have hf := refresh_row_frame t i em t₂ hr
    dsimp only at h
    split at h
    · simp only [Option.some.injEq, Prod.mk.injEq] at h
      obtain ⟨h2, -⟩ := h
      subst h2
      exact hf
    · simp only [Option.some.injEq, Prod.mk.injEq] at h
      obtain ⟨h2, -⟩ := h
      subst h2
      exact hf

/-- `_highlight_column` mutates only the offset and ordered-row caches. -/
theorem highlight_column_frame (t : DataTable α) (i : Int)
    (t₁ : DataTable α) (eff : List (Effect α))
    (h : highlight_column t i = some (t₁, eff)) :
    core t₁ = core t ∧
    t₁.row_render_cache = t.row_render_cache ∧
    t₁.cell_render_cache = t.cell_render_cache ∧
    t₁.line_cache = t.line_cache := by
  unfold highlight_column at h
  rcases hr : refresh_column t i with _ | ⟨em, t₂⟩
  · rw [hr] at h; exact absurd h (by simp)
  · rw [hr] at h
    have hf := refresh_column_frame t i em t₂ hr
    dsimp only at h
    split at h
    · simp only [Option.some.injEq, Prod.mk.injEq] at h
      obtain ⟨h2, -⟩ := h
      subst h2
      exact hf
    · simp only [Option.some.injEq, Prod.mk.injEq] at h
      obtain ⟨h2, -⟩ := h
      subst h2
      exact hf

/-- `watch_cursor_coordinate` mutates only the offset and ordered-row
caches. -/
theorem watch_cursor_coordinate_frame (t : DataTable α)
    (old_c new_c : Coordinate) (t₁ : DataTable α) (eff : List (Effect α))
    (h : watch_cursor_coordinate t old_c new_c = some (t₁, eff)) :
    core t₁ = core t ∧
    t₁.row_render_cache = t.row_render_cache ∧
    t₁.cell_render_cache = t.cell_render_cache ∧
    t₁.line_cache = t.line_cache := by
  unfold watch_cursor_coordinate at h
  split at h
  case isTrue =>
    split at h
    case h_1 =>
      rcases hr : refresh_coordinate t old_c with _ | ⟨em, t₂⟩
      · rw [hr] at h; exact absurd h (by simp)
      · rw [hr] at h
        dsimp only at h
        obtain ⟨hc1, ha1, hb1, hl1, -⟩ := refresh_coordinate_frame t old_c em t₂ hr
        rcases hh : highlight_coordinate t₂ new_c with _ | ⟨t₃, eff₂⟩
        · rw [hh] at h; exact absurd h (by simp)
        · rw [hh] at h
          obtain ⟨hc2, ha2, hb2, hl2, -⟩ := highlight_coordinate_frame t₂ new_c t₃ eff₂ hh
          simp only [Option.some.injEq, Prod.mk.injEq] at h
          obtain ⟨h2, -⟩ := h
          subst h2
          exact ⟨hc2.trans hc1, ha2.trans ha1, hb2.trans hb1, hl2.trans hl1⟩
    case h_2 =>
      rcases hr : refresh_row t old_c.row with _ | ⟨em, t₂⟩
      · rw [hr] at h; exact absurd h (by simp)
      · rw [hr] at h
        dsimp only at h
        obtain ⟨hc1, ha1, hb1, hl1, -⟩ := refresh_row_frame t old_c.row em t₂ hr
        rcases hh : highlight_row t₂ new_c.row with _ | ⟨t₃, eff₂⟩
        · rw [hh] at h; exact absurd h (by simp)
        · rw [hh] at h
          obtain ⟨hc2, ha2, hb2, hl2, -⟩ := highlight_row_frame t₂ new_c.row t₃ eff₂ hh
          simp only [Option.some.injEq, Prod.mk.injEq] at h
          obtain ⟨h2, -⟩ := h
          subst h2
          exact ⟨hc2.trans hc1, ha2.trans ha1, hb2.trans hb1, hl2.trans hl1⟩
    case h_3 =>
      rcases hr : refresh_column t old_c.column with _ | ⟨em, t₂⟩
      · rw [hr] at h; exact absurd h (by simp)
      · rw [hr] at h
        dsimp only at h
        obtain ⟨hc1, ha1, hb1, hl1⟩ := refresh_column_frame t old_c.column em t₂ hr
        rcases hh : highlight_column t₂ new_c.column with _ | ⟨t₃, eff₂⟩
        · rw [hh] at h; exact absurd h (by simp)
        · rw [hh] at h
          obtain ⟨hc2, ha2, hb2, hl2⟩ := highlight_column_frame t₂ new_c.column t₃ eff₂ hh
          simp only [Option.some.injEq, Prod.mk.injEq] at h
          obtain ⟨h2, -⟩ := h
          subst h2
          exact ⟨hc2.trans hc1, ha2.trans ha1, hb2.trans hb1, hl2.trans hl1⟩
    case h_4 =>
      simp only [Option.some.injEq, Prod.mk.injEq] at h
      obtain ⟨h2, -⟩ := h
      subst h2
      exact ⟨rfl, rfl, rfl, rfl⟩
  case isFalse =>
    simp only [Option.some.injEq, Prod.mk.injEq] at h
    obtain ⟨h2, -⟩ := h
    subst h2
    exact ⟨rfl, rfl, rfl, rfl⟩

/-- The reactive cursor assignment stores the clamped coordinate and
otherwise mutates only the offset and ordered-row caches. -/
theorem set_cursor_coordinate_frame (t : DataTable α) (v : Coordinate)
    (t₁ : DataTable α) (eff : List (Effect α))
    (h : set_cursor_coordinate t v = some (t₁, eff)) :
    core t₁ =
      core ({ t with cursor_coordinate := validate_cursor_coordinate t v }) ∧
    t₁.row_render_cache = t.row_render_cache ∧
    t₁.cell_render_cache = t.cell_render_cache ∧
    t₁.line_cache = t.line_cache := by
  unfold set_cursor_coordinate at h
  dsimp only at h
  exact watch_cursor_coordinate_frame _ _ _ _ _ h

/-- The reactive hover assignment stores the coordinate and otherwise
mutates only the ordered-row cache. -/
theorem set_hover_coordinate_frame (t : DataTable α) (v : Coordinate)
    (t₁ : DataTable α) (eff : List (Effect α))
    (h : set_hover_coordinate t v = some (t₁, eff)) :
    core t₁ = core ({ t with hover_coordinate := v }) ∧
    t₁.row_render_cache = t.row_render_cache ∧
    t₁.cell_render_cache = t.cell_render_cache ∧
    t₁.line_cache = t.line_cache := by
  unfold set_hover_coordinate at h
  dsimp only at h
  split at h
  · simp only [Option.some.injEq, Prod.mk.injEq] at h
    obtain ⟨h2, -⟩ := h
    subst h2
    exact ⟨rfl, rfl, rfl, rfl⟩
  · unfold watch_hover_coordinate at h
    rcases hr : refresh_coordinate
        ({ t with hover_coordinate := v }) t.hover_coordinate with _ | ⟨em, t₂⟩
    · rw [hr] at h; exact absurd h (by simp)
    · rw [hr] at h
      dsimp only at h
      obtain ⟨hc1, ha1, hb1, hl1, -⟩ := refresh_coordinate_frame _ _ em t₂ hr
      rcases hh : refresh_coordinate t₂ v with _ | ⟨em₂, t₃⟩
      · rw [hh] at h; exact absurd h (by simp)
      · rw [hh] at h
        obtain ⟨hc2, ha2, hb2, hl2, -⟩ := refresh_coordinate_frame _ _ em₂ t₃ hh
        simp only [Option.some.injEq, Prod.mk.injEq] at h
        obtain ⟨h2, -⟩ := h
        subst h2
        exact ⟨hc2.trans hc1, ha2.trans ha1, hb2.trans hb1, hl2.trans hl1⟩

/-- `_highlight_cursor` mutates only the offset and ordered-row caches. -/
theorem highlight_cursor_frame (t : DataTable α)
    (t₁ : DataTable α) (eff : List (Effect α))
    (h : highlight_cursor t = some (t₁, eff)) :
    core t₁ = core t ∧
    t₁.row_render_cache = t.row_render_cache ∧
    t₁.cell_render_cache = t.cell_render_cache ∧
    t₁.line_cache = t.line_cache := by
  unfold highlight_cursor at h
  split at h
  case h_1 =>
    obtain ⟨hc, h1, h2, h3, -⟩ := highlight_coordinate_frame _ _ _ _ h
    exact ⟨hc, h1, h2, h3⟩
  case h_2 =>
    obtain ⟨hc, h1, h2, h3, -⟩ := highlight_row_frame _ _ _ _ h
    exact ⟨hc, h1, h2, h3⟩
  case h_3 => exact highlight_column_frame _ _ _ _ h
  case h_4 =>
    simp only [Option.some.injEq, Prod.mk.injEq] at h
    obtain ⟨h2, -⟩ := h
    subst h2
    exact ⟨rfl, rfl, rfl, rfl⟩

end DataTable

end Textual

namespace Textual

/-! ## Projections out of a core-state equality -/

/-- Equal cores give equal `update_count`. -/
theorem core_update_count {α : Type} {s t : DataTable α} (h : core s = core t) :
    s.update_count = t.update_count := congrArg CoreState.update_count h

/-- Equal cores give equal `data`. -/
theorem core_data {α : Type} {s t : DataTable α} (h : core s = core t) :
    s.data = t.data := congrArg CoreState.data h

/-- Equal cores give equal `rows`. -/
theorem core_rows {α : Type} {s t : DataTable α} (h : core s = core t) :
    s.rows = t.rows := congrArg CoreState.rows h

/-- Equal cores give equal `columns`. -/
theorem core_columns {α : Type} {s t : DataTable α} (h : core s = core t) :
    s.columns = t.columns := congrArg CoreState.columns h

/-- Equal cores give equal `row_locations`. -/
theorem core_row_locations {α : Type} {s t : DataTable α} (h : core s = core t) :
    s.row_locations = t.row_locations := congrArg CoreState.row_locations h

/-- Equal cores give equal `column_locations`. -/
theorem core_column_locations {α : Type} {s t : DataTable α}
    (h : core s = core t) : s.column_locations = t.column_locations :=
  congrArg CoreState.column_locations h

/-- Equal cores give equal `cursor_coordinate`. -/
theorem core_cursor_coordinate {α : Type} {s t : DataTable α}
    (h : core s = core t) : s.cursor_coordinate = t.cursor_coordinate :=
  congrArg CoreState.cursor_coordinate h

/-- Equal cores give equal `hover_coordinate`. -/
theorem core_hover_coordinate {α : Type} {s t : DataTable α}
    (h : core s = core t) : s.hover_coordinate = t.hover_coordinate :=
  congrArg CoreState.hover_coordinate h

/-- Equal cores give equal `show_header`. -/
theorem core_show_header {α : Type} {s t : DataTable α} (h : core s = core t) :
    s.show_header = t.show_header := congrArg CoreState.show_header h

/-- Equal cores give equal `header_row_key`. -/
theorem core_header_row_key {α : Type} {s t : DataTable α}
    (h : core s = core t) : s.header_row_key = t.header_row_key :=
  congrArg CoreState.header_row_key h

/-- Equal cores give equal `header_height`. -/
theorem core_header_height {α : Type} {s t : DataTable α}
    (h : core s = core t) : s.header_height = t.header_height :=
  congrArg CoreState.header_height h

/-- Equal cores give equal `fixed_rows`. -/
theorem core_fixed_rows {α : Type} {s t : DataTable α} (h : core s = core t) :
    s.fixed_rows = t.fixed_rows := congrArg CoreState.fixed_rows h

/-- Equal cores give equal `scroll_x`. -/
theorem core_scroll_x {α : Type} {s t : DataTable α} (h : core s = core t) :
    s.scroll_x = t.scroll_x := congrArg CoreState.scroll_x h

/-- Equal cores give equal `scroll_y`. -/
theorem core_scroll_y {α : Type} {s t : DataTable α} (h : core s = core t) :
    s.scroll_y = t.scroll_y := congrArg CoreState.scroll_y h

/-- Equal cores give equal `size_width`. -/
theorem core_size_width {α : Type} {s t : DataTable α} (h : core s = core t) :
    s.size_width = t.size_width := congrArg CoreState.size_width h

/-- Equal cores give equal `rich_style`. -/
theorem core_rich_style {α : Type} {s t : DataTable α} (h : core s = core t) :
    s.rich_style = t.rich_style := congrArg CoreState.rich_style h

/-- Equal cores give equal `cursor_type`. -/
theorem core_cursor_type {α : Type} {s t : DataTable α} (h : core s = core t) :
    s.cursor_type = t.cursor_type := congrArg CoreState.cursor_type h

/-- Equal cores give equal `show_hover_cursor`. -/
theorem core_show_hover_cursor {α : Type} {s t : DataTable α}
    (h : core s = core t) : s.show_hover_cursor = t.show_hover_cursor :=
  congrArg CoreState.show_hover_cursor h

/-- Equal cores give equal `show_cursor`. -/
theorem core_show_cursor {α : Type} {s t : DataTable α} (h : core s = core t) :
    s.show_cursor = t.show_cursor := congrArg CoreState.show_cursor h

end Textual

namespace Textual

/-- C5 amended: the per-widget update counter never decreases under any
modeled operation, and it is incremented exactly by the content mutations
`update_cell`, `add_row` and `sort` (by one each); `add_column` and
`clear` leave it unchanged, so not every structural mutation bumps it (and
no remove-row/column operations exist in this version). -/
theorem c5_amended {α : Type} [DecidableEq α] (t : DataTable α) :
    (∀ rk ck v uw r, DataTable.update_cell t rk ck v uw = .ok r →
        r.1.update_count = t.update_count + 1) ∧
    (∀ cells hgt k lab r, DataTable.add_row t cells hgt k lab = .ok r →
        r.1.2.update_count = t.update_count + 1) ∧
    (∀ cols lt rev r, DataTable.sort t cols lt rev = .ok r →
        r.1.update_count = t.update_count + 1) ∧
    (∀ lab w k r, DataTable.add_column t lab w k = .ok r →
        r.1.2.update_count = t.update_count) ∧
    (∀ cols r, DataTable.clear t cols = .ok r →
        r.1.update_count = t.update_count) := by
  refine ⟨?_, ?_, ?_, ?_, ?_⟩
  · intro rk ck v uw r h
    unfold DataTable.update_cell at h
    rcases hd : alistGet t.data rk with _ | row_data
    · rw [hd] at h; exact absurd h (by simp)
    · rw [hd] at h
      dsimp only at h
      simp only [Except.ok.injEq] at h
      subst h
      cases uw <;> rfl
  · intro cells hgt k lab r h
    unfold DataTable.add_row at h
    dsimp only at h
    split at h
    · exact absurd h (by simp)
    · split at h
      case h_1 => exact absurd h (by simp)
      case h_2 cols heqc =>
        split at h
        · exact absurd h (by simp)
        · split at h
          case h_1 => exact absurd h (by simp)
          case h_2 t₂ eff₁ heq =>
            have hcnt2 : t₂.update_count = t.update_count := by
              have hx := core_update_count
                (DataTable.set_cursor_coordinate_frame _ _ _ _ heq).1
              exact hx
            split at h
            case h_1 => exact absurd h (by simp)
            case h_2 t₃ eff₂ heq₂ =>
              have hcnt3 : t₃.update_count = t₂.update_count := by
                split at heq₂
                · exact core_update_count
                    (DataTable.highlight_cursor_frame _ _ _ heq₂).1
                · simp only [Option.some.injEq, Prod.mk.injEq] at heq₂
                  obtain ⟨h3, -⟩ := heq₂
                  rw [← h3]
              simp only [Except.ok.injEq] at h
              subst h
              show t₃.update_count + 1 = t.update_count + 1
              rw [hcnt3, hcnt2]
  · intro cols lt rev r h
    unfold DataTable.sort at h
    split at h
    · exact absurd h (by simp)
    · split at h
      · exact absurd h (by simp)
      · simp only [Except.ok.injEq] at h
        subst h
        rfl
  · intro lab w k r h
    unfold DataTable.add_column at h
    dsimp only at h
    split at h
    · exact absurd h (by simp)
    · simp only [Except.ok.injEq] at h
      subst h
      rfl
  · intro cols r h
    unfold DataTable.clear at h
    dsimp only at h
    split at h
    case h_1 => exact absurd h (by simp)
    case h_2 ys t₂ heq =>
      have hcnt2 : t₂.update_count = t.update_count :=
        core_update_count (DataTable.y_offsets_frame _ _ _ heq).1
      split at h
      case h_1 => exact absurd h (by simp)
      case h_2 t₇ eff₁ heq₂ =>
        have hcnt7 : t₇.update_count = t₂.update_count := by
          have := core_update_count (DataTable.set_cursor_coordinate_frame
            _ _ _ _ heq₂).1
          split at this <;> exact this
        split at h
        case h_1 => exact absurd h (by simp)
        case h_2 t₈ eff₂ heq₃ =>
          have hcnt8 : t₈.update_count = t₇.update_count := by
            have hx := core_update_count
              (DataTable.set_hover_coordinate_frame _ _ _ _ heq₃).1
            exact hx
          simp only [Except.ok.injEq] at h
          subst h
          show t₈.update_count = t.update_count
          rw [hcnt8, hcnt7, hcnt2]

/-- C5 amended witness: on `sampleT4` (counter 2) the counter becomes 3
after `update_cell`, `add_row` and `sort`, and stays 2 after `add_column`
and `clear`. -/
theorem c5_amended_witness :
    updatedSampleT4.update_count = 3 ∧
    rowAddedSampleT4.update_count = 3 ∧
    sortedSampleT4.update_count = 3 ∧
    colAddedSampleT4.update_count = 2 ∧
    clearedSampleT4.update_count = 2 := by
  refine ⟨?_, ?_, ?_, ?_, ?_⟩
  · rw [(c5_amended sampleT4).1 keyR1 keyA 42 false
      (updatedSampleT4, [Effect.refreshFull]) (by rfl)]
    decide
  · rw [(c5_amended sampleT4).2.1 [1, 2] 1 (some "r3") Option.none
      ((⟨some "r3", 6⟩, rowAddedSampleT4), [Effect.checkIdle]) (by rfl)]
    decide
  · rw [(c5_amended sampleT4).2.2.1 [keyA] natValueLt false
      (sortedSampleT4, [Effect.refreshFull]) (by rfl)]
    decide
  · rw [(c5_amended sampleT4).2.2.2.1 "C" Option.none (some "c")
      ((⟨some "c", 6⟩, colAddedSampleT4), [Effect.checkIdle]) (by rfl)]
    decide
  · rw [(c5_amended sampleT4).2.2.2.2 false
      (clearedSampleT4, [Effect.refreshFull]) (by rfl)]
    decide

end Textual

namespace Textual

namespace DataTable

variable {α : Type}

/-- With no rows, `refresh_coordinate` is a silent no-op for every
coordinate. -/
theorem refresh_coordinate_rows_nil (t : DataTable α) (c : Coordinate)
    (h : t.rows = []) : refresh_coordinate t c = some (Option.none, t) := by
  unfold refresh_coordinate
  rw [if_pos]
  simp only [is_valid_coordinate, is_valid_row_index, h, List.length_nil]
  rw [decide_eq_false (by omega : ¬ (0 ≤ c.row ∧ c.row < ((0 : Nat) : Int)))]
  simp

/-- With no rows, `refresh_row` is a silent no-op for every index. -/
theorem refresh_row_rows_nil (t : DataTable α) (i : Int)
    (h : t.rows = []) : refresh_row t i = some (Option.none, t) := by
  unfold refresh_row
  rw [if_pos]
  simp only [is_valid_row_index, h, List.length_nil]
  rw [decide_eq_false (by omega : ¬ (0 ≤ i ∧ i < ((0 : Nat) : Int)))]
  simp

/-- With no rows, `_highlight_coordinate` changes nothing and posts
nothing (the value lookup raises `CellDoesNotExist`, which is
swallowed). -/
theorem highlight_coordinate_rows_nil (t : DataTable α) (c : Coordinate)
    (h : t.rows = []) : highlight_coordinate t c = some (t, []) := by
  have hv : t.is_valid_coordinate c = false := by
    simp only [is_valid_coordinate, is_valid_row_index, h, List.length_nil]
    rw [decide_eq_false (by omega : ¬ (0 ≤ c.row ∧ c.row < ((0 : Nat) : Int)))]
    simp
  unfold highlight_coordinate get_cell_at coordinate_to_cell_key
  rw [refresh_coordinate_rows_nil t c h]
  dsimp only
  rw [if_pos (by simp [hv])]
  rfl

/-- With no rows and no data, `_highlight_row` leaves the state unchanged
(for a negative index Python still posts a message, so only the state is
pinned here). -/
theorem highlight_row_rows_nil (t : DataTable α) (i : Int)
    (h : t.rows = []) :
    ∀ t₁ eff, highlight_row t i = some (t₁, eff) → t₁ = t := by
  intro t₁ eff hh
  unfold highlight_row at hh
  rw [refresh_row_rows_nil t i h] at hh
  dsimp only at hh
  split at hh <;>
    (simp only [Option.some.injEq, Prod.mk.injEq] at hh; exact hh.1.symm)

/-- A lookup of the `_y_offsets` cache entry sitting at the front of the
offset cache returns it without changing the state at all. -/
theorem y_offsets_of_frontAt (t : DataTable α) (L : List (RowKey × Nat))
    (h : t.offset_cache.frontAt t.update_count L) :
    y_offsets t = some (L, t) := by
  unfold y_offsets
  rw [LRUCache.getTouch_of_frontAt _ _ _ h (by simp)]

/-- Under a front-cached offset list, `_get_column_region` threads the
state through unchanged. -/
theorem get_column_region_of_frontAt (t : DataTable α) (i : Int)
    (L : List (RowKey × Nat))
    (hfa : t.offset_cache.frontAt t.update_count L) :
    ∀ r t₁, get_column_region t i = some (r, t₁) → t₁ = t := by
  intro r t₁ h
  unfold get_column_region at h
  split at h
  · simp only [Option.some.injEq, Prod.mk.injEq] at h
    exact h.2.symm
  · rcases h2 : ordered_columns t with _ | cols
    · rw [h2] at h; exact absurd h (by simp)
    · rw [h2] at h
      dsimp only at h
      rcases h3 : (t.column_locations.getKey i).bind (fun ck => alistGet t.columns ck)
          with _ | col
      · rw [h3] at h; exact absurd h (by simp)
      · rw [h3] at h
        unfold total_row_height at h
        rw [y_offsets_of_frontAt t L hfa] at h
        simp only [Option.map_some', Option.some.injEq, Prod.mk.injEq] at h
        exact h.2.symm

/-- Under a front-cached offset list, `refresh_column` threads the state
through unchanged. -/
theorem refresh_column_of_frontAt (t : DataTable α) (i : Int)
    (L : List (RowKey × Nat))
    (hfa : t.offset_cache.frontAt t.update_count L) :
    ∀ em t₁, refresh_column t i = some (em, t₁) → t₁ = t := by
  intro em t₁ h
  unfold refresh_column at h
  split at h
  · simp only [Option.some.injEq, Prod.mk.injEq] at h
    exact h.2.symm
  · rcases hr : get_column_region t i with _ | ⟨r, t₂⟩
    · rw [hr] at h; exact absurd h (by simp)
    · rw [hr] at h
      simp only [Option.map_some', Option.some.injEq, Prod.mk.injEq] at h
      rw [← h.2]
      exact get_column_region_of_frontAt t i L hfa r t₂ hr

/-- Under a front-cached offset list, `_highlight_column` threads the
state through unchanged. -/
theorem highlight_column_of_frontAt (t : DataTable α) (i : Int)
    (L : List (RowKey × Nat))
    (hfa : t.offset_cache.frontAt t.update_count L) :
    ∀ t₁ eff, highlight_column t i = some (t₁, eff) → t₁ = t := by
  intro t₁ eff h
  unfold highlight_column at h
  rcases hr : refresh_column t i with _ | ⟨em, t₂⟩
  · rw [hr] at h; exact absurd h (by simp)
  · rw [hr] at h
    have ht2 : t₂ = t := refresh_column_of_frontAt t i L hfa em t₂ hr
    dsimp only at h
    split at h <;>
      (simp only [Option.some.injEq, Prod.mk.injEq] at h; rw [← h.1, ht2])

/-- On an emptied table with a front-cached offset list, the cursor watch
leaves the state unchanged whatever the cursor type. -/
theorem watch_cursor_coordinate_empty (t : DataTable α)
    (old_c new_c : Coordinate) (hrows : t.rows = [])
    (L : List (RowKey × Nat))
    (hfa : t.offset_cache.frontAt t.update_count L) :
    ∀ t₁ eff, watch_cursor_coordinate t old_c new_c = some (t₁, eff) →
      t₁ = t := by
  intro t₁ eff h
  unfold watch_cursor_coordinate at h
  split at h
  case isFalse =>
    simp only [Option.some.injEq, Prod.mk.injEq] at h
    exact h.1.symm
  case isTrue =>
    split at h
    case h_1 =>
      rw [refresh_coordinate_rows_nil t old_c hrows] at h
      dsimp only at h
      rw [highlight_coordinate_rows_nil t new_c hrows] at h
      simp only [Option.some.injEq, Prod.mk.injEq] at h
      exact h.1.symm
    case h_2 =>
      rw [refresh_row_rows_nil t old_c.row hrows] at h
      dsimp only at h
      rcases hh : highlight_row t new_c.row with _ | ⟨t₂, eff₂⟩
      · rw [hh] at h; exact absurd h (by simp)
      · rw [hh] at h
        simp only [Option.some.injEq, Prod.mk.injEq] at h
        rw [← h.1]
        exact highlight_row_rows_nil t new_c.row hrows t₂ eff₂ hh
    case h_3 =>
      rcases hr : refresh_column t old_c.column with _ | ⟨em, t₂⟩
      · rw [hr] at h; exact absurd h (by simp)
      · rw [hr] at h
        have ht2 : t₂ = t := refresh_column_of_frontAt t old_c.column L hfa em t₂ hr
        subst ht2
        dsimp only at h
        rcases hh : highlight_column t₂ new_c.column with _ | ⟨t₃, eff₃⟩
        · rw [hh] at h; exact absurd h (by simp)
        · rw [hh] at h
          simp only [Option.some.injEq, Prod.mk.injEq] at h
          rw [← h.1]
          exact highlight_column_of_frontAt t₂ new_c.column L hfa t₃ eff₃ hh
    case h_4 =>
      simp only [Option.some.injEq, Prod.mk.injEq] at h
      exact h.1.symm

end DataTable

end Textual

namespace Textual

/-- On an empty ordered-row cache, `ordered_rows` either raises or
computes the row list fresh and stores it. -/
theorem ordered_rows_cleared {α : Type} (t : DataTable α)
    (h2 : t.ordered_row_cache.entries = []) :
    DataTable.ordered_rows t = Option.none ∨
    ∃ rs, DataTable.ordered_rows t =
      some (rs, { t with ordered_row_cache :=
        t.ordered_row_cache.set (t.row_count, t.update_count) rs }) := by
  unfold DataTable.ordered_rows
  dsimp only
  rw [LRUCache.getTouch_miss _ _ (by rw [h2]; rfl)]
  dsimp only
  cases hm : (List.range t.row_count).mapM
      (fun i => (t.row_locations.getKey (i : Int)).bind
        fun k => alistGet t.rows k) with
  | none => exact Or.inl rfl
  | some ordered => exact Or.inr ⟨ordered, rfl⟩

/-- On a table whose offset and ordered-row caches are empty, a successful
`_y_offsets` computes the offset list fresh and leaves it as the single
offset-cache entry under the current update count. -/
theorem y_offsets_after_clear {α : Type} (t : DataTable α)
    (h1 : t.offset_cache.entries = []) (h2 : t.ordered_row_cache.entries = [])
    (hm : 1 ≤ t.offset_cache.maxSize)
    (ys : List (RowKey × Nat)) (t₂ : DataTable α)
    (h : DataTable.y_offsets t = some (ys, t₂)) :
    t₂.offset_cache.maxSize = t.offset_cache.maxSize ∧
    t₂.offset_cache.entries = [(t.update_count, ys)] ∧
    t₂.row_render_cache = t.row_render_cache ∧
    t₂.cell_render_cache = t.cell_render_cache ∧
    t₂.line_cache = t.line_cache ∧
    core t₂ = core t := by
  unfold DataTable.y_offsets at h
  rw [LRUCache.getTouch_miss _ _ (by rw [h1]; rfl)] at h
  dsimp only at h
  rcases ordered_rows_cleared t h2 with hor | ⟨rs, hor⟩
  · rw [hor] at h; exact absurd h (by simp)
  · rw [hor] at h
    dsimp only at h
    simp only [Option.some.injEq, Prod.mk.injEq] at h
    obtain ⟨hys, hst⟩ := h
    subst hst
    refine ⟨?_, ?_, rfl, rfl, rfl, rfl⟩
    · show (t.offset_cache.set t.update_count _).maxSize = t.offset_cache.maxSize
      exact LRUCache.set_maxSize _ _ _
    · show (t.offset_cache.set t.update_count _).entries = _
      unfold LRUCache.set
      rw [h1]
      simp only [List.filter_nil]
      rw [hys]
      exact List.take_of_length_le (by simpa using hm)

/-- C9 counterexample: `clear()` with default arguments on `sampleT4` (2
columns) leaves the column location map with its 2 entries and leaves the
offset cache holding one entry (the current update count mapped to the
emptied offset list), while the row location map does go to 0 entries —
refuting the claim that both location maps are reset and all render caches
emptied. -/
theorem c9_counterexample :
    (match DataTable.clear sampleT4 false with
     | .ok (t, _) =>
         some (t.column_locations.entries.length,
           t.row_locations.entries.length, t.offset_cache.entries)
     | .error _ => Option.none) = some (2, 0, [(2, [])]) := by rfl

/-- C9 amended: `clear()` with default arguments empties the cell-render,
row-render and line caches, resets the stored row data, the row metadata
and the row location map to empty, and resets both coordinate reactives to
(0,0); but the offset cache is left holding one entry mapping the current
update count to an empty offset list, and the column metadata and column
location map are unchanged (they are only reset when `columns=True`).  The
update counter is not changed. -/
theorem c9_amended {α : Type} [DecidableEq α] (t : DataTable α)
    (hm : 1 ≤ t.offset_cache.maxSize) (t' : DataTable α)
    (eff : List (Effect α)) (h : DataTable.clear t false = .ok (t', eff)) :
    t'.row_render_cache.entries = [] ∧
    t'.cell_render_cache.entries = [] ∧
    t'.line_cache.entries = [] ∧
    t'.offset_cache.entries = [(t.update_count, [])] ∧
    t'.data = [] ∧ t'.rows = [] ∧ t'.row_locations.entries = [] ∧
    t'.columns = t.columns ∧ t'.column_locations = t.column_locations ∧
    t'.cursor_coordinate = ⟨0, 0⟩ ∧ t'.hover_coordinate = ⟨0, 0⟩ ∧
    t'.update_count = t.update_count := by
  unfold DataTable.clear at h
  dsimp only at h
  split at h
  case h_1 => exact absurd h (by simp)
  case h_2 ys t₂ heq =>
    obtain ⟨hms, hoe, hrr, hcr, hlc, hcore⟩ :=
      y_offsets_after_clear (DataTable.clear_caches t) rfl rfl hm ys t₂ heq
    have hoe2 : t₂.offset_cache.entries = [(t.update_count, ys)] := hoe
    have hms2 : t₂.offset_cache.maxSize = t.offset_cache.maxSize := hms
    have hcore2 : core t₂ = core t := hcore
    have hrr2 : t₂.row_render_cache.entries = [] := by rw [hrr]; rfl
    have hcr2 : t₂.cell_render_cache.entries = [] := by rw [hcr]; rfl
    have hlc2 : t₂.line_cache.entries = [] := by rw [hlc]; rfl
    have hcnt : t₂.update_count = t.update_count := core_update_count hcore2
    have hcols : t₂.columns = t.columns := core_columns hcore2
    have hclocs : t₂.column_locations = t.column_locations :=
      core_column_locations hcore2
    have hsetent : (t₂.offset_cache.set t₂.update_count []).entries =
        [(t.update_count, [])] := by
      unfold LRUCache.set
      rw [hoe2, hcnt, hms2]
      simp only [List.filter_cons]
      rw [if_neg (by simp)]
      simp only [List.filter_nil]
      exact List.take_of_length_le (by simpa using hm)
    simp only [Bool.false_eq_true, if_false] at h
    split at h
    case h_1 => exact absurd h (by simp)
    case h_2 t₇ eff₁ heq₂ =>
      have ht7 : t₇ = { t₂ with
          offset_cache := t₂.offset_cache.set t₂.update_count []
          data := [], rows := [], row_locations := ⟨[]⟩
          require_update_dimensions := true
          cursor_coordinate := ⟨0, 0⟩ } := by
        unfold DataTable.set_cursor_coordinate at heq₂
        dsimp only at heq₂
        have hv : DataTable.validate_cursor_coordinate
            ({ t₂ with
                offset_cache := t₂.offset_cache.set t₂.update_count []
                data := [], rows := [], row_locations := ⟨[]⟩
                require_update_dimensions := true } : DataTable α)
            ⟨0, 0⟩ = ⟨0, 0⟩ := by
          unfold DataTable.validate_cursor_coordinate
            DataTable.clamp_cursor_coordinate DataTable.row_count
          have hr : clamp 0 0 (((List.length ([] : List (RowKey × Row))) : Int) - 1)
              = 0 := by
            unfold clamp; dsimp only; split_ifs <;> omega
          have hc : clamp 0 0 ((List.length t₂.columns : Int) - 1) = 0 := by
            unfold clamp; dsimp only; split_ifs <;> omega
          simp only
          rw [hr, hc]
        rw [hv] at heq₂
        exact DataTable.watch_cursor_coordinate_empty
          ({ t₂ with
              offset_cache := t₂.offset_cache.set t₂.update_count []
              data := [], rows := [], row_locations := ⟨[]⟩
              require_update_dimensions := true
              cursor_coordinate := ⟨0, 0⟩ } : DataTable α)
          t₂.cursor_coordinate ⟨0, 0⟩ rfl []
          ⟨[], by rw [← hcnt] at hsetent; exact hsetent, by simp⟩
          t₇ eff₁ heq₂
      subst ht7
      split at h
      case h_1 => exact absurd h (by simp)
      case h_2 t₈ eff₂ heq₃ =>
        have ht8 : t₈ = { t₂ with
            offset_cache := t₂.offset_cache.set t₂.update_count []
            data := [], rows := [], row_locations := ⟨[]⟩
            require_update_dimensions := true
            cursor_coordinate := ⟨0, 0⟩
            hover_coordinate := ⟨0, 0⟩ } := by
          unfold DataTable.set_hover_coordinate at heq₃
          dsimp only at heq₃
          split at heq₃
          · simp only [Option.some.injEq, Prod.mk.injEq] at heq₃
            exact heq₃.1.symm
          · unfold DataTable.watch_hover_coordinate at heq₃
            rw [DataTable.refresh_coordinate_rows_nil _ _ rfl] at heq₃
            dsimp only at heq₃
            rw [DataTable.refresh_coordinate_rows_nil _ _ rfl] at heq₃
            simp only [Option.some.injEq, Prod.mk.injEq] at heq₃
            exact heq₃.1.symm
        subst ht8
        simp only [Except.ok.injEq, Prod.mk.injEq] at h
        obtain ⟨ht, -⟩ := h
        rw [← ht]
        exact ⟨hrr2, hcr2, hlc2, hsetent, rfl, rfl, rfl, hcols, hclocs,
          rfl, rfl, hcnt⟩


/-- C9 amended witness: clearing `sampleT4` empties the three render
caches, row data and row locations, leaves the offset cache holding
`[(2, [])]`, and keeps the 2 columns and their location map. -/
theorem c9_amended_witness :
    clearedSampleT4.row_render_cache.entries = [] ∧
    clearedSampleT4.cell_render_cache.entries = [] ∧
    clearedSampleT4.line_cache.entries = [] ∧
    clearedSampleT4.offset_cache.entries = [(sampleT4.update_count, [])] ∧
    clearedSampleT4.data = [] ∧ clearedSampleT4.rows = [] ∧
    clearedSampleT4.row_locations.entries = [] ∧
    clearedSampleT4.columns = sampleT4.columns ∧
    clearedSampleT4.column_locations = sampleT4.column_locations ∧
    clearedSampleT4.cursor_coordinate = ⟨0, 0⟩ ∧
    clearedSampleT4.hover_coordinate = ⟨0, 0⟩ ∧
    clearedSampleT4.update_count = sampleT4.update_count :=
  c9_amended sampleT4 (by decide) clearedSampleT4 [Effect.refreshFull] (by rfl)

end Textual

namespace Textual

namespace DataTable

variable {α : Type}

/-- `_render_cell` mutates only the cell render cache. -/
theorem render_cell_frame [DecidableEq α] (t : DataTable α)
    (row_index column_index : Int) (style : Style) (width : Nat)
    (cursor hover : Bool) (v : RenderedCell α) (t₁ : DataTable α)
    (h : render_cell t row_index column_index style width cursor hover =
      .ok (v, t₁)) :
    core t₁ = core t ∧
    t₁.row_render_cache = t.row_render_cache ∧
    t₁.line_cache = t.line_cache ∧
    t₁.offset_cache = t.offset_cache ∧
    t₁.ordered_row_cache = t.ordered_row_cache := by
  unfold render_cell at h
  dsimp only at h
  split at h
  case h_1 => exact absurd h (by simp)
  case h_2 t₂ hfill =>
    split at h
    case h_1 rc c hget =>
      simp only [Except.ok.injEq, Prod.mk.injEq] at h
      obtain ⟨-, hst⟩ := h
      subst hst
      have ht2 : core t₂ = core t ∧ t₂.row_render_cache = t.row_render_cache ∧
          t₂.line_cache = t.line_cache ∧ t₂.offset_cache = t.offset_cache ∧
          t₂.ordered_row_cache = t.ordered_row_cache := by
        repeat' split at hfill
        all_goals first
          | (simp only [Except.ok.injEq] at hfill
             subst hfill
             exact ⟨rfl, rfl, rfl, rfl, rfl⟩)
          | simp at hfill
      exact ⟨ht2.1, ht2.2.1, ht2.2.2.1, ht2.2.2.2.1, ht2.2.2.2.2⟩
    case h_2 => exact absurd h (by simp)

/-- The per-column render loop mutates only the cell render cache. -/
theorem render_cells_loop_frame [DecidableEq α] (items : List (Nat × Column)) :
    ∀ (t : DataTable α) (row_index : Int) (style : Style) (line_no : Int)
      (cl hl : Coordinate) (ct : CursorType) (cls : List (CellLine α))
      (t₁ : DataTable α),
      render_cells_loop t items row_index style line_no cl hl ct =
        .ok (cls, t₁) →
      core t₁ = core t ∧
      t₁.row_render_cache = t.row_render_cache ∧
      t₁.line_cache = t.line_cache ∧
      t₁.offset_cache = t.offset_cache ∧
      t₁.ordered_row_cache = t.ordered_row_cache := by
  induction items with
  | nil =>
      intro t ri style ln cl hl ct cls t₁ h
      unfold render_cells_loop at h
      simp only [Except.ok.injEq, Prod.mk.injEq] at h
      obtain ⟨-, hst⟩ := h
      subst hst
      exact ⟨rfl, rfl, rfl, rfl, rfl⟩
  | cons p rest ih =>
      intro t ri style ln cl hl ct cls t₁ h
      unfold render_cells_loop at h
      dsimp only at h
      split at h
      case h_1 => exact absurd h (by simp)
      case h_2 rc t₂ hrc =>
        split at h
        case h_1 => exact absurd h (by simp)
        case h_2 cl0 hline =>
          split at h
          case h_1 => exact absurd h (by simp)
          case h_2 cls2 t₃ hrec =>
            simp only [Except.ok.injEq, Prod.mk.injEq] at h
            obtain ⟨-, hst⟩ := h
            subst hst
            obtain ⟨hc1, h11, h12, h13, h14⟩ :=
              render_cell_frame t ri _ style _ _ _ rc t₂ hrc
            obtain ⟨hc2, h21, h22, h23, h24⟩ :=
              ih t₂ ri style ln cl hl ct cls2 t₃ hrec
            exact ⟨hc2.trans hc1, h21.trans h11, h22.trans h12,
              h23.trans h13, h24.trans h14⟩

/-- `_render_line_in_row` mutates only the row and cell render caches. -/
theorem render_line_in_row_frame [DecidableEq α] (t : DataTable α)
    (row_key : RowKey) (line_no : Int) (base_style : Style)
    (cl hl : Coordinate) (pair : List (CellLine α) × List (CellLine α))
    (t₁ : DataTable α)
    (h : render_line_in_row t row_key line_no base_style cl hl =
      .ok (pair, t₁)) :
    core t₁ = core t ∧
    t₁.line_cache = t.line_cache ∧
    t₁.offset_cache = t.offset_cache ∧
    t₁.ordered_row_cache = t.ordered_row_cache := by
  unfold render_line_in_row at h
  dsimp only at h
  split at h
  case h_1 pair0 c hget =>
    simp only [Except.ok.injEq, Prod.mk.injEq] at h
    obtain ⟨-, hst⟩ := h
    subst hst
    exact ⟨rfl, rfl, rfl, rfl⟩
  case h_2 =>
    split at h
    case h_1 => exact absurd h (by simp)
    case h_2 label_row t₂ hlab =>
      have hlab2 : core t₂ = core t ∧ t₂.line_cache = t.line_cache ∧
          t₂.offset_cache = t.offset_cache ∧
          t₂.ordered_row_cache = t.ordered_row_cache := by
        split at hlab
        · split at hlab
          case h_1 => exact absurd hlab (by simp)
          case h_2 rc t₄ hrc =>
            split at hlab
            case h_1 => exact absurd hlab (by simp)
            case h_2 =>
              simp only [Except.ok.injEq, Prod.mk.injEq] at hlab
              obtain ⟨-, hst⟩ := hlab
              subst hst
              obtain ⟨hc, -, hb, hcc, hd⟩ :=
                render_cell_frame t _ _ _ _ _ _ rc t₄ hrc
              exact ⟨hc, hb, hcc, hd⟩
        · simp only [Except.ok.injEq, Prod.mk.injEq] at hlab
          obtain ⟨-, hst⟩ := hlab
          subst hst
          exact ⟨rfl, rfl, rfl, rfl⟩
      split at h
      case h_1 => exact absurd h (by simp)
      case h_2 cols hcols =>
        split at h
        case h_1 => exact absurd h (by simp)
        case h_2 fixed_cells t₃ hfix =>
          have hfix2 : core t₃ = core t₂ ∧ t₃.line_cache = t₂.line_cache ∧
              t₃.offset_cache = t₂.offset_cache ∧
              t₃.ordered_row_cache = t₂.ordered_row_cache := by
            split at hfix
            · obtain ⟨hc, -, hb, hcc, hd⟩ :=
                render_cells_loop_frame _ t₂ _ _ _ _ _ _ _ _ hfix
              exact ⟨hc, hb, hcc, hd⟩
            · simp only [Except.ok.injEq, Prod.mk.injEq] at hfix
              obtain ⟨-, hst⟩ := hfix
              subst hst
              exact ⟨rfl, rfl, rfl, rfl⟩
          split at h
          case h_1 => exact absurd h (by simp)
          case h_2 scr t₄ hscr =>
            obtain ⟨hc4, -, hb4, hcc4, hd4⟩ :=
              render_cells_loop_frame _ t₃ _ _ _ _ _ _ _ _ hscr
            simp only [Except.ok.injEq, Prod.mk.injEq] at h
            obtain ⟨-, hst⟩ := h
            subst hst
            exact ⟨(hc4.trans hfix2.1).trans hlab2.1,
              (hb4.trans hfix2.2.1).trans hlab2.2.1,
              (hcc4.trans hfix2.2.2.1).trans hlab2.2.2.1,
              (hd4.trans hfix2.2.2.2).trans hlab2.2.2.2⟩

end DataTable

end Textual

namespace Textual

namespace DataTable

variable {α : Type}

/-- A failing `ordered_rows` fails again from any state with the same rows,
row locations, update count and ordered-row cache. -/
theorem ordered_rows_none_congr (t s : DataTable α)
    (h : ordered_rows t = Option.none)
    (hrows : s.rows = t.rows) (hloc : s.row_locations = t.row_locations)
    (hcnt : s.update_count = t.update_count)
    (hrc : s.ordered_row_cache = t.ordered_row_cache) :
    ordered_rows s = Option.none := by
  unfold ordered_rows row_count at h ⊢
  dsimp only at h ⊢
  rw [hrows, hloc, hcnt, hrc]
  rcases hg : t.ordered_row_cache.getTouch (t.rows.length, t.update_count)
    with ⟨o, c⟩
  rw [hg] at h
  cases o with
  | some rs =>
      dsimp only at h
      exact absurd h (by simp)
  | none =>
      dsimp only at h ⊢
      split at h
      case h_1 hmm => exact h
      case h_2 ordered hmm => exact absurd h (by simp)

/-- A failing `_y_offsets` fails again from any state with the same rows,
row locations, update count, offset cache and ordered-row cache. -/
theorem y_offsets_none_congr (t s : DataTable α)
    (h : y_offsets t = Option.none)
    (hrows : s.rows = t.rows) (hloc : s.row_locations = t.row_locations)
    (hcnt : s.update_count = t.update_count)
    (hoc : s.offset_cache = t.offset_cache)
    (hrc : s.ordered_row_cache = t.ordered_row_cache) :
    y_offsets s = Option.none := by
  unfold y_offsets at h ⊢
  rw [hcnt, hoc]
  rcases hg : t.offset_cache.getTouch t.update_count with ⟨o, c⟩
  rw [hg] at h
  cases o with
  | some ys =>
      dsimp only at h
      exact absurd h (by simp)
  | none =>
      dsimp only at h ⊢
      rcases hor : ordered_rows t with _ | ⟨rs, t₂⟩
      · rw [hor] at h
        rw [ordered_rows_none_congr t s hor hrows hloc hcnt hrc]
      · rw [hor] at h
        dsimp only at h
        exact absurd h (by simp)

/-- After a successful `_y_offsets`, any state carrying the resulting offset
cache (and the same update count) replays the lookup as a pure hit: same
offset list, state unchanged. -/
theorem y_offsets_replay (t t₁ s : DataTable α) (ys : List (RowKey × Nat))
    (hm : 1 ≤ t.offset_cache.maxSize)
    (h : y_offsets t = some (ys, t₁))
    (hcnt : s.update_count = t.update_count)
    (hoc : s.offset_cache = t₁.offset_cache) :
    y_offsets s = some (ys, s) := by
  have hfront : t₁.offset_cache.frontAt t.update_count ys := by
    unfold y_offsets at h
    rcases hg : t.offset_cache.getTouch t.update_count with ⟨o, c⟩
    rw [hg] at h
    cases o with
    | some ys0 =>
        dsimp only at h
        simp only [Option.some.injEq, Prod.mk.injEq] at h
        obtain ⟨hys, h2⟩ := h
        subst hys
        have hc : t₁.offset_cache = c := by rw [← h2]
        rw [hc]
        exact LRUCache.frontAt_of_getTouch _ _ _ _ hg
    | none =>
        dsimp only at h
        rcases hor : ordered_rows t with _ | ⟨rs, t₂⟩
        · rw [hor] at h
          exact absurd h (by simp)
        · rw [hor] at h
          dsimp only at h
          simp only [Option.some.injEq, Prod.mk.injEq] at h
          obtain ⟨hys, h2⟩ := h
          subst hys
          have hoc2 : t₂.offset_cache = t.offset_cache :=
            (ordered_rows_frame t rs t₂ hor).2.2.2.2
          have hc : t₁.offset_cache =
              t₂.offset_cache.set t.update_count
                (rs.flatMap
                  (fun r => (List.range r.height).map (fun j => (r.key, j)))) := by
            rw [← h2]
          rw [hc, hoc2]
          exact LRUCache.frontAt_set _ _ _ hm
  have hgt : s.offset_cache.getTouch s.update_count =
      (some ys, s.offset_cache) := by
    rw [hcnt, hoc]
    exact LRUCache.getTouch_of_frontAt _ _ _ hfront (by simp)
  unfold y_offsets
  rw [hgt]

/-- After a run of `_get_offsets`, any state agreeing with the resulting
state outside the render caches and carrying its offset and ordered-row
caches replays the call: same result, state unchanged. -/
theorem get_offsets_replay (t s : DataTable α) (y : Int)
    (r : Option (RowKey × Int)) (t₁ : DataTable α)
    (hm : 1 ≤ t.offset_cache.maxSize)
    (h : get_offsets t y = (r, t₁))
    (hcore : core s = core t₁)
    (hoc : s.offset_cache = t₁.offset_cache)
    (hrc : s.ordered_row_cache = t₁.ordered_row_cache) :
    get_offsets s y = (r, s) := by
  unfold get_offsets at h ⊢
  rcases hy : y_offsets t with _ | ⟨ys, t₂⟩
  · rw [hy] at h
    simp only [Prod.mk.injEq] at h
    obtain ⟨hr, ht⟩ := h
    subst hr
    subst ht
    rw [y_offsets_none_congr t s hy (core_rows hcore)
      (core_row_locations hcore) (core_update_count hcore) hoc hrc]
  · rw [hy] at h
    dsimp only at h
    have hcore2 : core t₂ = core t := (y_offsets_frame t ys t₂ hy).1
    split at h
    case isTrue hc =>
      simp only [Prod.mk.injEq] at h
      obtain ⟨hr, ht⟩ := h
      subst hr
      subst ht
      rw [y_offsets_replay t t₂ s ys hm hy
        (core_update_count (hcore.trans hcore2)) hoc]
      dsimp only
      rw [core_show_header hcore, core_header_height (hcore.trans hcore2),
        core_header_row_key hcore]
      rw [if_pos hc]
    case isFalse hc =>
      generalize hY : (if t₂.show_header = true then y - (t.header_height : Int)
        else y) = Y at h
      have ht2 : t₂ = t₁ := by
        rcases hpy : pyIdx ys Y with _ | ⟨rk, off⟩ <;> rw [hpy] at h <;>
          split at h <;> (simp only [Prod.mk.injEq] at h; exact h.2)
      subst ht2
      rw [y_offsets_replay t t₂ s ys hm hy
        (core_update_count (hcore.trans hcore2)) hoc]
      dsimp only
      rw [core_show_header hcore, core_header_height (hcore.trans hcore2)]
      rw [if_neg hc, hY]
      split at h
      case isTrue hgt =>
        simp only [Prod.mk.injEq] at h
        obtain ⟨hr, -⟩ := h
        subst hr
        rw [if_pos hgt]
      case isFalse hgt =>
        rw [if_neg hgt]
        split at h
        case h_1 hpy =>
          simp only [Prod.mk.injEq] at h
          obtain ⟨hr, -⟩ := h
          subst hr
          rfl
        case h_2 rk off hpy =>
          simp only [Prod.mk.injEq] at h
          obtain ⟨hr, -⟩ := h
          subst hr
          rfl

/-- `_render_line` leaves every non-cache field unchanged. -/
theorem render_line_inner_frame [DecidableEq α] (t : DataTable α)
    (y x1 x2 : Int) (st : Style) (strip : Strip α) (t₁ : DataTable α)
    (h : render_line_inner t y x1 x2 st = .ok (strip, t₁)) :
    core t₁ = core t := by
  unfold render_line_inner at h
  dsimp only at h
  rcases hoff : get_offsets t y with ⟨o, t₂⟩
  rw [hoff] at h
  have hcore2 : core t₂ = core t := by
    have := (get_offsets_frame t y).1
    rw [hoff] at this
    exact this
  cases o with
  | none =>
      simp only [Except.ok.injEq, Prod.mk.injEq] at h
      obtain ⟨-, ht⟩ := h
      subst ht
      exact hcore2
  | some p =>
      rcases p with ⟨rk, off⟩
      dsimp only at h
      split at h
      case h_1 strip0 lc hlt =>
        simp only [Except.ok.injEq, Prod.mk.injEq] at h
        obtain ⟨-, ht⟩ := h
        subst ht
        exact hcore2
      case h_2 lo hlt =>
        split at h
        case h_1 => exact absurd h (by simp)
        case h_2 fixed scrollable t₃ hrow =>
          split at h
          case h_1 => exact absurd h (by simp)
          case h_2 cols hcols =>
            simp only [Except.ok.injEq, Prod.mk.injEq] at h
            obtain ⟨-, ht⟩ := h
            subst ht
            exact ((render_line_in_row_frame t₂ rk off st _ _ _ t₃
              hrow).1).trans hcore2

/-- Re-running `_render_line` from the state a successful run produced hits
the line cache (or replays the blank-line path) and returns the same strip
with the state unchanged. -/
theorem render_line_inner_stable [DecidableEq α] (t : DataTable α)
    (y x1 x2 : Int) (st : Style) (strip : Strip α) (t₁ : DataTable α)
    (hws : caches_well_sized t)
    (h : render_line_inner t y x1 x2 st = .ok (strip, t₁)) :
    render_line_inner t₁ y x1 x2 st = .ok (strip, t₁) := by
  unfold render_line_inner at h ⊢
  dsimp only at h ⊢
  rcases hoff : get_offsets t y with ⟨o, t₂⟩
  rw [hoff] at h
  have hcore2 : core t₂ = core t := by
    have := (get_offsets_frame t y).1
    rw [hoff] at this
    exact this
  have hlc2 : t₂.line_cache = t.line_cache := by
    have := (get_offsets_frame t y).2.2.2
    rw [hoff] at this
    exact this
  have hmoff : 1 ≤ t.offset_cache.maxSize := hws.2.2.2.1
  cases o with
  | none =>
      simp only [Except.ok.injEq, Prod.mk.injEq] at h
      obtain ⟨hs, ht⟩ := h
      subst hs
      subst ht
      rw [get_offsets_replay t t₂ y Option.none t₂ hmoff hoff rfl rfl rfl]
      dsimp only
      rw [core_size_width hcore2]
  | some p =>
      rcases p with ⟨rk, off⟩
      dsimp only at h
      split at h
      case h_1 strip0 lc hlt =>
        simp only [Except.ok.injEq, Prod.mk.injEq] at h
        obtain ⟨hs, ht⟩ := h
        subst hs
        have hfr0 : lc.frontAt (y, x1, x2, t.size_width, t₂.cursor_coordinate,
            t₂.hover_coordinate, st, t₂.cursor_type, t₂.show_hover_cursor,
            t₂.update_count) strip0 := LRUCache.frontAt_of_getTouch _ _ _ _ hlt
        have hcoreR : core t₁ = core t₂ := by rw [← ht]; rfl
        have hocR : t₁.offset_cache = t₂.offset_cache := by rw [← ht]
        have hrcR : t₁.ordered_row_cache = t₂.ordered_row_cache := by rw [← ht]
        rw [get_offsets_replay t t₁ y (some (rk, off)) t₂ hmoff hoff hcoreR
          hocR hrcR]
        dsimp only
        have hkey : ((y, x1, x2, t₁.size_width, t₁.cursor_coordinate,
            t₁.hover_coordinate, st, t₁.cursor_type, t₁.show_hover_cursor,
            t₁.update_count) : LineCacheKey) =
            (y, x1, x2, t.size_width, t₂.cursor_coordinate,
              t₂.hover_coordinate, st, t₂.cursor_type, t₂.show_hover_cursor,
              t₂.update_count) := by
          rw [core_size_width hcoreR, core_cursor_coordinate hcoreR,
            core_hover_coordinate hcoreR, core_cursor_type hcoreR,
            core_show_hover_cursor hcoreR, core_update_count hcoreR,
            core_size_width hcore2]
        rw [hkey, ← ht]
        dsimp only
        rw [LRUCache.getTouch_of_frontAt _ _ _ hfr0 (by simp)]
      case h_2 lo hlt =>
        split at h
        case h_1 => exact absurd h (by simp)
        case h_2 fixed scrollable t₃ hrow =>
          split at h
          case h_1 => exact absurd h (by simp)
          case h_2 cols hcols =>
            simp only [Except.ok.injEq, Prod.mk.injEq] at h
            obtain ⟨hs, ht⟩ := h
            subst hs
            obtain ⟨hc3, hl3, ho3, hr3⟩ :=
              render_line_in_row_frame t₂ rk off st _ _ _ t₃ hrow
            have hcoreR : core t₁ = core t₂ := by rw [← ht]; exact hc3
            have hocR : t₁.offset_cache = t₂.offset_cache := by
              rw [← ht]; exact ho3
            have hrcR : t₁.ordered_row_cache = t₂.ordered_row_cache := by
              rw [← ht]; exact hr3
            have hm1 : 1 ≤ t₃.line_cache.maxSize := by
              rw [hl3, hlc2]
              exact hws.2.2.1
            rw [get_offsets_replay t t₁ y (some (rk, off)) t₂ hmoff hoff
              hcoreR hocR hrcR]
            dsimp only
            have hkey : ((y, x1, x2, t₁.size_width, t₁.cursor_coordinate,
                t₁.hover_coordinate, st, t₁.cursor_type, t₁.show_hover_cursor,
                t₁.update_count) : LineCacheKey) =
                (y, x1, x2, t.size_width, t₂.cursor_coordinate,
                  t₂.hover_coordinate, st, t₂.cursor_type,
                  t₂.show_hover_cursor, t₂.update_count) := by
              rw [core_size_width hcoreR, core_cursor_coordinate hcoreR,
                core_hover_coordinate hcoreR, core_cursor_type hcoreR,
                core_show_hover_cursor hcoreR, core_update_count hcoreR,
                core_size_width hcore2]
            rw [hkey, ← ht]
            dsimp only
            rw [LRUCache.getTouch_of_frontAt _ _ _
              (LRUCache.frontAt_set _ _ _ hm1) (by simp)]

/-- `get_row_height` depends only on the non-cache fields. -/
theorem get_row_height_congr (s t : DataTable α) (hcore : core s = core t) :
    get_row_height s = get_row_height t := by
  funext k
  unfold get_row_height
  rw [core_rows hcore, core_header_row_key hcore, core_header_height hcore]

/-- The public `render_line` entry point is stable: re-running it from the
state a successful run produced hits the line cache and returns the same
strip with the state unchanged. -/
theorem render_line_stable [DecidableEq α] (t : DataTable α) (y : Int)
    (strip : Strip α) (t₁ : DataTable α)
    (hws : caches_well_sized t)
    (h : render_line t y = .ok (strip, t₁)) :
    render_line t₁ y = .ok (strip, t₁) := by
  unfold render_line at h ⊢
  dsimp only at h ⊢
  split at h
  case h_1 => exact absurd h (by simp)
  case h_2 heights hH =>
    split at h
    case h_1 => exact absurd h (by simp)
    case h_2 hh hH2 =>
      have hcore : core t₁ = core t := render_line_inner_frame t _ _ _ _ _ _ h
      rw [core_fixed_rows hcore, core_row_locations hcore,
        get_row_height_congr t₁ t hcore, core_show_header hcore,
        core_header_row_key hcore, core_scroll_y hcore, core_scroll_x hcore,
        core_size_width hcore, core_rich_style hcore]
      rw [hH, hH2]
      exact render_line_inner_stable t _ _ _ _ strip t₁ hws h

end DataTable

end Textual

namespace Textual

/-- C2: for every table state whose render caches admit at least one entry
(as the constructor sizes them) and every line index `y`, calling
`render_line` twice with no intervening mutation returns value-equal
strips: the second call hits the line cache populated by the first,
returns the identical strip and leaves the table state unchanged. -/
theorem c2_render_line_twice {α : Type} [DecidableEq α] (t : DataTable α)
    (y : Int) (strip : Strip α) (t₁ : DataTable α)
    (hws : DataTable.caches_well_sized t)
    (h : DataTable.render_line t y = .ok (strip, t₁)) :
    DataTable.render_line t₁ y = .ok (strip, t₁) :=
  DataTable.render_line_stable t y strip t₁ hws h

/-- C2 witness: rendering line 1 of `sampleT4` yields `sampleStrip` and the
state `sampleRendered`; rendering line 1 again from `sampleRendered`
returns the identical strip and leaves the state untouched. -/
theorem c2_render_line_twice_witness :
    DataTable.caches_well_sized sampleT4 ∧
    DataTable.render_line sampleT4 1 = .ok (sampleStrip, sampleRendered) ∧
    DataTable.render_line sampleRendered 1 =
      .ok (sampleStrip, sampleRendered) := by
  have h : DataTable.render_line sampleT4 1 =
      .ok (sampleStrip, sampleRendered) := by rfl
  exact ⟨by decide, h,
    c2_render_line_twice sampleT4 1 sampleStrip sampleRendered (by decide) h⟩

end Textual

namespace Textual

namespace LRUCache

variable {κ ν : Type} [BEq κ]

/-- A recency touch never grows the cache. -/
theorem getTouch_entries_length_le (c : LRUCache κ ν) (k : κ) :
    (c.getTouch k).2.entries.length ≤ c.entries.length := by
  unfold getTouch
  cases hf : c.entries.find? (fun p => p.1 == k) with
  | none => simp
  | some p =>
      dsimp only
      have hmem : p ∈ c.entries := List.mem_of_find?_eq_some hf
      have hbp : (p.1 == k) = true := by simpa using List.find?_some hf
      have hlt : (c.entries.filter (fun q => !(q.1 == k))).length <
          c.entries.length :=
        List.length_filter_lt_length_iff_exists.mpr ⟨p, hmem, by simp [hbp]⟩
      simpa using Nat.succ_le_of_lt hlt

/-- A recency touch preserves any key predicate that the looked-up key
itself satisfies. -/
theorem getTouch_keys_all (c : LRUCache κ ν) (k : κ) (Q : κ → Bool)
    (hall : c.entries.all (fun p => Q p.1) = true) (hk : Q k = true) :
    (c.getTouch k).2.entries.all (fun p => Q p.1) = true := by
  unfold getTouch
  cases hf : c.entries.find? (fun p => p.1 == k) with
  | none => simpa using hall
  | some p =>
      dsimp only
      simp only [List.all_eq_true] at hall ⊢
      rintro q hq
      rcases List.mem_cons.mp hq with hq1 | hq2
      · subst hq1; exact hk
      · exact hall q (List.mem_of_mem_filter hq2)

/-- A store truncates to the capacity. -/
theorem set_entries_length_le (c : LRUCache κ ν) (k : κ) (v : ν) :
    (c.set k v).entries.length ≤ c.maxSize := by
  unfold set
  exact List.length_take_le _ _

/-- A store preserves any key predicate that the stored key itself
satisfies. -/
theorem set_keys_all (c : LRUCache κ ν) (k : κ) (v : ν) (Q : κ → Bool)
    (hall : c.entries.all (fun p => Q p.1) = true) (hk : Q k = true) :
    (c.set k v).entries.all (fun p => Q p.1) = true := by
  unfold set
  simp only [List.all_eq_true] at hall ⊢
  rintro q hq
  have hq2 := List.take_subset _ _ hq
  rcases List.mem_cons.mp hq2 with hq3 | hq4
  · subst hq3; exact hk
  · exact hall q (List.mem_of_mem_filter hq4)

end LRUCache

end Textual

namespace Textual

namespace DataTable

variable {α : Type}

/-- `ordered_rows` keeps every cache keyed at or below the counter and
within capacity. -/
theorem ordered_rows_ok (t : DataTable α) (rs : List Row) (t₁ : DataTable α)
    (h : ordered_rows t = some (rs, t₁))
    (hb : caches_below t) (hd : caches_bounded t) :
    caches_below t₁ ∧ caches_bounded t₁ := by
  unfold ordered_rows at h
  dsimp only at h
  rcases hg : t.ordered_row_cache.getTouch (t.row_count, t.update_count)
    with ⟨o, c⟩
  rw [hg] at h
  cases o with
  | some rs0 =>
      dsimp only at h
      simp only [Option.some.injEq, Prod.mk.injEq] at h
      obtain ⟨-, ht⟩ := h
      subst ht
      refine ⟨⟨hb.1, hb.2.1, hb.2.2.1, hb.2.2.2.1, ?_⟩,
        ⟨hd.1, hd.2.1, hd.2.2.1, hd.2.2.2.1, ?_⟩⟩
      · have := LRUCache.getTouch_keys_all t.ordered_row_cache
          (t.row_count, t.update_count)
          (fun k => decide (k.2 ≤ t.update_count)) hb.2.2.2.2 (by simp)
        rw [hg] at this
        exact this
      · have h1 := LRUCache.getTouch_entries_length_le t.ordered_row_cache
          (t.row_count, t.update_count)
        have h2 := LRUCache.getTouch_maxSize t.ordered_row_cache
          (t.row_count, t.update_count)
        rw [hg] at h1 h2
        show c.entries.length ≤ c.maxSize
        rw [h2]
        exact le_trans h1 hd.2.2.2.2
  | none =>
      dsimp only at h
      split at h
      case h_1 => exact absurd h (by simp)
      case h_2 ordered hmm =>
        simp only [Option.some.injEq, Prod.mk.injEq] at h
        obtain ⟨-, ht⟩ := h
        subst ht
        refine ⟨⟨hb.1, hb.2.1, hb.2.2.1, hb.2.2.2.1, ?_⟩,
          ⟨hd.1, hd.2.1, hd.2.2.1, hd.2.2.2.1, ?_⟩⟩
        · exact LRUCache.set_keys_all _ _ _
            (fun k : Nat × Nat => decide (k.2 ≤ t.update_count))
            hb.2.2.2.2 (by simp)
        · exact LRUCache.set_entries_length_le _ _ _

/-- `_y_offsets` keeps every cache keyed at or below the counter and within
capacity. -/
theorem y_offsets_ok (t : DataTable α) (ys : List (RowKey × Nat))
    (t₁ : DataTable α) (h : y_offsets t = some (ys, t₁))
    (hb : caches_below t) (hd : caches_bounded t) :
    caches_below t₁ ∧ caches_bounded t₁ := by
  unfold y_offsets at h
  rcases hg : t.offset_cache.getTouch t.update_count with ⟨o, c⟩
  rw [hg] at h
  cases o with
  | some ys0 =>
      dsimp only at h
      simp only [Option.some.injEq, Prod.mk.injEq] at h
      obtain ⟨-, ht⟩ := h
      subst ht
      refine ⟨⟨hb.1, hb.2.1, hb.2.2.1, ?_, hb.2.2.2.2⟩,
        ⟨hd.1, hd.2.1, hd.2.2.1, ?_, hd.2.2.2.2⟩⟩
      · have := LRUCache.getTouch_keys_all t.offset_cache t.update_count
          (fun k => decide (k ≤ t.update_count)) hb.2.2.2.1 (by simp)
        rw [hg] at this
        exact this
      · have h1 := LRUCache.getTouch_entries_length_le t.offset_cache
          t.update_count
        have h2 := LRUCache.getTouch_maxSize t.offset_cache t.update_count
        rw [hg] at h1 h2
        show c.entries.length ≤ c.maxSize
        rw [h2]
        exact le_trans h1 hd.2.2.2.1
  | none =>
      dsimp only at h
      rcases hor : ordered_rows t with _ | ⟨rs, t₂⟩
      · rw [hor] at h; exact absurd h (by simp)
      · rw [hor] at h
        dsimp only at h
        simp only [Option.some.injEq, Prod.mk.injEq] at h
        obtain ⟨-, ht⟩ := h
        subst ht
        obtain ⟨hb2, hd2⟩ := ordered_rows_ok t rs t₂ hor hb hd
        have hcnt : t₂.update_count = t.update_count :=
          core_update_count (ordered_rows_frame t rs t₂ hor).1
        refine ⟨⟨hb2.1, hb2.2.1, hb2.2.2.1, ?_, hb2.2.2.2.2⟩,
          ⟨hd2.1, hd2.2.1, hd2.2.2.1, ?_, hd2.2.2.2.2⟩⟩
        · refine LRUCache.set_keys_all _ _ _
            (fun k : Nat => decide (k ≤ t₂.update_count)) hb2.2.2.2.1 ?_
          simp [hcnt]
        · exact LRUCache.set_entries_length_le _ _ _

/-- `_total_row_height` keeps the caches sound. -/
theorem total_row_height_ok (t : DataTable α) (n : Nat) (t₁ : DataTable α)
    (h : total_row_height t = some (n, t₁))
    (hb : caches_below t) (hd : caches_bounded t) :
    caches_below t₁ ∧ caches_bounded t₁ := by
  unfold total_row_height at h
  rcases hy : y_offsets t with _ | ⟨ys, t₂⟩
  · rw [hy] at h; exact absurd h (by simp)
  · rw [hy] at h
    simp only [Option.map_some', Option.some.injEq, Prod.mk.injEq] at h
    obtain ⟨-, ht⟩ := h
    subst ht
    exact y_offsets_ok t ys _ hy hb hd

end DataTable

end Textual

namespace Textual

namespace DataTable

variable {α : Type}

/-- `_get_cell_region` keeps the caches sound. -/
theorem get_cell_region_ok (t : DataTable α) (c : Coordinate) (r : Region)
    (t₁ : DataTable α) (h : get_cell_region t c = some (r, t₁))
    (hb : caches_below t) (hd : caches_bounded t) :
    caches_below t₁ ∧ caches_bounded t₁ := by
  unfold get_cell_region at h
  split at h
  · simp only [Option.some.injEq, Prod.mk.injEq] at h
    obtain ⟨-, h2⟩ := h
    subst h2
    exact ⟨hb, hd⟩
  · rcases h1 : (t.row_locations.getKey c.row).bind (fun rk => alistGet t.rows rk)
        with _ | row
    · rw [h1] at h; exact absurd h (by simp)
    · rw [h1] at h
      rcases h2 : ordered_columns t with _ | cols
      · rw [h2] at h; exact absurd h (by simp)
      · rw [h2] at h
        dsimp only at h
        rcases h3 : (t.column_locations.getKey c.column).bind
            (fun ck => alistGet t.columns ck) with _ | col
        · rw [h3] at h; exact absurd h (by simp)
        · rw [h3] at h
          rcases h4 : ordered_rows t with _ | ⟨ors, t₂⟩
          · rw [h4] at h; exact absurd h (by simp)
          · rw [h4] at h
            dsimp only at h
            simp only [Option.some.injEq, Prod.mk.injEq] at h
            obtain ⟨-, hst⟩ := h
            subst hst
            exact ordered_rows_ok t ors _ h4 hb hd

/-- `_get_row_region` keeps the caches sound. -/
theorem get_row_region_ok (t : DataTable α) (i : Int) (r : Region)
    (t₁ : DataTable α) (h : get_row_region t i = some (r, t₁))
    (hb : caches_below t) (hd : caches_bounded t) :
    caches_below t₁ ∧ caches_bounded t₁ := by
  unfold get_row_region at h
  split at h
  · simp only [Option.some.injEq, Prod.mk.injEq] at h
    obtain ⟨-, h2⟩ := h
    subst h2
    exact ⟨hb, hd⟩
  · rcases h1 : (t.row_locations.getKey i).bind (fun rk => alistGet t.rows rk)
        with _ | row
    · rw [h1] at h; exact absurd h (by simp)
    · rw [h1] at h
      dsimp only at h
      rcases h4 : ordered_rows t with _ | ⟨ors, t₂⟩
      · rw [h4] at h; exact absurd h (by simp)
      · rw [h4] at h
        dsimp only at h
        simp only [Option.some.injEq, Prod.mk.injEq] at h
        obtain ⟨-, hst⟩ := h
        subst hst
        exact ordered_rows_ok t ors _ h4 hb hd

/-- `_get_column_region` keeps the caches sound. -/
theorem get_column_region_ok (t : DataTable α) (i : Int) (r : Region)
    (t₁ : DataTable α) (h : get_column_region t i = some (r, t₁))
    (hb : caches_below t) (hd : caches_bounded t) :
    caches_below t₁ ∧ caches_bounded t₁ := by
  unfold get_column_region at h
  split at h
  · simp only [Option.some.injEq, Prod.mk.injEq] at h
    obtain ⟨-, h2⟩ := h
    subst h2
    exact ⟨hb, hd⟩
  · rcases h2 : ordered_columns t with _ | cols
    · rw [h2] at h; exact absurd h (by simp)
    · rw [h2] at h
      dsimp only at h
      rcases h3 : (t.column_locations.getKey i).bind
          (fun ck => alistGet t.columns ck) with _ | col
      · rw [h3] at h; exact absurd h (by simp)
      · rw [h3] at h
        rcases h4 : total_row_height t with _ | ⟨trh, t₂⟩
        · rw [h4] at h; exact absurd h (by simp)
        · rw [h4] at h
          dsimp only at h
          simp only [Option.some.injEq, Prod.mk.injEq] at h
          obtain ⟨-, hst⟩ := h
          subst hst
          exact total_row_height_ok t trh _ h4 hb hd

/-- `refresh_coordinate` keeps the caches sound. -/
theorem refresh_coordinate_ok (t : DataTable α) (c : Coordinate)
    (em : Option Region) (t₁ : DataTable α)
    (h : refresh_coordinate t c = some (em, t₁))
    (hb : caches_below t) (hd : caches_bounded t) :
    caches_below t₁ ∧ caches_bounded t₁ := by
  unfold refresh_coordinate at h
  split at h
  · simp only [Option.some.injEq, Prod.mk.injEq] at h
    obtain ⟨-, h2⟩ := h
    subst h2
    exact ⟨hb, hd⟩
  · rcases h1 : get_cell_region t c with _ | ⟨r, t₂⟩
    · rw [h1] at h; exact absurd h (by simp)
    · rw [h1] at h
      simp only [Option.map_some', Option.some.injEq, Prod.mk.injEq] at h
      obtain ⟨-, hst⟩ := h
      subst hst
      exact get_cell_region_ok t c r _ h1 hb hd

/-- `refresh_row` keeps the caches sound. -/
theorem refresh_row_ok (t : DataTable α) (i : Int)
    (em : Option Region) (t₁ : DataTable α)
    (h : refresh_row t i = some (em, t₁))
    (hb : caches_below t) (hd : caches_bounded t) :
    caches_below t₁ ∧ caches_bounded t₁ := by
  unfold refresh_row at h
  split at h
  · simp only [Option.some.injEq, Prod.mk.injEq] at h
    obtain ⟨-, h2⟩ := h
    subst h2
    exact ⟨hb, hd⟩
  · rcases h1 : get_row_region t i with _ | ⟨r, t₂⟩
    · rw [h1] at h; exact absurd h (by simp)
    · rw [h1] at h
      simp only [Option.map_some', Option.some.injEq, Prod.mk.injEq] at h
      obtain ⟨-, hst⟩ := h
      subst hst
      exact get_row_region_ok t i r _ h1 hb hd

/-- `refresh_column` keeps the caches sound. -/
theorem refresh_column_ok (t : DataTable α) (i : Int)
    (em : Option Region) (t₁ : DataTable α)
    (h : refresh_column t i = some (em, t₁))
    (hb : caches_below t) (hd : caches_bounded t) :
    caches_below t₁ ∧ caches_bounded t₁ := by
  unfold refresh_column at h
  split at h
  · simp only [Option.some.injEq, Prod.mk.injEq] at h
    obtain ⟨-, h2⟩ := h
    subst h2
    exact ⟨hb, hd⟩
  · rcases h1 : get_column_region t i with _ | ⟨r, t₂⟩
    · rw [h1] at h; exact absurd h (by simp)
    · rw [h1] at h
      simp only [Option.map_some', Option.some.injEq, Prod.mk.injEq] at h
      obtain ⟨-, hst⟩ := h
      subst hst
      exact get_column_region_ok t i r _ h1 hb hd

end DataTable

end Textual

namespace Textual

namespace DataTable

variable {α : Type}

/-- `_highlight_coordinate` keeps the caches sound. -/
theorem highlight_coordinate_ok (t : DataTable α) (c : Coordinate)
    (t₁ : DataTable α) (eff : List (Effect α))
    (h : highlight_coordinate t c = some (t₁, eff))
    (hb : caches_below t) (hd : caches_bounded t) :
    caches_below t₁ ∧ caches_bounded t₁ := by
  unfold highlight_coordinate at h
  rcases h1 : refresh_coordinate t c with _ | ⟨em, t₂⟩
  · rw [h1] at h; exact absurd h (by simp)
  · rw [h1] at h
    have hok := refresh_coordinate_ok t c em t₂ h1 hb hd
    dsimp only at h
    split at h
    · simp only [Option.some.injEq, Prod.mk.injEq] at h
      obtain ⟨hst, -⟩ := h
      subst hst
      exact hok
    · exact absurd h (by simp)
    · split at h
      case h_1 =>
        simp only [Option.some.injEq, Prod.mk.injEq] at h
        obtain ⟨hst, -⟩ := h
        subst hst
        exact hok
      case h_2 => exact absurd h (by simp)

/-- `_highlight_row` keeps the caches sound. -/
theorem highlight_row_ok (t : DataTable α) (i : Int)
    (t₁ : DataTable α) (eff : List (Effect α))
    (h : highlight_row t i = some (t₁, eff))
    (hb : caches_below t) (hd : caches_bounded t) :
    caches_below t₁ ∧ caches_bounded t₁ := by
  unfold highlight_row at h
  rcases h1 : refresh_row t i with _ | ⟨em, t₂⟩
  · rw [h1] at h; exact absurd h (by simp)
  · rw [h1] at h
    have hok := refresh_row_ok t i em t₂ h1 hb hd
    dsimp only at h
    split at h
    all_goals
      simp only [Option.some.injEq, Prod.mk.injEq] at h
      obtain ⟨hst, -⟩ := h
      subst hst
      exact hok

/-- `_highlight_column` keeps the caches sound. -/
theorem highlight_column_ok (t : DataTable α) (i : Int)
    (t₁ : DataTable α) (eff : List (Effect α))
    (h : highlight_column t i = some (t₁, eff))
    (hb : caches_below t) (hd : caches_bounded t) :
    caches_below t₁ ∧ caches_bounded t₁ := by
  unfold highlight_column at h
  rcases h1 : refresh_column t i with _ | ⟨em, t₂⟩
  · rw [h1] at h; exact absurd h (by simp)
  · rw [h1] at h
    have hok := refresh_column_ok t i em t₂ h1 hb hd
    dsimp only at h
    split at h
    all_goals
      simp only [Option.some.injEq, Prod.mk.injEq] at h
      obtain ⟨hst, -⟩ := h
      subst hst
      exact hok

/-- `watch_cursor_coordinate` keeps the caches sound. -/
theorem watch_cursor_coordinate_ok (t : DataTable α)
    (old new : Coordinate) (t₁ : DataTable α) (eff : List (Effect α))
    (h : watch_cursor_coordinate t old new = some (t₁, eff))
    (hb : caches_below t) (hd : caches_bounded t) :
    caches_below t₁ ∧ caches_bounded t₁ := by
  unfold watch_cursor_coordinate at h
  split at h
  · split at h
    case h_1 =>
      rcases h1 : refresh_coordinate t old with _ | ⟨em, t₂⟩
      · rw [h1] at h; exact absurd h (by simp)
      · rw [h1] at h
        obtain ⟨hb2, hd2⟩ := refresh_coordinate_ok t old em t₂ h1 hb hd
        dsimp only at h
        rcases h2 : highlight_coordinate t₂ new with _ | ⟨t₃, eff₂⟩
        · rw [h2] at h; exact absurd h (by simp)
        · rw [h2] at h
          simp only [Option.some.injEq, Prod.mk.injEq] at h
          obtain ⟨hst, -⟩ := h
          subst hst
          exact highlight_coordinate_ok t₂ new _ eff₂ h2 hb2 hd2
    case h_2 =>
      rcases h1 : refresh_row t old.row with _ | ⟨em, t₂⟩
      · rw [h1] at h; exact absurd h (by simp)
      · rw [h1] at h
        obtain ⟨hb2, hd2⟩ := refresh_row_ok t old.row em t₂ h1 hb hd
        dsimp only at h
        rcases h2 : highlight_row t₂ new.row with _ | ⟨t₃, eff₂⟩
        · rw [h2] at h; exact absurd h (by simp)
        · rw [h2] at h
          simp only [Option.some.injEq, Prod.mk.injEq] at h
          obtain ⟨hst, -⟩ := h
          subst hst
          exact highlight_row_ok t₂ new.row _ eff₂ h2 hb2 hd2
    case h_3 =>
      rcases h1 : refresh_column t old.column with _ | ⟨em, t₂⟩
      · rw [h1] at h; exact absurd h (by simp)
      · rw [h1] at h
        obtain ⟨hb2, hd2⟩ := refresh_column_ok t old.column em t₂ h1 hb hd
        dsimp only at h
        rcases h2 : highlight_column t₂ new.column with _ | ⟨t₃, eff₂⟩
        · rw [h2] at h; exact absurd h (by simp)
        · rw [h2] at h
          simp only [Option.some.injEq, Prod.mk.injEq] at h
          obtain ⟨hst, -⟩ := h
          subst hst
          exact highlight_column_ok t₂ new.column _ eff₂ h2 hb2 hd2
    case h_4 =>
      simp only [Option.some.injEq, Prod.mk.injEq] at h
      obtain ⟨hst, -⟩ := h
      subst hst
      exact ⟨hb, hd⟩
  · simp only [Option.some.injEq, Prod.mk.injEq] at h
    obtain ⟨hst, -⟩ := h
    subst hst
    exact ⟨hb, hd⟩

/-- Assigning the cursor reactive keeps the caches sound. -/
theorem set_cursor_coordinate_ok (t : DataTable α) (v : Coordinate)
    (t₁ : DataTable α) (eff : List (Effect α))
    (h : set_cursor_coordinate t v = some (t₁, eff))
    (hb : caches_below t) (hd : caches_bounded t) :
    caches_below t₁ ∧ caches_bounded t₁ := by
  unfold set_cursor_coordinate at h
  dsimp only at h
  exact watch_cursor_coordinate_ok _ _ _ t₁ eff h hb hd

/-- `_highlight_cursor` keeps the caches sound. -/
theorem highlight_cursor_ok (t : DataTable α)
    (t₁ : DataTable α) (eff : List (Effect α))
    (h : highlight_cursor t = some (t₁, eff))
    (hb : caches_below t) (hd : caches_bounded t) :
    caches_below t₁ ∧ caches_bounded t₁ := by
  unfold highlight_cursor at h
  split at h
  case h_1 => exact highlight_coordinate_ok _ _ _ _ h hb hd
  case h_2 => exact highlight_row_ok _ _ _ _ h hb hd
  case h_3 => exact highlight_column_ok _ _ _ _ h hb hd
  case h_4 =>
    simp only [Option.some.injEq, Prod.mk.injEq] at h
    obtain ⟨hst, -⟩ := h
    subst hst
    exact ⟨hb, hd⟩

end DataTable

end Textual

namespace Textual

/-- A key at the current counter never dictionary-matches a stale entry
(keyed strictly below), because key equality forces equal counter
components. -/
theorem stale_no_match {κ ν : Type} [BEq κ] (cOf : κ → Nat) (cnt : Nat)
    (old : List (κ × ν)) (hold : ∀ p ∈ old, cOf p.1 < cnt) (k : κ)
    (hk : cOf k = cnt)
    (hbeq : ∀ k₁ k₂ : κ, (k₁ == k₂) = true → cOf k₁ = cOf k₂) :
    ∀ p ∈ old, (p.1 == k) = false := by
  intro p hp
  by_contra hc
  have hb : (p.1 == k) = true := by
    revert hc
    cases hpk : (p.1 == k) <;> simp
  have h1 := hbeq _ _ hb
  have h2 := hold p hp
  omega

/-- Under `CacheSim` a current-count lookup sees the same entry on both
sides (a's stale suffix is unreachable), and the touched caches remain
related. -/
theorem CacheSim.getTouch_sim {κ ν : Type} [BEq κ] (cOf : κ → Nat)
    (cnt : Nat) (a b : LRUCache κ ν) (h : CacheSim cOf cnt a b) (k : κ)
    (hk : cOf k = cnt)
    (hbeq : ∀ k₁ k₂ : κ, (k₁ == k₂) = true → cOf k₁ = cOf k₂) :
    (a.getTouch k).1 = (b.getTouch k).1 ∧
    CacheSim cOf cnt (a.getTouch k).2 (b.getTouch k).2 := by
  obtain ⟨hm, ⟨old, hae, hold⟩, hcur, hlen⟩ := h
  have hnold := stale_no_match cOf cnt old hold k hk hbeq
  have hfind : a.entries.find? (fun p => p.1 == k) =
      b.entries.find? (fun p => p.1 == k) := by
    rw [hae, List.find?_append]
    cases hf : b.entries.find? (fun p => p.1 == k) with
    | none =>
        rw [Option.none_or]
        exact List.find?_eq_none.mpr (fun p hp => by simp [hnold p hp])
    | some p => rfl
  unfold LRUCache.getTouch
  rw [hfind]
  cases hf : b.entries.find? (fun p => p.1 == k) with
  | none => exact ⟨rfl, hm, ⟨old, hae, hold⟩, hcur, hlen⟩
  | some p =>
      dsimp only
      have hfa : a.entries.find? (fun p => p.1 == k) = some p := hfind.trans hf
      have hmem : p ∈ a.entries := List.mem_of_find?_eq_some hfa
      have hbp : (p.1 == k) = true := by simpa using List.find?_some hfa
      have hfo : old.filter (fun q => !(q.1 == k)) = old :=
        List.filter_eq_self.mpr (fun q hq => by simp [hnold q hq])
      refine ⟨rfl, hm, ⟨old, ?_, hold⟩, ?_, ?_⟩
      · rw [hae, List.filter_append, hfo]
        rfl
      · intro q hq
        rcases List.mem_cons.mp hq with h1 | h2
        · subst h1; exact hk
        · exact hcur q (List.mem_of_mem_filter h2)
      · have hlt : (a.entries.filter (fun q => !(q.1 == k))).length <
            a.entries.length :=
          List.length_filter_lt_length_iff_exists.mpr
            ⟨p, hmem, by simp [hbp]⟩
        have h3 : ((k, p.2) ::
            a.entries.filter (fun q => !(q.1 == k))).length ≤
            a.entries.length := by
          simpa using Nat.succ_le_of_lt hlt
        exact le_trans h3 hlen

/-- Under `CacheSim` a current-count store keeps the caches related: the
write lands at the front of both, and any truncation only eats into the
stale suffix (or drops it entirely). -/
theorem CacheSim.set_sim {κ ν : Type} [BEq κ] (cOf : κ → Nat) (cnt : Nat)
    (a b : LRUCache κ ν) (h : CacheSim cOf cnt a b) (k : κ)
    (hk : cOf k = cnt)
    (hbeq : ∀ k₁ k₂ : κ, (k₁ == k₂) = true → cOf k₁ = cOf k₂) (v : ν) :
    CacheSim cOf cnt (a.set k v) (b.set k v) := by
  obtain ⟨hm, ⟨old, hae, hold⟩, hcur, hlen⟩ := h
  have hnold := stale_no_match cOf cnt old hold k hk hbeq
  have hfo : old.filter (fun q => !(q.1 == k)) = old :=
    List.filter_eq_self.mpr (fun q hq => by simp [hnold q hq])
  have hfa : a.entries.filter (fun q => !(q.1 == k)) =
      b.entries.filter (fun q => !(q.1 == k)) ++ old := by
    rw [hae, List.filter_append, hfo]
  unfold LRUCache.set
  refine ⟨hm,
    ⟨old.take (b.maxSize -
        ((k, v) :: b.entries.filter (fun q => !(q.1 == k))).length),
      ?_, fun p hp => hold p (List.take_subset _ _ hp)⟩, ?_, ?_⟩
  · dsimp only
    rw [hfa, hm, ← List.cons_append]
    exact List.take_append_eq_append_take
  · intro q hq
    have hq2 := List.take_subset _ _ hq
    rcases List.mem_cons.mp hq2 with h1 | h2
    · subst h1; exact hk
    · exact hcur q (List.mem_of_mem_filter h2)
  · exact List.length_take_le _ _

/-- Under `CacheSim` a current-count membership test agrees on both sides. -/
theorem CacheSim.containsKey_sim {κ ν : Type} [BEq κ] (cOf : κ → Nat)
    (cnt : Nat) (a b : LRUCache κ ν) (h : CacheSim cOf cnt a b) (k : κ)
    (hk : cOf k = cnt)
    (hbeq : ∀ k₁ k₂ : κ, (k₁ == k₂) = true → cOf k₁ = cOf k₂) :
    a.containsKey k = b.containsKey k := by
  obtain ⟨hm, ⟨old, hae, hold⟩, hcur, hlen⟩ := h
  have hnold := stale_no_match cOf cnt old hold k hk hbeq
  unfold LRUCache.containsKey
  rw [hae, List.any_append]
  have hfalse : old.any (fun p => p.1 == k) = false := by
    simp only [List.any_eq_false]
    intro p hp
    simp [hnold p hp]
  rw [hfalse, Bool.or_false]

end Textual

namespace Textual

/-- Python-tuple equality forces equality of the second components. -/
theorem prod_beq_snd {β γ : Type} [BEq β] [BEq γ] (a b : β × γ)
    (h : (a == b) = true) : (a.2 == b.2) = true := by
  obtain ⟨a1, a2⟩ := a
  obtain ⟨b1, b2⟩ := b
  have h2 : (a1 == b1 && a2 == b2) = true := h
  exact ((Bool.and_eq_true _ _).mp h2).2

/-- Equal cell-cache keys carry the same update counter. -/
theorem cellKey_beq_count (k₁ k₂ : CellCacheKey) (h : (k₁ == k₂) = true) :
    CellCacheKey.count k₁ = CellCacheKey.count k₂ :=
  eq_of_beq (prod_beq_snd _ _ (prod_beq_snd _ _ (prod_beq_snd _ _
    (prod_beq_snd _ _ (prod_beq_snd _ _ h)))))

/-- Equal row-cache keys carry the same update counter. -/
theorem rowKey_beq_count (k₁ k₂ : RowCacheKey) (h : (k₁ == k₂) = true) :
    RowCacheKey.count k₁ = RowCacheKey.count k₂ :=
  eq_of_beq (prod_beq_snd _ _ (prod_beq_snd _ _ (prod_beq_snd _ _
    (prod_beq_snd _ _ (prod_beq_snd _ _ (prod_beq_snd _ _ (prod_beq_snd _ _
      (prod_beq_snd _ _ h))))))))

/-- Equal line-cache keys carry the same update counter. -/
theorem lineKey_beq_count (k₁ k₂ : LineCacheKey) (h : (k₁ == k₂) = true) :
    LineCacheKey.count k₁ = LineCacheKey.count k₂ :=
  eq_of_beq (prod_beq_snd _ _ (prod_beq_snd _ _ (prod_beq_snd _ _
    (prod_beq_snd _ _ (prod_beq_snd _ _ (prod_beq_snd _ _ (prod_beq_snd _ _
      (prod_beq_snd _ _ (prod_beq_snd _ _ h)))))))))

/-- Equal offset-cache keys are the same counter. -/
theorem offsetKey_beq_count (k₁ k₂ : Nat) (h : (k₁ == k₂) = true) :
    id k₁ = id k₂ := eq_of_beq h

/-- Equal ordered-row-cache keys carry the same update counter. -/
theorem orderedKey_beq_count (k₁ k₂ : Nat × Nat) (h : (k₁ == k₂) = true) :
    k₁.2 = k₂.2 := eq_of_beq (prod_beq_snd _ _ h)

end Textual

namespace Textual

/-- Equal cores give equal `fixed_columns`. -/
theorem core_fixed_columns {α : Type} {s t : DataTable α}
    (h : core s = core t) : s.fixed_columns = t.fixed_columns :=
  congrArg CoreState.fixed_columns h

/-- Equal cores give equal `zebra_stripes`. -/
theorem core_zebra_stripes {α : Type} {s t : DataTable α}
    (h : core s = core t) : s.zebra_stripes = t.zebra_stripes :=
  congrArg CoreState.zebra_stripes h

/-- Equal cores give equal `labelled_row_exists`. -/
theorem core_labelled_row_exists {α : Type} {s t : DataTable α}
    (h : core s = core t) : s.labelled_row_exists = t.labelled_row_exists :=
  congrArg CoreState.labelled_row_exists h

/-- Equal cores give equal `show_row_labels`. -/
theorem core_show_row_labels {α : Type} {s t : DataTable α}
    (h : core s = core t) : s.show_row_labels = t.show_row_labels :=
  congrArg CoreState.show_row_labels h

/-- Equal cores give equal `row_label_column_width`. -/
theorem core_row_label_column_width {α : Type} {s t : DataTable α}
    (h : core s = core t) :
    s.row_label_column_width = t.row_label_column_width :=
  congrArg CoreState.row_label_column_width h

/-- Equal cores give equal component style maps. -/
theorem core_component_style {α : Type} {s t : DataTable α}
    (h : core s = core t) : s.component_style = t.component_style :=
  congrArg CoreState.component_style h

namespace DataTable

variable {α : Type}

/-- `ordered_columns` depends only on the non-cache fields. -/
theorem ordered_columns_congr (s t : DataTable α) (hcore : core s = core t) :
    ordered_columns s = ordered_columns t := by
  unfold ordered_columns
  rw [core_columns hcore, core_column_locations hcore]

/-- `is_valid_row_index` depends only on the non-cache fields. -/
theorem is_valid_row_index_congr (s t : DataTable α)
    (hcore : core s = core t) (i : Int) :
    is_valid_row_index s i = is_valid_row_index t i := by
  unfold is_valid_row_index
  rw [core_rows hcore]


/-- `get_row` depends only on the non-cache fields. -/
theorem get_row_congr (s t : DataTable α) (hcore : core s = core t)
    (rk : RowKey) : get_row s rk = get_row t rk := by
  unfold get_row
  rw [core_row_locations hcore, core_data hcore,
    ordered_columns_congr s t hcore]

/-- `get_row_at` depends only on the non-cache fields. -/
theorem get_row_at_congr (s t : DataTable α) (hcore : core s = core t)
    (i : Int) : get_row_at s i = get_row_at t i := by
  unfold get_row_at
  rw [is_valid_row_index_congr s t hcore, core_row_locations hcore]
  rcases t.row_locations.getKey i with _ | rk
  · rfl
  · dsimp only
    rw [get_row_congr s t hcore]

/-- `should_render_row_labels` depends only on the non-cache fields. -/
theorem should_render_row_labels_congr (s t : DataTable α)
    (hcore : core s = core t) :
    should_render_row_labels s = should_render_row_labels t := by
  unfold should_render_row_labels
  rw [core_labelled_row_exists hcore, core_show_row_labels hcore]

/-- `_get_row_renderables` depends only on the non-cache fields. -/
theorem get_row_renderables_congr (s t : DataTable α)
    (hcore : core s = core t) (i : Int) :
    get_row_renderables s i = get_row_renderables t i := by
  unfold get_row_renderables
  rw [ordered_columns_congr s t hcore, get_row_at_congr s t hcore,
    should_render_row_labels_congr s t hcore, core_row_locations hcore,
    core_rows hcore]

/-- `_render_cell`'s applied style depends only on the non-cache fields. -/
theorem cell_style_congr (s t : DataTable α) (hcore : core s = core t)
    (ri ci : Int) (style : Style) (cursor hover : Bool) :
    cell_style s ri ci style cursor hover =
      cell_style t ri ci style cursor hover := by
  unfold cell_style
  rw [core_show_cursor hcore, core_show_hover_cursor hcore,
    core_component_style hcore, core_fixed_rows hcore,
    core_fixed_columns hcore]

/-- `_render_cell`'s cached row key depends only on the non-cache fields. -/
theorem cell_row_key_congr (s t : DataTable α) (hcore : core s = core t)
    (ri : Int) : cell_row_key s ri = cell_row_key t ri := by
  unfold cell_row_key
  rw [core_header_row_key hcore, core_row_locations hcore]

/-- `_render_cell`'s cache key depends only on the non-cache fields. -/
theorem cell_cache_key_congr (s t : DataTable α) (hcore : core s = core t)
    (ri ci : Int) (style : Style) (cursor hover : Bool) :
    cell_cache_key s ri ci style cursor hover =
      cell_cache_key t ri ci style cursor hover := by
  unfold cell_cache_key
  rw [cell_row_key_congr s t hcore, core_column_locations hcore,
    cell_style_congr s t hcore, core_update_count hcore]

end DataTable

end Textual

namespace Textual

namespace DataTable

variable {α : Type}

/-- Bisimulation: `ordered_rows` behaves identically on two states related
by `TableSim` (stale entries are unreachable), and keeps them related. -/
theorem ordered_rows_sim (s t : DataTable α) (h : TableSim s t) :
    SimR TableSim (ordered_rows s) (ordered_rows t) := by
  obtain ⟨hcore, hR, hC, hL, hO, hOrd⟩ := h
  have hcnt : s.update_count = t.update_count := core_update_count hcore
  unfold ordered_rows
  dsimp only
  have hkey : ((s.row_count, s.update_count) : Nat × Nat) =
      (t.row_count, t.update_count) := by
    unfold row_count
    rw [core_rows hcore, hcnt]
  rw [hkey]
  have hg := CacheSim.getTouch_sim Prod.snd s.update_count _ _ hOrd
    (t.row_count, t.update_count) hcnt.symm orderedKey_beq_count
  rcases hga : s.ordered_row_cache.getTouch (t.row_count, t.update_count)
    with ⟨oa, ca⟩
  rcases hgb : t.ordered_row_cache.getTouch (t.row_count, t.update_count)
    with ⟨ob, cb⟩
  rw [hga, hgb] at hg
  obtain ⟨hval, hsim⟩ := hg
  cases ob with
  | some rs =>
      subst hval
      dsimp only
      exact ⟨rfl, hcore, hR, hC, hL, hO, hsim⟩
  | none =>
      subst hval
      dsimp only
      have hrc : s.row_count = t.row_count := by
        unfold row_count
        rw [core_rows hcore]
      have hmap : (List.range s.row_count).mapM
          (fun i => (s.row_locations.getKey i).bind (fun k => alistGet s.rows k)) =
          (List.range t.row_count).mapM
          (fun i => (t.row_locations.getKey i).bind (fun k => alistGet t.rows k)) := by
        rw [hrc, core_row_locations hcore, core_rows hcore]
      rw [hmap]
      rcases hmm : (List.range t.row_count).mapM
          (fun i => (t.row_locations.getKey i).bind (fun k => alistGet t.rows k))
        with _ | ordered
      · exact trivial
      · exact ⟨rfl, hcore, hR, hC, hL, hO,
          CacheSim.set_sim _ _ _ _ hOrd _ hcnt.symm orderedKey_beq_count _⟩

/-- Bisimulation: `_y_offsets` under `TableSim`. -/
theorem y_offsets_sim (s t : DataTable α) (h : TableSim s t) :
    SimR TableSim (y_offsets s) (y_offsets t) := by
  obtain ⟨hcore, hR, hC, hL, hO, hOrd⟩ := h
  have hcnt : s.update_count = t.update_count := core_update_count hcore
  unfold y_offsets
  have hgb2 : t.offset_cache.getTouch t.update_count =
      t.offset_cache.getTouch s.update_count := by rw [hcnt]
  rw [hgb2]
  have hg := CacheSim.getTouch_sim id s.update_count _ _ hO s.update_count
    rfl offsetKey_beq_count
  rcases hga : s.offset_cache.getTouch s.update_count with ⟨oa, ca⟩
  rcases hgb : t.offset_cache.getTouch s.update_count with ⟨ob, cb⟩
  rw [hga, hgb] at hg
  obtain ⟨hval, hsim⟩ := hg
  cases ob with
  | some ys =>
      subst hval
      dsimp only
      exact ⟨rfl, hcore, hR, hC, hL, hsim, hOrd⟩
  | none =>
      subst hval
      dsimp only
      have hors := ordered_rows_sim s t ⟨hcore, hR, hC, hL, hO, hOrd⟩
      rcases hoa : ordered_rows s with _ | ⟨rsa, sa⟩ <;>
        rcases hob : ordered_rows t with _ | ⟨rsb, tb⟩ <;>
        rw [hoa, hob] at hors
      · exact trivial
      · exact hors.elim
      · exact hors.elim
      · obtain ⟨hrs, hsim2⟩ := hors
        subst hrs
        dsimp only
        rw [hcnt]
        have hsa : sa.update_count = t.update_count :=
          (core_update_count (ordered_rows_frame s rsa sa hoa).1).trans hcnt
        exact ⟨rfl, hsim2.1, hsim2.2.1, hsim2.2.2.1, hsim2.2.2.2.1,
          CacheSim.set_sim id sa.update_count _ _ hsim2.2.2.2.2.1
            t.update_count hsa.symm offsetKey_beq_count _,
          hsim2.2.2.2.2.2⟩

end DataTable

end Textual

namespace Textual

namespace DataTable

variable {α : Type}

/-- Bisimulation: `_get_offsets` under `TableSim`. -/
theorem get_offsets_sim (s t : DataTable α) (h : TableSim s t) (y : Int) :
    SimP TableSim (get_offsets s y) (get_offsets t y) := by
  have hcore := h.1
  unfold get_offsets
  dsimp only
  have hys := y_offsets_sim s t h
  rcases hya : y_offsets s with _ | ⟨ysa, sa⟩ <;>
    rcases hyb : y_offsets t with _ | ⟨ysb, tb⟩ <;>
    rw [hya, hyb] at hys
  · exact ⟨rfl, h⟩
  · exact hys.elim
  · exact hys.elim
  · obtain ⟨hrs, hsim2⟩ := hys
    subst hrs
    dsimp only
    have hcs : core sa = core tb := hsim2.1
    rw [core_show_header hcs, core_header_height hcore,
      core_header_row_key hcs]
    by_cases hc : tb.show_header = true ∧ y < (t.header_height : Int)
    · rw [if_pos hc, if_pos hc]
      exact ⟨rfl, hsim2⟩
    · rw [if_neg hc, if_neg hc]
      by_cases hgt : (if tb.show_header = true then y - (t.header_height : Int)
          else y) > (ysa.length : Int)
      · rw [if_pos hgt, if_pos hgt]
        exact ⟨rfl, hsim2⟩
      · rw [if_neg hgt, if_neg hgt]
        rcases hpy : pyIdx ysa (if tb.show_header = true then
            y - (t.header_height : Int) else y) with _ | ⟨rk, off⟩
        · exact ⟨rfl, hsim2⟩
        · exact ⟨rfl, hsim2⟩

end DataTable

end Textual

namespace Textual

namespace DataTable

variable {α : Type}

/-- Bisimulation: `_render_cell` under `TableSim`: the cache key carries
the current counter, so both sides hit or both miss, return the same
rendered cell, and stay related. -/
theorem render_cell_sim [DecidableEq α] (s t : DataTable α) (h : TableSim s t)
    (ri ci : Int) (style : Style) (w : Nat) (cursor hover : Bool) :
    SimE TableSim (render_cell s ri ci style w cursor hover)
      (render_cell t ri ci style w cursor hover) := by
  obtain ⟨hcore, hR, hC, hL, hO, hOrd⟩ := h
  unfold render_cell
  dsimp only
  rw [cell_cache_key_congr s t hcore ri ci style cursor hover]
  have hkc : CellCacheKey.count (cell_cache_key t ri ci style cursor hover) =
      s.update_count := (core_update_count hcore).symm
  rw [CacheSim.containsKey_sim CellCacheKey.count s.update_count _ _ hC
    (cell_cache_key t ri ci style cursor hover) hkc cellKey_beq_count]
  by_cases hct : t.cell_render_cache.containsKey
      (cell_cache_key t ri ci style cursor hover) = true
  · rw [if_neg (not_not_intro hct), if_neg (not_not_intro hct)]
    dsimp only
    have hg := CacheSim.getTouch_sim CellCacheKey.count s.update_count _ _ hC
      (cell_cache_key t ri ci style cursor hover) hkc cellKey_beq_count
    rcases hga : s.cell_render_cache.getTouch
        (cell_cache_key t ri ci style cursor hover) with ⟨oa, ca⟩
    rcases hgb : t.cell_render_cache.getTouch
        (cell_cache_key t ri ci style cursor hover) with ⟨ob, cb⟩
    rw [hga, hgb] at hg
    obtain ⟨hval, hsim⟩ := hg
    cases ob with
    | some v =>
        subst hval
        dsimp only
        exact ⟨rfl, hcore, hR, hsim, hL, hO, hOrd⟩
    | none =>
        subst hval
        dsimp only
        rfl
  · rw [if_pos hct, if_pos hct]
    rw [cell_style_congr s t hcore ri ci style cursor hover]
    have hh : (if ri = -1 then some s.header_height
        else ((cell_row_key s ri).bind
          (fun rk => alistGet s.rows rk)).map Row.height) =
        (if ri = -1 then some t.header_height
        else ((cell_row_key t ri).bind
          (fun rk => alistGet t.rows rk)).map Row.height) := by
      rw [core_header_height hcore, cell_row_key_congr s t hcore,
        core_rows hcore]
    rw [hh, get_row_renderables_congr s t hcore ri]
    rcases hhh : (if ri = -1 then some t.header_height
        else ((cell_row_key t ri).bind
          (fun rk => alistGet t.rows rk)).map Row.height) with _ | height
    · rfl
    · dsimp only
      rcases hrr : get_row_renderables t ri with e | rr
      · rfl
      · dsimp only
        rcases hpy : pyIdx rr.cells ci with _ | cell
        · rfl
        · dsimp only
          have hset := CacheSim.set_sim CellCacheKey.count s.update_count _ _
            hC (cell_cache_key t ri ci style cursor hover) hkc
            cellKey_beq_count
            ⟨cell, (cell_style t ri ci style cursor hover).addStyle
              (Style.metaCoord ri ci), w, height⟩
          have hg2 := CacheSim.getTouch_sim CellCacheKey.count s.update_count
            _ _ hset (cell_cache_key t ri ci style cursor hover) hkc
            cellKey_beq_count
          rcases hga : (s.cell_render_cache.set
              (cell_cache_key t ri ci style cursor hover)
              ⟨cell, (cell_style t ri ci style cursor hover).addStyle
                (Style.metaCoord ri ci), w, height⟩).getTouch
              (cell_cache_key t ri ci style cursor hover) with ⟨oa, ca⟩
          rcases hgb : (t.cell_render_cache.set
              (cell_cache_key t ri ci style cursor hover)
              ⟨cell, (cell_style t ri ci style cursor hover).addStyle
                (Style.metaCoord ri ci), w, height⟩).getTouch
              (cell_cache_key t ri ci style cursor hover) with ⟨ob, cb⟩
          rw [hga, hgb] at hg2
          obtain ⟨hval, hsim⟩ := hg2
          cases ob with
          | some v =>
              subst hval
              dsimp only
              exact ⟨rfl, hcore, hR, hsim, hL, hO, hOrd⟩
          | none =>
              subst hval
              dsimp only
              rfl

end DataTable

end Textual

namespace Textual

namespace DataTable

variable {α : Type}

/-- Bisimulation: the per-column render loop under `TableSim`. -/
theorem render_cells_loop_sim [DecidableEq α] (items : List (Nat × Column)) :
    ∀ (s t : DataTable α), TableSim s t →
    ∀ (ri : Int) (style : Style) (ln : Int) (cl hl : Coordinate)
      (ct : CursorType),
      SimE TableSim (render_cells_loop s items ri style ln cl hl ct)
        (render_cells_loop t items ri style ln cl hl ct) := by
  induction items with
  | nil =>
      intro s t h ri style ln cl hl ct
      unfold render_cells_loop
      exact ⟨rfl, h⟩
  | cons p rest ih =>
      intro s t h ri style ln cl hl ct
      rcases p with ⟨ci, col⟩
      unfold render_cells_loop
      dsimp only
      have hcell := render_cell_sim s t h ri (ci : Int) style col.render_width
        (should_highlight cl ⟨ri, (ci : Int)⟩ ct)
        (should_highlight hl ⟨ri, (ci : Int)⟩ ct)
      rcases hra : render_cell s ri (ci : Int) style col.render_width
          (should_highlight cl ⟨ri, (ci : Int)⟩ ct)
          (should_highlight hl ⟨ri, (ci : Int)⟩ ct) with e | ⟨rc, s₁⟩ <;>
        rcases hrb : render_cell t ri (ci : Int) style col.render_width
          (should_highlight cl ⟨ri, (ci : Int)⟩ ct)
          (should_highlight hl ⟨ri, (ci : Int)⟩ ct) with f | ⟨rc2, t₁⟩ <;>
        rw [hra, hrb] at hcell
      · exact hcell
      · exact hcell.elim
      · exact hcell.elim
      · obtain ⟨hv, hsim1⟩ := hcell
        dsimp only at hv
        subst hv
        dsimp only
        rcases hcl : rc.line ln with _ | cl0
        · rfl
        · dsimp only
          have hrec := ih s₁ t₁ hsim1 ri style ln cl hl ct
          rcases hca : render_cells_loop s₁ rest ri style ln cl hl ct
              with e | ⟨cls, s₂⟩ <;>
            rcases hcb : render_cells_loop t₁ rest ri style ln cl hl ct
              with f | ⟨cls2, t₂⟩ <;>
            rw [hca, hcb] at hrec
          · exact hrec
          · exact hrec.elim
          · exact hrec.elim
          · obtain ⟨hv2, hsim2⟩ := hrec
            dsimp only at hv2
            subst hv2
            exact ⟨rfl, hsim2⟩

end DataTable

end Textual

namespace Textual

namespace DataTable

variable {α : Type}

/-- Bisimulation: `_render_line_in_row` under `TableSim`: the row-cache key
carries the current counter, so both sides hit or both miss, produce the
same row pair, and stay related. -/
theorem render_line_in_row_sim [DecidableEq α] (s t : DataTable α)
    (h : TableSim s t) (rk : RowKey) (ln : Int) (bs : Style)
    (cl hl : Coordinate) :
    SimE TableSim (render_line_in_row s rk ln bs cl hl)
      (render_line_in_row t rk ln bs cl hl) := by
  obtain ⟨hcore, hR, hC, hL, hO, hOrd⟩ := h
  unfold render_line_in_row
  dsimp only
  have hkey : ((rk, ln, bs, cl, hl, s.cursor_type, s.show_cursor,
      s.show_hover_cursor, s.update_count) : RowCacheKey) =
      (rk, ln, bs, cl, hl, t.cursor_type, t.show_cursor,
        t.show_hover_cursor, t.update_count) := by
    rw [core_cursor_type hcore, core_show_cursor hcore,
      core_show_hover_cursor hcore, core_update_count hcore]
  rw [hkey]
  have hkc : RowCacheKey.count ((rk, ln, bs, cl, hl, t.cursor_type,
      t.show_cursor, t.show_hover_cursor, t.update_count) : RowCacheKey) =
      s.update_count := (core_update_count hcore).symm
  have hg := CacheSim.getTouch_sim RowCacheKey.count s.update_count _ _ hR
    (rk, ln, bs, cl, hl, t.cursor_type, t.show_cursor,
      t.show_hover_cursor, t.update_count) hkc rowKey_beq_count
  rcases hga : s.row_render_cache.getTouch (rk, ln, bs, cl, hl, t.cursor_type,
      t.show_cursor, t.show_hover_cursor, t.update_count) with ⟨oa, ca⟩
  rcases hgb : t.row_render_cache.getTouch (rk, ln, bs, cl, hl, t.cursor_type,
      t.show_cursor, t.show_hover_cursor, t.update_count) with ⟨ob, cb⟩
  rw [hga, hgb] at hg
  obtain ⟨hval, hsim⟩ := hg
  cases ob with
  | some pair =>
      subst hval
      dsimp only
      exact ⟨rfl, hcore, hsim, hC, hL, hO, hOrd⟩
  | none =>
      subst hval
      dsimp only
      rw [core_header_row_key hcore, core_row_locations hcore,
        core_component_style hcore, core_labelled_row_exists hcore,
        core_show_row_labels hcore, core_row_label_column_width hcore,
        core_cursor_type hcore]
      have htail : ∀ (lr : List (CellLine α)) (s₁ t₁ : DataTable α),
          TableSim s₁ t₁ → s₁.update_count = t.update_count →
          SimE TableSim
            (match ordered_columns s₁ with
             | Option.none => .error .lookupFailure
             | some cols =>
                match (if s₁.fixed_columns ≠ 0 then
                    render_cells_loop s₁ (cols.take s₁.fixed_columns).enum
                      ((t.row_locations.get rk).getD (-1))
                      (if rk = t.header_row_key then
                        t.component_style "datatable--header"
                      else (s₁.component_style
                        "datatable--fixed").addStyle Style.metaFixed)
                      ln cl hl t.cursor_type
                  else .ok ([], s₁)) with
                | .error e => .error e
                | .ok (fixed_cells, s₂) =>
                    match render_cells_loop s₂ cols.enum
                        ((t.row_locations.get rk).getD (-1))
                        (if rk = t.header_row_key then
                          t.component_style "datatable--header"
                        else if ((t.row_locations.get rk).getD (-1)) <
                            (s₂.fixed_rows : Int) then
                          s₂.component_style "datatable--fixed"
                        else if s₂.zebra_stripes then
                          (if ((t.row_locations.get rk).getD (-1)) % 2 ≠ 0 then
                            s₂.component_style "datatable--odd-row"
                          else s₂.component_style "datatable--even-row")
                        else bs)
                        ln cl hl t.cursor_type with
                    | .error e => .error e
                    | .ok (scrollable_row, s₃) =>
                        .ok ((lr ++ fixed_cells, scrollable_row),
                          { s₃ with row_render_cache :=
                              (s₃.row_render_cache.set
                                (rk, ln, bs, cl, hl, t.cursor_type,
                                  t.show_cursor, t.show_hover_cursor,
                                  t.update_count)
                                (lr ++ fixed_cells, scrollable_row)) }))
            (match ordered_columns t₁ with
             | Option.none => .error .lookupFailure
             | some cols =>
                match (if t₁.fixed_columns ≠ 0 then
                    render_cells_loop t₁ (cols.take t₁.fixed_columns).enum
                      ((t.row_locations.get rk).getD (-1))
                      (if rk = t.header_row_key then
                        t.component_style "datatable--header"
                      else (t₁.component_style
                        "datatable--fixed").addStyle Style.metaFixed)
                      ln cl hl t.cursor_type
                  else .ok ([], t₁)) with
                | .error e => .error e
                | .ok (fixed_cells, t₂) =>
                    match render_cells_loop t₂ cols.enum
                        ((t.row_locations.get rk).getD (-1))
                        (if rk = t.header_row_key then
                          t.component_style "datatable--header"
                        else if ((t.row_locations.get rk).getD (-1)) <
                            (t₂.fixed_rows : Int) then
                          t₂.component_style "datatable--fixed"
                        else if t₂.zebra_stripes then
                          (if ((t.row_locations.get rk).getD (-1)) % 2 ≠ 0 then
                            t₂.component_style "datatable--odd-row"
                          else t₂.component_style "datatable--even-row")
                        else bs)
                        ln cl hl t.cursor_type with
                    | .error e => .error e
                    | .ok (scrollable_row, t₃) =>
                        .ok ((lr ++ fixed_cells, scrollable_row),
                          { t₃ with row_render_cache :=
                              (t₃.row_render_cache.set
                                (rk, ln, bs, cl, hl, t.cursor_type,
                                  t.show_cursor, t.show_hover_cursor,
                                  t.update_count)
                                (lr ++ fixed_cells, scrollable_row)) })) := by
        intro lr s₁ t₁ hst hcnt1
        have hc1 := hst.1
        rw [ordered_columns_congr s₁ t₁ hc1]
        rcases hoc : ordered_columns t₁ with _ | cols
        · rfl
        · dsimp only
          rw [core_fixed_columns hc1, core_component_style hc1]
          have htail2 : ∀ (fr : List (CellLine α)) (s₂ t₂ : DataTable α),
              TableSim s₂ t₂ → s₂.update_count = t.update_count →
              SimE TableSim
                (match render_cells_loop s₂ cols.enum
                    ((t.row_locations.get rk).getD (-1))
                    (if rk = t.header_row_key then
                      t.component_style "datatable--header"
                    else if ((t.row_locations.get rk).getD (-1)) <
                        (s₂.fixed_rows : Int) then
                      s₂.component_style "datatable--fixed"
                    else if s₂.zebra_stripes then
                      (if ((t.row_locations.get rk).getD (-1)) % 2 ≠ 0 then
                        s₂.component_style "datatable--odd-row"
                      else s₂.component_style "datatable--even-row")
                    else bs)
                    ln cl hl t.cursor_type with
                | .error e => .error e
                | .ok (scrollable_row, s₃) =>
                    .ok ((fr, scrollable_row),
                      { s₃ with row_render_cache :=
                          (s₃.row_render_cache.set
                            (rk, ln, bs, cl, hl, t.cursor_type,
                              t.show_cursor, t.show_hover_cursor,
                              t.update_count)
                            (fr, scrollable_row)) }))
                (match render_cells_loop t₂ cols.enum
                    ((t.row_locations.get rk).getD (-1))
                    (if rk = t.header_row_key then
                      t.component_style "datatable--header"
                    else if ((t.row_locations.get rk).getD (-1)) <
                        (t₂.fixed_rows : Int) then
                      t₂.component_style "datatable--fixed"
                    else if t₂.zebra_stripes then
                      (if ((t.row_locations.get rk).getD (-1)) % 2 ≠ 0 then
                        t₂.component_style "datatable--odd-row"
                      else t₂.component_style "datatable--even-row")
                    else bs)
                    ln cl hl t.cursor_type with
                | .error e => .error e
                | .ok (scrollable_row, t₃) =>
                    .ok ((fr, scrollable_row),
                      { t₃ with row_render_cache :=
                          (t₃.row_render_cache.set
                            (rk, ln, bs, cl, hl, t.cursor_type,
                              t.show_cursor, t.show_hover_cursor,
                              t.update_count)
                            (fr, scrollable_row)) })) := by
            intro fr s₂ t₂ hst2 hcnt2
            have hc2 := hst2.1
            rw [core_fixed_rows hc2, core_component_style hc2,
              core_zebra_stripes hc2]
            have hsc := render_cells_loop_sim cols.enum s₂ t₂ hst2
              ((t.row_locations.get rk).getD (-1))
              (if rk = t.header_row_key then
                t.component_style "datatable--header"
              else if ((t.row_locations.get rk).getD (-1)) <
                  (t₂.fixed_rows : Int) then
                t₂.component_style "datatable--fixed"
              else if t₂.zebra_stripes then
                (if ((t.row_locations.get rk).getD (-1)) % 2 ≠ 0 then
                  t₂.component_style "datatable--odd-row"
                else t₂.component_style "datatable--even-row")
              else bs)
              ln cl hl t.cursor_type
            rcases hca : render_cells_loop s₂ cols.enum
                ((t.row_locations.get rk).getD (-1))
                (if rk = t.header_row_key then
                  t.component_style "datatable--header"
                else if ((t.row_locations.get rk).getD (-1)) <
                    (t₂.fixed_rows : Int) then
                  t₂.component_style "datatable--fixed"
                else if t₂.zebra_stripes then
                  (if ((t.row_locations.get rk).getD (-1)) % 2 ≠ 0 then
                    t₂.component_style "datatable--odd-row"
                  else t₂.component_style "datatable--even-row")
                else bs)
                ln cl hl t.cursor_type with e | ⟨sc, s₃⟩ <;>
              rcases hcb : render_cells_loop t₂ cols.enum
                ((t.row_locations.get rk).getD (-1))
                (if rk = t.header_row_key then
                  t.component_style "datatable--header"
                else if ((t.row_locations.get rk).getD (-1)) <
                    (t₂.fixed_rows : Int) then
                  t₂.component_style "datatable--fixed"
                else if t₂.zebra_stripes then
                  (if ((t.row_locations.get rk).getD (-1)) % 2 ≠ 0 then
                    t₂.component_style "datatable--odd-row"
                  else t₂.component_style "datatable--even-row")
                else bs)
                ln cl hl t.cursor_type with f | ⟨sc2, t₃⟩ <;>
              rw [hca, hcb] at hsc
            · exact hsc
            · exact hsc.elim
            · exact hsc.elim
            · obtain ⟨hv, hsim3⟩ := hsc
              dsimp only at hv
              subst hv
              have hu3 : s₃.update_count = t.update_count := by
                have e1 := core_update_count
                  (render_cells_loop_frame cols.enum s₂ _ _ _ _ _ _ _ _ hca).1
                exact e1.trans hcnt2
              exact ⟨rfl, hsim3.1, CacheSim.set_sim RowCacheKey.count
                  s₃.update_count _ _ hsim3.2.1
                  (rk, ln, bs, cl, hl, t.cursor_type, t.show_cursor,
                    t.show_hover_cursor, t.update_count)
                  hu3.symm rowKey_beq_count _,
                hsim3.2.2.1, hsim3.2.2.2.1, hsim3.2.2.2.2.1,
                hsim3.2.2.2.2.2⟩
          by_cases hfc : t₁.fixed_columns ≠ 0
          · rw [if_pos hfc, if_pos hfc]
            have hfp := render_cells_loop_sim (cols.take t₁.fixed_columns).enum
              s₁ t₁ hst ((t.row_locations.get rk).getD (-1))
              (if rk = t.header_row_key then
                t.component_style "datatable--header"
              else (t₁.component_style "datatable--fixed").addStyle
                Style.metaFixed)
              ln cl hl t.cursor_type
            rcases hfa : render_cells_loop s₁
                (cols.take t₁.fixed_columns).enum
                ((t.row_locations.get rk).getD (-1))
                (if rk = t.header_row_key then
                  t.component_style "datatable--header"
                else (t₁.component_style "datatable--fixed").addStyle
                  Style.metaFixed)
                ln cl hl t.cursor_type with e | ⟨fc, s₂⟩ <;>
              rcases hfb : render_cells_loop t₁
                (cols.take t₁.fixed_columns).enum
                ((t.row_locations.get rk).getD (-1))
                (if rk = t.header_row_key then
                  t.component_style "datatable--header"
                else (t₁.component_style "datatable--fixed").addStyle
                  Style.metaFixed)
                ln cl hl t.cursor_type with f | ⟨fc2, t₂⟩ <;>
              rw [hfa, hfb] at hfp
            · exact hfp
            · exact hfp.elim
            · exact hfp.elim
            · obtain ⟨hv, hsim2⟩ := hfp
              dsimp only at hv
              subst hv
              have hu2 : s₂.update_count = t.update_count := by
                have e1 := core_update_count (render_cells_loop_frame
                  (cols.take t₁.fixed_columns).enum s₁ _ _ _ _ _ _ _ _ hfa).1
                exact e1.trans hcnt1
              exact htail2 (lr ++ fc) s₂ t₂ hsim2 hu2
          · rw [if_neg hfc, if_neg hfc]
            exact htail2 (lr ++ []) s₁ t₁ hst hcnt1
      by_cases hlc : t.labelled_row_exists = true ∧ t.show_row_labels = true ∧
          ¬(rk = t.header_row_key)
      · rw [if_pos hlc, if_pos hlc]
        have hcell := render_cell_sim s t ⟨hcore, hR, hC, hL, hO, hOrd⟩
          ((t.row_locations.get rk).getD (-1)) (-1)
          (t.component_style "datatable--header") t.row_label_column_width
          false false
        rcases hra : render_cell s ((t.row_locations.get rk).getD (-1)) (-1)
            (t.component_style "datatable--header") t.row_label_column_width
            false false with e | ⟨rc, s₁⟩ <;>
          rcases hrb : render_cell t ((t.row_locations.get rk).getD (-1)) (-1)
            (t.component_style "datatable--header") t.row_label_column_width
            false false with f | ⟨rc2, t₁⟩ <;>
          rw [hra, hrb] at hcell
        · exact hcell
        · exact hcell.elim
        · exact hcell.elim
        · obtain ⟨hv, hsim1⟩ := hcell
          dsimp only at hv
          subst hv
          dsimp only
          rcases hcl : rc.line ln with _ | cl0
          · rfl
          · dsimp only
            have hu1 : s₁.update_count = t.update_count := by
              have e1 := core_update_count
                (render_cell_frame s _ _ _ _ _ _ rc s₁ hra).1
              exact e1.trans (core_update_count hcore)
            exact htail [cl0] s₁ t₁ hsim1 hu1
      · rw [if_neg hlc, if_neg hlc]
        exact htail [] s t ⟨hcore, hR, hC, hL, hO, hOrd⟩
          (core_update_count hcore)

end DataTable

end Textual

namespace Textual

namespace DataTable

variable {α : Type}

/-- Bisimulation: `_render_line` under `TableSim`: the line-cache key
carries the current counter, so both sides hit or both miss, produce the
same strip, and stay related. -/
theorem render_line_inner_sim [DecidableEq α] (s t : DataTable α)
    (h : TableSim s t) (y x1 x2 : Int) (bs : Style) :
    SimE TableSim (render_line_inner s y x1 x2 bs)
      (render_line_inner t y x1 x2 bs) := by
  have hcore := h.1
  unfold render_line_inner
  dsimp only
  have hsp := get_offsets_sim s t h y
  rcases hoa : get_offsets s y with ⟨ra, s₁⟩
  rcases hob : get_offsets t y with ⟨rb, t₁⟩
  rw [hoa, hob] at hsp
  obtain ⟨hr, hsim1⟩ := hsp
  dsimp only at hr
  subst hr
  have hc1 : core s₁ = core t₁ := hsim1.1
  cases ra with
  | none =>
      dsimp only
      rw [core_size_width hcore]
      exact ⟨rfl, hsim1⟩
  | some p =>
      rcases p with ⟨rk, off⟩
      dsimp only
      have hkey : ((y, x1, x2, s.size_width, s₁.cursor_coordinate,
          s₁.hover_coordinate, bs, s₁.cursor_type, s₁.show_hover_cursor,
          s₁.update_count) : LineCacheKey) =
          (y, x1, x2, t.size_width, t₁.cursor_coordinate,
            t₁.hover_coordinate, bs, t₁.cursor_type, t₁.show_hover_cursor,
            t₁.update_count) := by
        rw [core_size_width hcore, core_cursor_coordinate hc1,
          core_hover_coordinate hc1, core_cursor_type hc1,
          core_show_hover_cursor hc1, core_update_count hc1]
      rw [hkey]
      have hkc : LineCacheKey.count ((y, x1, x2, t.size_width,
          t₁.cursor_coordinate, t₁.hover_coordinate, bs, t₁.cursor_type,
          t₁.show_hover_cursor, t₁.update_count) : LineCacheKey) =
          s₁.update_count := (core_update_count hc1).symm
      have hg := CacheSim.getTouch_sim LineCacheKey.count s₁.update_count _ _
        hsim1.2.2.2.1 (y, x1, x2, t.size_width, t₁.cursor_coordinate,
          t₁.hover_coordinate, bs, t₁.cursor_type, t₁.show_hover_cursor,
          t₁.update_count) hkc lineKey_beq_count
      rcases hga : s₁.line_cache.getTouch (y, x1, x2, t.size_width,
          t₁.cursor_coordinate, t₁.hover_coordinate, bs, t₁.cursor_type,
          t₁.show_hover_cursor, t₁.update_count) with ⟨oa, ca⟩
      rcases hgb : t₁.line_cache.getTouch (y, x1, x2, t.size_width,
          t₁.cursor_coordinate, t₁.hover_coordinate, bs, t₁.cursor_type,
          t₁.show_hover_cursor, t₁.update_count) with ⟨ob, cb⟩
      rw [hga, hgb] at hg
      obtain ⟨hval, hsim⟩ := hg
      cases ob with
      | some strip =>
          subst hval
          dsimp only
          exact ⟨rfl, hc1, hsim1.2.1, hsim1.2.2.1, hsim, hsim1.2.2.2.2.1,
            hsim1.2.2.2.2.2⟩
      | none =>
          subst hval
          dsimp only
          rw [core_cursor_coordinate hc1, core_hover_coordinate hc1]
          have hrow := render_line_in_row_sim s₁ t₁ hsim1 rk off bs
            t₁.cursor_coordinate t₁.hover_coordinate
          rcases hra : render_line_in_row s₁ rk off bs t₁.cursor_coordinate
              t₁.hover_coordinate with e | ⟨⟨fixedA, scrollA⟩, s₂⟩ <;>
            rcases hrb : render_line_in_row t₁ rk off bs t₁.cursor_coordinate
              t₁.hover_coordinate with f | ⟨⟨fixedB, scrollB⟩, t₂⟩ <;>
            rw [hra, hrb] at hrow
          · exact hrow
          · exact hrow.elim
          · exact hrow.elim
          · obtain ⟨hv, hsim2⟩ := hrow
            dsimp only at hv
            simp only [Prod.mk.injEq] at hv
            obtain ⟨hv1, hv2⟩ := hv
            subst hv1
            subst hv2
            dsimp only
            rw [ordered_columns_congr s₂ t₂ hsim2.1]
            rcases hocs : ordered_columns t₂ with _ | cols
            · rfl
            · dsimp only
              have hfw : ((cols.take s₂.fixed_columns).map
                  Column.render_width).sum =
                  ((cols.take t₂.fixed_columns).map
                    Column.render_width).sum := by
                rw [core_fixed_columns hsim2.1]
              rw [hfw, core_size_width hcore]
              have hu2 : LineCacheKey.count ((y, x1, x2, t.size_width,
                  t₁.cursor_coordinate, t₁.hover_coordinate, bs,
                  t₁.cursor_type, t₁.show_hover_cursor,
                  t₁.update_count) : LineCacheKey) = s₂.update_count := by
                show t₁.update_count = s₂.update_count
                rw [core_update_count
                  (render_line_in_row_frame s₁ rk off bs _ _ _ s₂ hra).1,
                  core_update_count hc1]
              exact ⟨rfl, hsim2.1, hsim2.2.1, hsim2.2.2.1,
                CacheSim.set_sim LineCacheKey.count s₂.update_count _ _
                  hsim2.2.2.2.1 (y, x1, x2, t.size_width,
                    t₁.cursor_coordinate, t₁.hover_coordinate, bs,
                    t₁.cursor_type, t₁.show_hover_cursor, t₁.update_count)
                  hu2 lineKey_beq_count _,
                hsim2.2.2.2.2.1, hsim2.2.2.2.2.2⟩

end DataTable

end Textual

namespace Textual

namespace DataTable

variable {α : Type}

/-- Bisimulation: the public `render_line` under `TableSim`. -/
theorem render_line_sim [DecidableEq α] (s t : DataTable α)
    (h : TableSim s t) (y : Int) :
    SimE TableSim (render_line s y) (render_line t y) := by
  have hcore := h.1
  unfold render_line
  dsimp only
  rw [core_fixed_rows hcore, core_row_locations hcore,
    get_row_height_congr s t hcore, core_show_header hcore,
    core_header_row_key hcore, core_scroll_y hcore, core_scroll_x hcore,
    core_size_width hcore, core_rich_style hcore]
  split
  · rfl
  · split
    · rfl
    · exact render_line_inner_sim s t h _ _ _ _

/-- Bisimulation corollary: two `TableSim`-related states render every line
to the same strip outcome. -/
theorem render_line_strips_sim [DecidableEq α] (s t : DataTable α)
    (h : TableSim s t) (y : Int) :
    render_line_strips s y = render_line_strips t y := by
  unfold render_line_strips
  have hs := render_line_sim s t h y
  rcases ha : render_line s y with e | ⟨st1, s₁⟩ <;>
    rcases hb : render_line t y with f | ⟨st2, t₁⟩ <;>
    rw [ha, hb] at hs
  · rw [hs]
  · exact hs.elim
  · exact hs.elim
  · obtain ⟨hv, -⟩ := hs
    dsimp only at hv
    subst hv
    rfl

end DataTable

end Textual

namespace Textual

namespace DataTable

variable {α : Type}

/-- A state whose cache entries are all keyed strictly below the current
counter (and within capacity) is `TableSim`-related to its cold-cache
state: every entry is stale, so the caches behave as if empty. -/
theorem TableSim_clear (t : DataTable α)
    (hR : ∀ p ∈ t.row_render_cache.entries,
      RowCacheKey.count p.1 < t.update_count)
    (hC : ∀ p ∈ t.cell_render_cache.entries,
      CellCacheKey.count p.1 < t.update_count)
    (hL : ∀ p ∈ t.line_cache.entries,
      LineCacheKey.count p.1 < t.update_count)
    (hO : ∀ p ∈ t.offset_cache.entries, p.1 < t.update_count)
    (hOrd : ∀ p ∈ t.ordered_row_cache.entries, p.1.2 < t.update_count)
    (hd : caches_bounded t) :
    TableSim t (clear_caches t) :=
  ⟨rfl,
    ⟨rfl, ⟨t.row_render_cache.entries, rfl, hR⟩,
      fun p hp => absurd hp (List.not_mem_nil p), hd.1⟩,
    ⟨rfl, ⟨t.cell_render_cache.entries, rfl, hC⟩,
      fun p hp => absurd hp (List.not_mem_nil p), hd.2.1⟩,
    ⟨rfl, ⟨t.line_cache.entries, rfl, hL⟩,
      fun p hp => absurd hp (List.not_mem_nil p), hd.2.2.1⟩,
    ⟨rfl, ⟨t.offset_cache.entries, rfl, hO⟩,
      fun p hp => absurd hp (List.not_mem_nil p), hd.2.2.2.1⟩,
    ⟨rfl, ⟨t.ordered_row_cache.entries, rfl, hOrd⟩,
      fun p hp => absurd hp (List.not_mem_nil p), hd.2.2.2.2⟩⟩

/-- After a counter bump over sound caches, the new state is
`TableSim`-related to its cold-cache state. -/
theorem TableSim_clear_of_bump (t t₁ : DataTable α)
    (hcr : t₁.row_render_cache = t.row_render_cache)
    (hcc : t₁.cell_render_cache = t.cell_render_cache)
    (hcl : t₁.line_cache = t.line_cache)
    (hco : t₁.offset_cache = t.offset_cache)
    (hcor : t₁.ordered_row_cache = t.ordered_row_cache)
    (hcu : t₁.update_count = t.update_count + 1)
    (hb : caches_below t) (hd : caches_bounded t) :
    TableSim t₁ (clear_caches t₁) := by
  apply TableSim_clear
  · intro p hp
    rw [hcr] at hp
    rw [hcu]
    exact Nat.lt_succ_of_le (of_decide_eq_true (List.all_eq_true.mp hb.1 p hp))
  · intro p hp
    rw [hcc] at hp
    rw [hcu]
    exact Nat.lt_succ_of_le
      (of_decide_eq_true (List.all_eq_true.mp hb.2.1 p hp))
  · intro p hp
    rw [hcl] at hp
    rw [hcu]
    exact Nat.lt_succ_of_le
      (of_decide_eq_true (List.all_eq_true.mp hb.2.2.1 p hp))
  · intro p hp
    rw [hco] at hp
    rw [hcu]
    exact Nat.lt_succ_of_le
      (of_decide_eq_true (List.all_eq_true.mp hb.2.2.2.1 p hp))
  · intro p hp
    rw [hcor] at hp
    rw [hcu]
    exact Nat.lt_succ_of_le
      (of_decide_eq_true (List.all_eq_true.mp hb.2.2.2.2 p hp))
  · exact ⟨by rw [hcr]; exact hd.1, by rw [hcc]; exact hd.2.1,
      by rw [hcl]; exact hd.2.2.1, by rw [hco]; exact hd.2.2.2.1,
      by rw [hcor]; exact hd.2.2.2.2⟩

end DataTable

end Textual

namespace Textual

/-- C1: starting from any state whose render caches are sound (every entry
keyed at or below the current counter and within capacity — true of every
reachable state), each counter-bumping mutation (`update_cell`, `add_row`,
`sort`) leaves the new state's caches keyed strictly below the new counter,
so every subsequent render-cache lookup (all keyed at the new counter)
misses the old entries: rendering any line from the mutated state returns
exactly what a cold-cache render returns — in particular, after
`update_cell` the re-rendered line reflects the new value, never a cached
old strip. -/
theorem c1_no_stale_cache_reads {α : Type} [DecidableEq α] (t : DataTable α)
    (hb : DataTable.caches_below t) (hd : DataTable.caches_bounded t) :
    (∀ (rk : RowKey) (ck : ColumnKey) (v : α) (uw : Bool)
        (t₁ : DataTable α) (eff : List (Effect α)),
      DataTable.update_cell t rk ck v uw = .ok (t₁, eff) →
      t₁.update_count = t.update_count + 1 ∧
      ∀ y, DataTable.render_line_strips t₁ y =
        DataTable.render_line_strips (DataTable.clear_caches t₁) y) ∧
    (∀ (cells : List α) (hgt : Nat) (key label : Option String)
        (rk : RowKey) (t₁ : DataTable α) (eff : List (Effect α)),
      DataTable.add_row t cells hgt key label = .ok ((rk, t₁), eff) →
      t₁.update_count = t.update_count + 1 ∧
      ∀ y, DataTable.render_line_strips t₁ y =
        DataTable.render_line_strips (DataTable.clear_caches t₁) y) ∧
    (∀ (cols : List ColumnKey) (lt : Option α → Option α → Bool) (rev : Bool)
        (t₁ : DataTable α) (eff : List (Effect α)),
      DataTable.sort t cols lt rev = .ok (t₁, eff) →
      t₁.update_count = t.update_count + 1 ∧
      ∀ y, DataTable.render_line_strips t₁ y =
        DataTable.render_line_strips (DataTable.clear_caches t₁) y) := by
  refine ⟨?_, ?_, ?_⟩
  · intro rk ck v uw t₁ eff h
    unfold DataTable.update_cell at h
    split at h
    case h_1 => exact absurd h (by simp)
    case h_2 row_data hrd =>
      dsimp only at h
      simp only [Except.ok.injEq, Prod.mk.injEq] at h
      obtain ⟨hif, -⟩ := h
      split at hif <;> subst hif <;>
        refine ⟨rfl, fun y => DataTable.render_line_strips_sim _ _ ?_ y⟩ <;>
        exact DataTable.TableSim_clear_of_bump t _ rfl rfl rfl rfl rfl rfl
          hb hd
  · intro cells hgt key label rk t₁ eff h
    unfold DataTable.add_row at h
    dsimp only at h
    split at h
    case isTrue => exact absurd h (by simp)
    case isFalse hdup =>
      rcases hoc : DataTable.ordered_columns
          { t with next_uid := t.next_uid + 1 } with _ | cols
      · rw [hoc] at h; exact absurd h (by simp)
      · rw [hoc] at h
        dsimp only at h
        split at h
        case isTrue => exact absurd h (by simp)
        case isFalse hlen =>
          split at h
          case h_1 => exact absurd h (by simp)
          case h_2 t₂ eff₁ heq =>
            split at h
            case h_1 => exact absurd h (by simp)
            case h_2 t₃ eff₂ heq2 =>
              simp only [Except.ok.injEq, Prod.mk.injEq] at h
              obtain ⟨⟨-, hrec⟩, -⟩ := h
              obtain ⟨hb2, hd2⟩ :=
                DataTable.set_cursor_coordinate_ok _ _ t₂ eff₁ heq hb hd
              have h2u : t₂.update_count = t.update_count := by
                have h0 := core_update_count
                  (DataTable.set_cursor_coordinate_frame _ _ _ _ heq).1
                exact h0
              have hb3 : DataTable.caches_below t₃ ∧
                  DataTable.caches_bounded t₃ ∧
                  t₃.update_count = t.update_count := by
                split at heq2
                · obtain ⟨hb3, hd3⟩ :=
                    DataTable.highlight_cursor_ok _ t₃ eff₂ heq2 hb2 hd2
                  refine ⟨hb3, hd3, ?_⟩
                  rw [core_update_count
                    (DataTable.highlight_cursor_frame _ _ _ heq2).1]
                  exact h2u
                · simp only [Option.some.injEq, Prod.mk.injEq] at heq2
                  obtain ⟨ht3, -⟩ := heq2
                  subst ht3
                  exact ⟨hb2, hd2, h2u⟩
              subst hrec
              refine ⟨?_, fun y =>
                DataTable.render_line_strips_sim _ _ ?_ y⟩
              · show t₃.update_count + 1 = t.update_count + 1
                rw [hb3.2.2]
              · exact DataTable.TableSim_clear_of_bump t₃ _ rfl rfl rfl rfl
                  rfl rfl hb3.1 hb3.2.1
  · intro cols lt rev t₁ eff h
    unfold DataTable.sort at h
    split at h
    case isTrue => exact absurd h (by simp)
    case isFalse hne =>
      split at h
      case h_1 => exact absurd h (by simp)
      case h_2 keyed hmm =>
        dsimp only at h
        simp only [Except.ok.injEq, Prod.mk.injEq] at h
        obtain ⟨hrec, -⟩ := h
        subst hrec
        refine ⟨rfl, fun y => DataTable.render_line_strips_sim _ _ ?_ y⟩
        exact DataTable.TableSim_clear_of_bump t _ rfl rfl rfl rfl rfl rfl
          hb hd

end Textual

namespace Textual

/-- C1 witness: the sample table's caches are sound; updating cell
`("r1","a")` bumps the counter and re-rendering line 1 from the mutated
state matches a cold-cache render. -/
theorem c1_no_stale_cache_reads_witness :
    DataTable.caches_below sampleT4 ∧ DataTable.caches_bounded sampleT4 ∧
    updatedSampleT4.update_count = sampleT4.update_count + 1 ∧
    DataTable.render_line_strips updatedSampleT4 1 =
      DataTable.render_line_strips
        (DataTable.clear_caches updatedSampleT4) 1 := by
  have h := (c1_no_stale_cache_reads sampleT4 (by decide) (by decide)).1
    keyR1 keyA 42 false updatedSampleT4 [Effect.refreshFull] (by rfl)
  exact ⟨by decide, by decide, h.1, h.2 1⟩

end Textual
